import Mathlib

/-!
# ImageVis3D resource manager (`Renderer/GPUMemMan/GPUMemMan.cpp`)

A shallow embedding of `GPUMemMan`: the seven registries, the two committed
memory totals, and every member function of `GPUMemMan.cpp`.

Conventions of the embedding

* A C++ pointer is the address it holds (`Nat`); a function that may return
  `NULL` returns an `Option`.
* An object that the manager only observes through accessor calls is a record of
  its address and of the accessor results (`VolumeDataset`, `GLObject`).
* `std::vector` / `std::deque` members are lists, in container order.
* `UINT64` / `size_t` arithmetic is on `Nat` with an explicit reduction modulo
  `2^64` (`wadd`, `wsub`).
* Whatever a constructor call (`new ...`) or a collaborator (`BMPLoader::Load`)
  produces is an extra argument of the embedded function.
* Log output (`DebugOut()`) is not part of the state. Where the arguments of a
  log call read through a pointer that the caller passed in and that the manager
  does not hold, what the read yields is an extra argument as well; a read
  through a null or dangling pointer has no defined result, and the embedded
  function then returns `none`.
-/

namespace ImageVis3D

/-! ## Machine arithmetic -/

/-- Number of values of a `UINT64` / `size_t`. -/
def WORD : Nat := 18446744073709551616

/-- Unsigned 64-bit `a += b` (the new value of `a`). -/
def wadd (a b : Nat) : Nat := (a + b) % WORD

/-- Unsigned 64-bit `a -= b` (the new value of `a`). -/
def wsub (a b : Nat) : Nat := (a + WORD - b % WORD) % WORD

/-! ## Data model

`GPUMemMan.h` (the declarations of the list element types) is not among the
sources; the records below have the members that `GPUMemMan.cpp` reads and
writes, with the names used there. -/

/-- A `VolumeDataset` object as seen through a `VolumeDataset*`: its address and
what `Filename()` and `IsOpen()` return. -/
structure VolumeDataset where
  addr : Nat
  filename : String
  isOpen : Bool
deriving DecidableEq, Repr

/-- A GL resource as seen through its pointer (`GLTexture1D*`, `GLTexture2D*`,
`GLTexture3D*`, `GLFBOTex*`, `GLSLProgram*`): its address and what `GetCPUSize()`
and `GetGPUSize()` return. -/
structure GLObject where
  addr : Nat
  cpuSize : Nat
  gpuSize : Nat
deriving DecidableEq, Repr

/-- Element of `m_vpVolumeDatasets`, built by `VolDataListElem(dataset, requester)`. -/
structure VolDataListElem where
  pVolumeDataset : VolumeDataset
  qpUser : List Nat
deriving DecidableEq, Repr

/-- Element of `m_vpSimpleTextures`, built by
`SimpleTextureListElem(counter, tex, strFilename)`.
Modelled from the spec: the width of `iAccessCounter` is declared in the absent
header; the spec calls it an "integer access counter", so it is an unbounded
integer here. -/
structure SimpleTextureListElem where
  iAccessCounter : Int
  pTexture : GLObject
  strFilename : String
deriving DecidableEq, Repr

/-- Element of `m_vpTrans1DList`, built by `Trans1DListElem(tf, tex, requester)`. -/
structure Trans1DListElem where
  pTransferFunction1D : Nat
  pTexture : GLObject
  qpUser : List Nat
deriving DecidableEq, Repr

/-- Element of `m_vpTrans2DList`, built by `Trans2DListElem(tf, tex, requester)`. -/
structure Trans2DListElem where
  pTransferFunction2D : Nat
  pTexture : GLObject
  qpUser : List Nat
deriving DecidableEq, Repr

/-- Element of `m_vpTex3DList`, built by `Texture3DListElem(pDataset, vLOD, vBrick)`;
`pTexture` is the texture that constructor creates. -/
structure Texture3DListElem where
  pDataset : Nat
  vLOD : List Nat
  vBrick : List Nat
  pTexture : GLObject
deriving DecidableEq, Repr

/-- Element of `m_vpFBOList`. -/
structure FBOListElem where
  pFBOTex : GLObject
deriving DecidableEq, Repr

/-- Element of `m_vpGLSLList`, built by `GLSLListElem(controller, strVSFile, strFSFile)`.
The counter is an unbounded integer as for `SimpleTextureListElem`. -/
structure GLSLListElem where
  strVSFile : String
  strFSFile : String
  iAccessCounter : Int
  pGLSLProgram : GLObject
deriving DecidableEq, Repr

/-- The data members of `GPUMemMan`. -/
structure GPUMemMan where
  m_vpVolumeDatasets : List VolDataListElem
  m_vpSimpleTextures : List SimpleTextureListElem
  m_vpTrans1DList : List Trans1DListElem
  m_vpTrans2DList : List Trans2DListElem
  m_vpTex3DList : List Texture3DListElem
  m_vpFBOList : List FBOListElem
  m_vpGLSLList : List GLSLListElem
  m_iAllocatedGPUMemory : Nat
  m_iAllocatedCPUMemory : Nat
deriving DecidableEq, Repr

/-- Modelled from the spec: `Texture3DListElem::Match` is declared in the absent
header; the spec gives a 3-D texture entry the identity
"(dataset, level-of-detail index, brick coordinate) triple", so `Match` is
equality on that triple. -/
def Texture3DListElem.Match (e : Texture3DListElem) (pDataset : Nat)
    (vLOD vBrick : List Nat) : Bool :=
  e.pDataset == pDataset && e.vLOD == vLOD && e.vBrick == vBrick

/-- The first element of a container that satisfies `hit`, with the elements
before and after it: the position at which a loop
`for (i = begin(); i < end(); i++) if (hit(*i)) { ...; return; }` acts. -/
def splitFirst {α : Type} (hit : α → Bool) : List α → Option (List α × α × List α)
  | [] => none
  | i :: rest =>
    if hit i then some ([], i, rest)
    else
      match splitFirst hit rest with
      | none => none
      | some (pre, j, post) => some (i :: pre, j, post)

namespace GPUMemMan

/-- The constructor `GPUMemMan::GPUMemMan`: empty registries, both totals 0. -/
def init : GPUMemMan :=
  { m_vpVolumeDatasets := [], m_vpSimpleTextures := [], m_vpTrans1DList := [],
    m_vpTrans2DList := [], m_vpTex3DList := [], m_vpFBOList := [], m_vpGLSLList := [],
    m_iAllocatedGPUMemory := 0, m_iAllocatedCPUMemory := 0 }

/-- The statement pair
`m_iAllocatedGPUMemory += o->GetCPUSize(); m_iAllocatedCPUMemory += o->GetGPUSize();`
exactly as it is written at every creation site of `GPUMemMan.cpp`. -/
def addSizes (s : GPUMemMan) (o : GLObject) : GPUMemMan :=
  { s with
    m_iAllocatedGPUMemory := wadd s.m_iAllocatedGPUMemory o.cpuSize
    m_iAllocatedCPUMemory := wadd s.m_iAllocatedCPUMemory o.gpuSize }

/-- The statement pair
`m_iAllocatedGPUMemory -= o->GetCPUSize(); m_iAllocatedCPUMemory -= o->GetGPUSize();`
exactly as it is written at every destruction site of `GPUMemMan.cpp`. -/
def subSizes (s : GPUMemMan) (o : GLObject) : GPUMemMan :=
  { s with
    m_iAllocatedGPUMemory := wsub s.m_iAllocatedGPUMemory o.cpuSize
    m_iAllocatedCPUMemory := wsub s.m_iAllocatedCPUMemory o.gpuSize }

/-! ### Datasets -/

/-- `GPUMemMan::LoadDataset`. `dataset` is the object that
`new VolumeDataset(strFilename, false, m_MasterController)` yields when the loop
finds no entry. Returns the new state and the returned pointer. -/
def LoadDataset (s : GPUMemMan) (strFilename : String) (requester : Nat)
    (dataset : VolumeDataset) : GPUMemMan × Option Nat :=
  match splitFirst (fun i => i.pVolumeDataset.filename == strFilename) s.m_vpVolumeDatasets with
  | some (pre, i, post) =>
    ({ s with m_vpVolumeDatasets := pre ++ { i with qpUser := i.qpUser ++ [requester] } :: post },
      some i.pVolumeDataset.addr)
  | none =>
    if dataset.isOpen then
      ({ s with m_vpVolumeDatasets := s.m_vpVolumeDatasets ++ [⟨dataset, [requester]⟩] },
        some dataset.addr)
    else (s, none)

/-- The loop of `GPUMemMan::FreeAssociatedTextures`, one loop test per unit of
fuel, `i` being the `size_t` index. `none` means the fuel ran out before the loop
test failed. After an erase the index is decremented and then incremented by the
loop header, both modulo `2^64`. -/
def FreeAssociatedTextures.loop (pDataset : Nat) : Nat → Nat → GPUMemMan → Option GPUMemMan
  | 0, _, _ => none
  | fuel + 1, i, s =>
    match s.m_vpTex3DList[i]? with
    | none => some s
    | some e =>
      if e.pDataset == pDataset then
        loop pDataset fuel (wadd (wsub i 1) 1)
          { subSizes s e.pTexture with m_vpTex3DList := s.m_vpTex3DList.eraseIdx i }
      else loop pDataset fuel (wadd i 1) s

/-- `GPUMemMan::FreeAssociatedTextures`: the loop started at `i = 0` with fuel for
`size() + 1` loop tests, which is what the loop needs on any vector whose size
fits a `size_t` (`FreeAssociatedTextures_loop_run`). -/
def FreeAssociatedTextures (s : GPUMemMan) (pDataset : Nat) : GPUMemMan :=
  (FreeAssociatedTextures.loop pDataset (s.m_vpTex3DList.length + 1) 0 s).getD s

/-- `GPUMemMan::FreeDataset`. The loops stop at the first entry whose dataset
pointer is `pVolumeDataset` and whose `qpUser` holds `requester`; the first such
`requester` is erased. On that path every `pVolumeDataset->Filename()` reads the
dataset of the entry found, which the manager keeps alive until the `delete`.
Without such an entry the statement after the loops builds its warning from
`pVolumeDataset->Filename()`, that is, it dereferences the pointer of the caller:
`pointeeFilename` is what that expression evaluates to, and it is `none` when the
pointer is null or points to a dataset that has been deleted, in which case the
call has no defined result (`none`). -/
def FreeDataset (s : GPUMemMan) (pVolumeDataset : Nat) (requester : Nat)
    (pointeeFilename : Option String) : Option GPUMemMan :=
  match splitFirst (fun i => i.pVolumeDataset.addr == pVolumeDataset && i.qpUser.contains requester)
      s.m_vpVolumeDatasets with
  | some (pre, i, post) =>
    let qpUser := i.qpUser.erase requester
    if qpUser.length == 0 then
      some { FreeAssociatedTextures s pVolumeDataset with m_vpVolumeDatasets := pre ++ post }
    else some { s with m_vpVolumeDatasets := pre ++ { i with qpUser := qpUser } :: post }
  | none =>
    match pointeeFilename with
    | some _ => some s
    | none => none

/-! ### Simple textures -/

/-- `GPUMemMan::Load2DTextureFromFile`. `image` is `none` when `BMPLoader::Load`
fails and otherwise the `GLTexture2D` built from the decoded image. -/
def Load2DTextureFromFile (s : GPUMemMan) (strFilename : String) (image : Option GLObject) :
    GPUMemMan × Option Nat :=
  match splitFirst (fun i => i.strFilename == strFilename) s.m_vpSimpleTextures with
  | some (pre, i, post) =>
    ({ s with m_vpSimpleTextures := pre ++ { i with iAccessCounter := i.iAccessCounter + 1 } :: post },
      some i.pTexture.addr)
  | none =>
    match image with
    | none => (s, none)
    | some tex =>
      ({ addSizes s tex with m_vpSimpleTextures := s.m_vpSimpleTextures ++ [⟨1, tex, strFilename⟩] },
        some tex.addr)

/-- `GPUMemMan::FreeTexture`. -/
def FreeTexture (s : GPUMemMan) (pTexture : Nat) : GPUMemMan :=
  match splitFirst (fun i => i.pTexture.addr == pTexture) s.m_vpSimpleTextures with
  | some (pre, i, post) =>
    if i.iAccessCounter - 1 == 0 then
      { subSizes s i.pTexture with m_vpSimpleTextures := pre ++ post }
    else
      { s with m_vpSimpleTextures := pre ++ { i with iAccessCounter := i.iAccessCounter - 1 } :: post }
  | none => s

/-! ### 1-D transfer functions -/

/-- `GPUMemMan::Changed1DTrans`: the renderers on which `Changed1DTrans()` is
invoked, one list element per invocation, in invocation order. The manager's own
members are not written. -/
def Changed1DTrans (s : GPUMemMan) (requester : Nat) (pTransferFunction1D : Nat) : List Nat :=
  s.m_vpTrans1DList.flatMap fun i =>
    if i.pTransferFunction1D == pTransferFunction1D then i.qpUser.filter (fun j => j != requester)
    else []

/-- `GPUMemMan::GetEmpty1DTrans`. `tf` is the address of the new
`TransferFunction1D(iSize)` and `tex` the `GLTexture1D` created from it (the two
out-parameters). -/
def GetEmpty1DTrans (s : GPUMemMan) (_iSize : Nat) (requester : Nat) (tf : Nat) (tex : GLObject) :
    GPUMemMan :=
  { addSizes s tex with m_vpTrans1DList := s.m_vpTrans1DList ++ [⟨tf, tex, [requester]⟩] }

/-- `GPUMemMan::Get1DTransFromFile`. `tf` is the address of the new
`TransferFunction1D(strFilename)` and `tex` the `GLTexture1D` created from it. -/
def Get1DTransFromFile (s : GPUMemMan) (_strFilename : String) (requester : Nat) (tf : Nat)
    (tex : GLObject) : GPUMemMan :=
  { addSizes s tex with m_vpTrans1DList := s.m_vpTrans1DList ++ [⟨tf, tex, [requester]⟩] }

/-- `GPUMemMan::Access1DTrans`. -/
def Access1DTrans (s : GPUMemMan) (pTransferFunction1D : Nat) (requester : Nat) :
    GPUMemMan × Option Nat :=
  match splitFirst (fun i => i.pTransferFunction1D == pTransferFunction1D) s.m_vpTrans1DList with
  | some (pre, i, post) =>
    ({ s with m_vpTrans1DList := pre ++ { i with qpUser := i.qpUser ++ [requester] } :: post },
      some i.pTexture.addr)
  | none => (s, none)

/-- `GPUMemMan::Free1DTrans`. -/
def Free1DTrans (s : GPUMemMan) (pTransferFunction1D : Nat) (requester : Nat) : GPUMemMan :=
  match splitFirst
      (fun i => i.pTransferFunction1D == pTransferFunction1D && i.qpUser.contains requester)
      s.m_vpTrans1DList with
  | some (pre, i, post) =>
    let qpUser := i.qpUser.erase requester
    if qpUser.length == 0 then
      { subSizes s i.pTexture with m_vpTrans1DList := pre ++ post }
    else { s with m_vpTrans1DList := pre ++ { i with qpUser := qpUser } :: post }
  | none => s

/-! ### 2-D transfer functions -/

/-- `GPUMemMan::Changed2DTrans`: the renderers on which `Changed2DTrans()` is
invoked, one list element per invocation, in invocation order. -/
def Changed2DTrans (s : GPUMemMan) (requester : Nat) (pTransferFunction2D : Nat) : List Nat :=
  s.m_vpTrans2DList.flatMap fun i =>
    if i.pTransferFunction2D == pTransferFunction2D then i.qpUser.filter (fun j => j != requester)
    else []

/-- `GPUMemMan::GetEmpty2DTrans`. `tf` is the address of the new
`TransferFunction2D(iSize)` and `tex` the `GLTexture2D` created from it. -/
def GetEmpty2DTrans (s : GPUMemMan) (_iSize : Nat × Nat) (requester : Nat) (tf : Nat)
    (tex : GLObject) : GPUMemMan :=
  { addSizes s tex with m_vpTrans2DList := s.m_vpTrans2DList ++ [⟨tf, tex, [requester]⟩] }

/-- `GPUMemMan::Get2DTransFromFile`. `tf` is the address of the new
`TransferFunction2D(strFilename)` and `tex` the `GLTexture2D` created from it. -/
def Get2DTransFromFile (s : GPUMemMan) (_strFilename : String) (requester : Nat) (tf : Nat)
    (tex : GLObject) : GPUMemMan :=
  { addSizes s tex with m_vpTrans2DList := s.m_vpTrans2DList ++ [⟨tf, tex, [requester]⟩] }

/-- `GPUMemMan::Access2DTrans`. -/
def Access2DTrans (s : GPUMemMan) (pTransferFunction2D : Nat) (requester : Nat) :
    GPUMemMan × Option Nat :=
  match splitFirst (fun i => i.pTransferFunction2D == pTransferFunction2D) s.m_vpTrans2DList with
  | some (pre, i, post) =>
    ({ s with m_vpTrans2DList := pre ++ { i with qpUser := i.qpUser ++ [requester] } :: post },
      some i.pTexture.addr)
  | none => (s, none)

/-- `GPUMemMan::Free2DTrans`. -/
def Free2DTrans (s : GPUMemMan) (pTransferFunction2D : Nat) (requester : Nat) : GPUMemMan :=
  match splitFirst
      (fun i => i.pTransferFunction2D == pTransferFunction2D && i.qpUser.contains requester)
      s.m_vpTrans2DList with
  | some (pre, i, post) =>
    let qpUser := i.qpUser.erase requester
    if qpUser.length == 0 then
      { subSizes s i.pTexture with m_vpTrans2DList := pre ++ post }
    else { s with m_vpTrans2DList := pre ++ { i with qpUser := qpUser } :: post }
  | none => s

/-! ### 3-D textures -/

/-- `GPUMemMan::Get3DTexture`. `pTexture` is the texture that
`new Texture3DListElem(pDataset, vLOD, vBrick)` creates when no entry matches. -/
def Get3DTexture (s : GPUMemMan) (pDataset : Nat) (vLOD vBrick : List Nat) (pTexture : GLObject) :
    GPUMemMan × Option Nat :=
  match splitFirst (fun i => i.Match pDataset vLOD vBrick) s.m_vpTex3DList with
  | some (_, i, _) => (s, some i.pTexture.addr)
  | none =>
    ({ addSizes s pTexture with
        m_vpTex3DList := s.m_vpTex3DList ++ [⟨pDataset, vLOD, vBrick, pTexture⟩] },
      some pTexture.addr)

/-- `GPUMemMan::MemSizesChanged`. The two arguments are what
`m_SystemInfo->GetMaxUsableCPUMem()` and `GetMaxUsableGPUMem()` return; both
`if` bodies are empty. -/
def MemSizesChanged (s : GPUMemMan) (maxUsableCPUMem maxUsableGPUMem : Nat) : GPUMemMan :=
  let s := if s.m_iAllocatedCPUMemory > maxUsableCPUMem then s else s
  if s.m_iAllocatedGPUMemory > maxUsableGPUMem then s else s

/-! ### Offscreen targets and shader programs -/

/-- `GPUMemMan::GetFBO`. `pFBOTex` is the `GLFBOTex` that
`new FBOListElem(controller, minfilter, ..., iNumBuffers)` creates; the nine GL
parameters are used by that constructor only. -/
def GetFBO (s : GPUMemMan) (pFBOTex : GLObject) : GPUMemMan × Option Nat :=
  (addSizes { s with m_vpFBOList := s.m_vpFBOList ++ [⟨pFBOTex⟩] } pFBOTex, some pFBOTex.addr)

/-- `GPUMemMan::FreeFBO`. -/
def FreeFBO (s : GPUMemMan) (pFBO : Nat) : GPUMemMan :=
  match splitFirst (fun i => i.pFBOTex.addr == pFBO) s.m_vpFBOList with
  | some (pre, i, post) => { subSizes s i.pFBOTex with m_vpFBOList := pre ++ post }
  | none => s

/-- `GPUMemMan::GetGLSLProgram`. `e` is the element that
`new GLSLListElem(controller, strVSFile, strFSFile)` creates when no entry has
this pair of files. -/
def GetGLSLProgram (s : GPUMemMan) (strVSFile strFSFile : String) (e : GLSLListElem) :
    GPUMemMan × Option Nat :=
  match splitFirst (fun i => i.strVSFile == strVSFile && i.strFSFile == strFSFile)
      s.m_vpGLSLList with
  | some (pre, i, post) =>
    ({ s with m_vpGLSLList := pre ++ { i with iAccessCounter := i.iAccessCounter + 1 } :: post },
      some i.pGLSLProgram.addr)
  | none =>
    (addSizes { s with m_vpGLSLList := s.m_vpGLSLList ++ [e] } e.pGLSLProgram,
      some e.pGLSLProgram.addr)

/-- `GPUMemMan::FreeGLSLProgram`. -/
def FreeGLSLProgram (s : GPUMemMan) (pGLSLProgram : Nat) : GPUMemMan :=
  match splitFirst (fun i => i.pGLSLProgram.addr == pGLSLProgram) s.m_vpGLSLList with
  | some (pre, i, post) =>
    if i.iAccessCounter - 1 == 0 then
      { subSizes s i.pGLSLProgram with m_vpGLSLList := pre ++ post }
    else
      { s with m_vpGLSLList := pre ++ { i with iAccessCounter := i.iAccessCounter - 1 } :: post }
  | none => s

/-! ### Teardown -/

/-- The loops of `GPUMemMan::~GPUMemMan` up to the two assertions: every entry
still present in a registry has its sizes subtracted. The dataset loop changes
no total. -/
def destructor (s : GPUMemMan) : GPUMemMan :=
  let s := s.m_vpSimpleTextures.foldl (fun s i => subSizes s i.pTexture) s
  let s := s.m_vpTrans1DList.foldl (fun s i => subSizes s i.pTexture) s
  let s := s.m_vpTrans2DList.foldl (fun s i => subSizes s i.pTexture) s
  let s := s.m_vpTex3DList.foldl (fun s i => subSizes s i.pTexture) s
  let s := s.m_vpFBOList.foldl (fun s i => subSizes s i.pFBOTex) s
  s.m_vpGLSLList.foldl (fun s i => subSizes s i.pGLSLProgram) s

/-- The two assertions that end `GPUMemMan::~GPUMemMan`, tested on the state the
loops leave. -/
def destructorAsserts (s : GPUMemMan) : Bool :=
  (destructor s).m_iAllocatedGPUMemory == 0 && (destructor s).m_iAllocatedCPUMemory == 0

/-! ### The manager as a transition system -/

/-- One call of a public member function, with its arguments and with whatever
the constructors, collaborators and pointer dereferences reached by the call
produce. -/
inductive Op where
  | LoadDataset (strFilename : String) (requester : Nat) (dataset : VolumeDataset)
  | FreeDataset (pVolumeDataset : Nat) (requester : Nat) (pointeeFilename : Option String)
  | Load2DTextureFromFile (strFilename : String) (image : Option GLObject)
  | FreeTexture (pTexture : Nat)
  | Changed1DTrans (requester : Nat) (pTransferFunction1D : Nat)
  | GetEmpty1DTrans (iSize : Nat) (requester : Nat) (tf : Nat) (tex : GLObject)
  | Get1DTransFromFile (strFilename : String) (requester : Nat) (tf : Nat) (tex : GLObject)
  | Access1DTrans (pTransferFunction1D : Nat) (requester : Nat)
  | Free1DTrans (pTransferFunction1D : Nat) (requester : Nat)
  | Changed2DTrans (requester : Nat) (pTransferFunction2D : Nat)
  | GetEmpty2DTrans (iSize : Nat × Nat) (requester : Nat) (tf : Nat) (tex : GLObject)
  | Get2DTransFromFile (strFilename : String) (requester : Nat) (tf : Nat) (tex : GLObject)
  | Access2DTrans (pTransferFunction2D : Nat) (requester : Nat)
  | Free2DTrans (pTransferFunction2D : Nat) (requester : Nat)
  | Get3DTexture (pDataset : Nat) (vLOD vBrick : List Nat) (pTexture : GLObject)
  | MemSizesChanged (maxUsableCPUMem maxUsableGPUMem : Nat)
  | GetFBO (pFBOTex : GLObject)
  | FreeFBO (pFBO : Nat)
  | GetGLSLProgram (strVSFile strFSFile : String) (e : GLSLListElem)
  | FreeGLSLProgram (pGLSLProgram : Nat)
deriving DecidableEq, Repr

/-- The state after one public call. A `FreeDataset` call without a defined result
(a miss with a pointer that cannot be dereferenced) leaves the state as it is, so
that the sequences of calls followed here include every sequence on which the
code has defined behaviour. -/
def step (s : GPUMemMan) : Op → GPUMemMan
  | .LoadDataset f r d => (s.LoadDataset f r d).1
  | .FreeDataset p r fn => (s.FreeDataset p r fn).getD s
  | .Load2DTextureFromFile f image => (s.Load2DTextureFromFile f image).1
  | .FreeTexture p => s.FreeTexture p
  | .Changed1DTrans _ _ => s
  | .GetEmpty1DTrans n r tf tex => s.GetEmpty1DTrans n r tf tex
  | .Get1DTransFromFile f r tf tex => s.Get1DTransFromFile f r tf tex
  | .Access1DTrans p r => (s.Access1DTrans p r).1
  | .Free1DTrans p r => s.Free1DTrans p r
  | .Changed2DTrans _ _ => s
  | .GetEmpty2DTrans n r tf tex => s.GetEmpty2DTrans n r tf tex
  | .Get2DTransFromFile f r tf tex => s.Get2DTransFromFile f r tf tex
  | .Access2DTrans p r => (s.Access2DTrans p r).1
  | .Free2DTrans p r => s.Free2DTrans p r
  | .Get3DTexture d l b t => (s.Get3DTexture d l b t).1
  | .MemSizesChanged c g => s.MemSizesChanged c g
  | .GetFBO t => (s.GetFBO t).1
  | .FreeFBO p => s.FreeFBO p
  | .GetGLSLProgram v f e => (s.GetGLSLProgram v f e).1
  | .FreeGLSLProgram p => s.FreeGLSLProgram p

/-- The state after a sequence of public calls on a freshly constructed manager. -/
def run (ops : List Op) : GPUMemMan := ops.foldl step init

/-- A state is reachable when some sequence of public calls on a freshly
constructed manager produces it. -/
def Reachable (s : GPUMemMan) : Prop := ∃ ops : List Op, run ops = s

/-- Sum of `GetCPUSize()` over the entries of the six registries that hold GL
resources. -/
def cpuSizeSum (s : GPUMemMan) : Nat :=
  (s.m_vpSimpleTextures.map fun i => i.pTexture.cpuSize).sum
  + (s.m_vpTrans1DList.map fun i => i.pTexture.cpuSize).sum
  + (s.m_vpTrans2DList.map fun i => i.pTexture.cpuSize).sum
  + (s.m_vpTex3DList.map fun i => i.pTexture.cpuSize).sum
  + (s.m_vpFBOList.map fun i => i.pFBOTex.cpuSize).sum
  + (s.m_vpGLSLList.map fun i => i.pGLSLProgram.cpuSize).sum

/-- Sum of `GetGPUSize()` over the entries of the six registries that hold GL
resources. -/
def gpuSizeSum (s : GPUMemMan) : Nat :=
  (s.m_vpSimpleTextures.map fun i => i.pTexture.gpuSize).sum
  + (s.m_vpTrans1DList.map fun i => i.pTexture.gpuSize).sum
  + (s.m_vpTrans2DList.map fun i => i.pTexture.gpuSize).sum
  + (s.m_vpTex3DList.map fun i => i.pTexture.gpuSize).sum
  + (s.m_vpFBOList.map fun i => i.pFBOTex.gpuSize).sum
  + (s.m_vpGLSLList.map fun i => i.pGLSLProgram.gpuSize).sum

end GPUMemMan

/-! ## Example states -/

/-- A manager holding one entry in each registry, reached by seven public calls:
dataset "head.uvf" (address 100, owner 1), image "logo.png" (texture 200), a 1-D
transfer function 300 and a 2-D transfer function 400 (owner 1 each), one brick
texture of dataset 100, one offscreen target 600 and one shader program 700. -/
def exampleManager : GPUMemMan :=
  GPUMemMan.run
    [.LoadDataset "head.uvf" 1 ⟨100, "head.uvf", true⟩,
     .Load2DTextureFromFile "logo.png" (some ⟨200, 30, 40⟩),
     .GetEmpty1DTrans 256 1 300 ⟨301, 8, 16⟩,
     .GetEmpty2DTrans (4, 4) 1 400 ⟨401, 8, 16⟩,
     .Get3DTexture 100 [0] [0, 0, 0] ⟨500, 64, 128⟩,
     .GetFBO ⟨600, 0, 4096⟩,
     .GetGLSLProgram "a.vs" "a.fs" ⟨"a.vs", "a.fs", 1, ⟨700, 8, 0⟩⟩]

/-- A manager in which renderer 2 holds the 1-D transfer function 300 twice:
renderer 1 creates it, renderer 2 calls `Access1DTrans` on it two times. -/
def sharedTwiceManager : GPUMemMan :=
  GPUMemMan.run
    [.GetEmpty1DTrans 256 1 300 ⟨301, 8, 16⟩, .Access1DTrans 300 2, .Access1DTrans 300 2]

/-- Consecutive `Load2DTextureFromFile(strFilename)` calls, one per element of
`images` (what the image loader would produce in that call): the final state and
the returned pointers in call order. -/
def GPUMemMan.Load2DTextureFromFile.calls (strFilename : String) :
    GPUMemMan → List (Option GLObject) → GPUMemMan × List (Option Nat)
  | s, [] => (s, [])
  | s, image :: images =>
    ((calls strFilename (s.Load2DTextureFromFile strFilename image).1 images).1,
      (s.Load2DTextureFromFile strFilename image).2 ::
        (calls strFilename (s.Load2DTextureFromFile strFilename image).1 images).2)

/-- The state after `k` consecutive `FreeTexture(pTexture)` calls. -/
def GPUMemMan.FreeTexture.calls (pTexture : Nat) : Nat → GPUMemMan → GPUMemMan
  | 0, s => s
  | k + 1, s => calls pTexture k (s.FreeTexture pTexture)

/-- A manager with two datasets, "head.uvf" (address 100) and "foot.uvf" (address
110), both owned by renderer 1, and three brick textures: two of dataset 100 with
one of dataset 110 between them. -/
def cascadeManager : GPUMemMan :=
  GPUMemMan.run
    [.LoadDataset "head.uvf" 1 ⟨100, "head.uvf", true⟩,
     .LoadDataset "foot.uvf" 1 ⟨110, "foot.uvf", true⟩,
     .Get3DTexture 100 [0] [0, 0, 0] ⟨500, 64, 128⟩,
     .Get3DTexture 110 [0] [0, 0, 0] ⟨510, 32, 32⟩,
     .Get3DTexture 100 [1] [0, 0, 0] ⟨520, 8, 16⟩]

/-- The two totals are, modulo `2^64`, the sums of the sizes of the registered GL
resources, attributed the way every creation and destruction site of
`GPUMemMan.cpp` attributes them: `GetCPUSize()` to `m_iAllocatedGPUMemory` and
`GetGPUSize()` to `m_iAllocatedCPUMemory`. -/
def GPUMemMan.TotalsInv (s : GPUMemMan) : Prop :=
  s.m_iAllocatedGPUMemory = s.cpuSizeSum % WORD ∧ s.m_iAllocatedCPUMemory = s.gpuSizeSum % WORD

/-- A freshly constructed manager after one `GetFBO` call whose offscreen target
600 reports `GetCPUSize() = 0` and `GetGPUSize() = 4096`. -/
def oneTargetManager : GPUMemMan :=
  GPUMemMan.run [.GetFBO ⟨600, 0, 4096⟩]

/-- A freshly constructed manager after the image "logo.png" was acquired once,
its texture 200 reporting `GetCPUSize() = 30` and `GetGPUSize() = 40`. -/
def oneImageManager : GPUMemMan :=
  GPUMemMan.run [.Load2DTextureFromFile "logo.png" (some ⟨200, 30, 40⟩)]

/-- Consecutive `FreeDataset(pVolumeDataset, requester)` calls, one per element of
`pointees` (what `pVolumeDataset->Filename()` evaluates to in that call, should it
reach its last statement): the final state, and `none` once a call has no defined
result. -/
def GPUMemMan.FreeDataset.calls (pVolumeDataset requester : Nat) :
    GPUMemMan → List (Option String) → Option GPUMemMan
  | s, [] => some s
  | s, fn :: pointees =>
    match s.FreeDataset pVolumeDataset requester fn with
    | some t => calls pVolumeDataset requester t pointees
    | none => none

/-! ## Runs of dataset clients on one path -/

/-- One client call in a run on a single path `p`: `load r dataset` is
`LoadDataset(p, r)`, `dataset` being what `new VolumeDataset(p, ...)` yields should
the call have to open the file; `free r pointeeFilename` is `FreeDataset(handle, r)`
with the handle that `LoadDataset` returned to `r`, `pointeeFilename` being what
`handle->Filename()` evaluates to should the call reach its last statement. -/
inductive DatasetCall where
  | load (requester : Nat) (dataset : VolumeDataset)
  | free (requester : Nat) (pointeeFilename : Option String)
deriving DecidableEq, Repr

/-- The manager and the table of handles returned to the requesters so far, after
one more client call; `none` when the requester of a `free` has no handle to pass
or `FreeDataset` has no defined result on the handle. -/
def datasetCall (p : String) (st : GPUMemMan × List (Nat × Nat)) :
    DatasetCall → Option (GPUMemMan × List (Nat × Nat))
  | .load r dataset =>
    match (st.1.LoadDataset p r dataset).2 with
    | some handle => some ((st.1.LoadDataset p r dataset).1, (r, handle) :: st.2)
    | none => some ((st.1.LoadDataset p r dataset).1, st.2)
  | .free r pointeeFilename =>
    match st.2.lookup r with
    | some handle =>
      match st.1.FreeDataset handle r pointeeFilename with
      | some t => some (t, st.2)
      | none => none
    | none => none

/-- The manager and the handle table after a sequence of client calls on `s0`;
`none` once a call of the sequence has no result. -/
def runDatasetCalls (p : String) (s0 : GPUMemMan) (calls : List DatasetCall) :
    Option (GPUMemMan × List (Nat × Nat)) :=
  calls.foldl (fun st c => st.bind fun x => datasetCall p x c) (some (s0, []))

/-- The requesters of the `load` calls, in call order. -/
def loaders (calls : List DatasetCall) : List Nat :=
  calls.filterMap fun c => match c with
    | .load r _ => some r
    | .free _ _ => none

/-- The requesters of the `free` calls, in call order. -/
def freers (calls : List DatasetCall) : List Nat :=
  calls.filterMap fun c => match c with
    | .load _ _ => none
    | .free r _ => some r

/-- The requesters that have loaded and not released, in loading order. -/
def holders (calls : List DatasetCall) : List Nat :=
  (loaders calls).filter fun r => !(freers calls).contains r

/-- Admissibility of one call after the requesters in `seen` have loaded and those
in `released` have released: a `load` comes from a requester that has not loaded
before and succeeds (the dataset it would open is open, reports the path `p`, and
lies at an address that no dataset registered in `s0` has); a `free` comes from a
requester that has loaded and not released, that is, from a current holder. -/
def okCall (p : String) (s0 : GPUMemMan) (seen released : List Nat) : DatasetCall → Bool
  | .load r dataset =>
    !seen.contains r && dataset.isOpen && dataset.filename == p &&
      s0.m_vpVolumeDatasets.all (fun e => e.pVolumeDataset.addr != dataset.addr)
  | .free r _ => seen.contains r && !released.contains r

/-- The requesters that have loaded once one more call is made. -/
def seenAfter (seen : List Nat) : DatasetCall → List Nat
  | .load r _ => seen ++ [r]
  | .free _ _ => seen

/-- The requesters that have released once one more call is made. -/
def releasedAfter (released : List Nat) : DatasetCall → List Nat
  | .load _ _ => released
  | .free r _ => released ++ [r]

/-- Every call of the sequence is admissible at its place. -/
def validCalls (p : String) (s0 : GPUMemMan) :
    List Nat → List Nat → List DatasetCall → Bool
  | _, _, [] => true
  | seen, released, c :: cs =>
    okCall p s0 seen released c &&
      validCalls p s0 (seenAfter seen c) (releasedAfter released c) cs

/-- Calls on the path "foot.uvf": requesters 1 and 2 load (the file is opened at
address 110 for requester 1), requester 1 releases, requester 3 loads, and
requester 2 releases. No pointer passed to a release is taken to be
dereferenceable. -/
def exampleCalls : List DatasetCall :=
  [.load 1 ⟨110, "foot.uvf", true⟩, .load 2 ⟨111, "foot.uvf", true⟩, .free 1 none,
   .load 3 ⟨112, "foot.uvf", true⟩, .free 2 none]

/-- Calls on the path "foot.uvf" in which requester 1 loads, releases, and
releases once more with the handle it has already given back, before requester 2
loads. -/
def staleFreeCalls : List DatasetCall :=
  [.load 1 ⟨110, "foot.uvf", true⟩, .free 1 none, .free 1 none,
   .load 2 ⟨111, "foot.uvf", true⟩]

/-- A manager in which the 1-D transfer function 300 is owned by renderers 1, 2
and 3 and the 2-D transfer function 400 by renderers 1 and 2, each exactly once. -/
def sharedOnceManager : GPUMemMan :=
  GPUMemMan.run
    [.GetEmpty1DTrans 256 1 300 ⟨301, 8, 16⟩, .Access1DTrans 300 2, .Access1DTrans 300 3,
     .GetEmpty2DTrans (4, 4) 1 400 ⟨401, 8, 16⟩, .Access2DTrans 400 2]

/-! ## Keys, shader runs, the slice-based renderer -/

/-- Modelled from the spec: the constructors `VolumeDataset(strFilename, ...)` and
`GLSLListElem(controller, strVSFile, strFSFile)` are not among the sources. The
spec keys a dataset by its path and a shader program by its pair of source paths,
so the objects a call creates carry the key of the call: the new dataset reports
`Filename() == strFilename` and the new shader element stores the two file names. -/
def GPUMemMan.Op.constructsKeyed : GPUMemMan.Op → Bool
  | .LoadDataset f _ d => d.filename == f
  | .GetGLSLProgram v f e => e.strVSFile == v && e.strFSFile == f
  | _ => true

/-- No two dataset entries with the same path, no two 3-D texture entries with the
same (dataset, LOD, brick) triple, no two image entries with the same file path,
no two shader entries with the same (vertex path, fragment path) pair. -/
def GPUMemMan.KeysUnique (s : GPUMemMan) : Prop :=
  (s.m_vpVolumeDatasets.map fun i => i.pVolumeDataset.filename).Nodup ∧
  (s.m_vpTex3DList.map fun i => (i.pDataset, i.vLOD, i.vBrick)).Nodup ∧
  (s.m_vpSimpleTextures.map fun i => i.strFilename).Nodup ∧
  (s.m_vpGLSLList.map fun i => (i.strVSFile, i.strFSFile)).Nodup

/-- The seven calls that produce `exampleManager`. -/
def exampleOps : List GPUMemMan.Op :=
  [.LoadDataset "head.uvf" 1 ⟨100, "head.uvf", true⟩,
   .Load2DTextureFromFile "logo.png" (some ⟨200, 30, 40⟩),
   .GetEmpty1DTrans 256 1 300 ⟨301, 8, 16⟩,
   .GetEmpty2DTrans (4, 4) 1 400 ⟨401, 8, 16⟩,
   .Get3DTexture 100 [0] [0, 0, 0] ⟨500, 64, 128⟩,
   .GetFBO ⟨600, 0, 4096⟩,
   .GetGLSLProgram "a.vs" "a.fs" ⟨"a.vs", "a.fs", 1, ⟨700, 8, 0⟩⟩]

/-- Consecutive `GetGLSLProgram(strVSFile, strFSFile)` calls, one per element of
`elems` (the element the constructor would create in that call): the final state
and the returned pointers in call order. -/
def GPUMemMan.GetGLSLProgram.calls (strVSFile strFSFile : String) :
    GPUMemMan → List GLSLListElem → GPUMemMan × List (Option Nat)
  | s, [] => (s, [])
  | s, e :: elems =>
    ((calls strVSFile strFSFile (s.GetGLSLProgram strVSFile strFSFile e).1 elems).1,
      (s.GetGLSLProgram strVSFile strFSFile e).2 ::
        (calls strVSFile strFSFile (s.GetGLSLProgram strVSFile strFSFile e).1 elems).2)

/-- The state after `k` consecutive `FreeGLSLProgram(pGLSLProgram)` calls. -/
def GPUMemMan.FreeGLSLProgram.calls (pGLSLProgram : Nat) : Nat → GPUMemMan → GPUMemMan
  | 0, s => s
  | k + 1, s => calls pGLSLProgram k (s.FreeGLSLProgram pGLSLProgram)

/-- The member of `GPUSBVR` that `Initialize` writes: the array `m_IDTex` of the
three pointers returned by the manager. -/
structure GPUSBVR where
  m_IDTex : List (Option Nat)
deriving DecidableEq, Repr

/-- `GPUSBVR::Initialize` as it acts on the manager reached through
`m_pMasterController->MemMan()`. `getFromResourceOnMac` is
`SysTools::GetFromResourceOnMac`, and `image0`, `image1`, `image2` are what the
image loader produces for the three files; the GL state calls do not touch the
manager. -/
def GPUSBVR.Initialize (memMan : GPUMemMan) (getFromResourceOnMac : String → String)
    (image0 image1 image2 : Option GLObject) : GPUMemMan × GPUSBVR :=
  let r0 := memMan.Load2DTextureFromFile (getFromResourceOnMac "RenderWin1x3.png") image0
  let r1 := r0.1.Load2DTextureFromFile (getFromResourceOnMac "RenderWin2x2.png") image1
  let r2 := r1.1.Load2DTextureFromFile (getFromResourceOnMac "RenderWin1.png") image2
  (r2.1, ⟨[r0.2, r1.2, r2.2]⟩)

/-- `GPUSBVR::Cleanup`: the body holds one commented-out line and no statement. -/
def GPUSBVR.Cleanup (memMan : GPUMemMan) (self : GPUSBVR) : GPUMemMan × GPUSBVR :=
  (memMan, self)

/-- The manager and the renderer after `GPUSBVR::Initialize` on a freshly
constructed manager, the three images decoding into the textures 210, 220 and
230 and the resource paths being the file names themselves. -/
def sbvrInitialized : GPUMemMan × GPUSBVR :=
  GPUSBVR.Initialize GPUMemMan.init id (some ⟨210, 12, 12⟩) (some ⟨220, 12, 12⟩)
    (some ⟨230, 12, 12⟩)

/-! ## Releases, and sizes that overflow the totals -/

/-- The public calls that release a resource. -/
def GPUMemMan.Op.isRelease : GPUMemMan.Op → Bool
  | .FreeDataset _ _ _ => true
  | .FreeTexture _ => true
  | .Free1DTrans _ _ => true
  | .Free2DTrans _ _ => true
  | .FreeFBO _ => true
  | .FreeGLSLProgram _ => true
  | _ => false

/-- A freshly constructed manager after two `GetFBO` calls whose offscreen targets
600 and 610 each report `GetCPUSize() = 2^63`. -/
def overflowManager : GPUMemMan :=
  GPUMemMan.run [.GetFBO ⟨600, 9223372036854775808, 0⟩, .GetFBO ⟨610, 9223372036854775808, 0⟩]

/-! ## Basic facts -/

theorem splitFirst_eq_none {α : Type} (hit : α → Bool) (l : List α) :
    splitFirst hit l = none ↔ ∀ x ∈ l, hit x = false := by
  induction l with
  | nil => simp [splitFirst]
  | cons a l ih =>
    by_cases h : hit a = true
    · simp [splitFirst, h]
    · have h' : hit a = false := by simpa using h
      cases hs : splitFirst hit l with
      | none =>
        have hall := ih.mp hs
        simp [splitFirst, h', hs]
        exact hall
      | some r =>
        obtain ⟨pre, j, post⟩ := r
        have : ¬ ∀ x ∈ l, hit x = false := fun hall => by
          rw [ih.mpr hall] at hs; cases hs
        simp [splitFirst, h', hs]
        simpa using this

theorem splitFirst_eq_some {α : Type} (hit : α → Bool) (l pre post : List α) (i : α)
    (h : splitFirst hit l = some (pre, i, post)) :
    l = pre ++ i :: post ∧ hit i = true ∧ ∀ x ∈ pre, hit x = false := by
  induction l generalizing pre with
  | nil => simp [splitFirst] at h
  | cons a l ih =>
    by_cases ha : hit a = true
    · simp [splitFirst, ha] at h
      obtain ⟨rfl, rfl, rfl⟩ := h
      simp [ha]
    · have ha' : hit a = false := by simpa using ha
      cases hs : splitFirst hit l with
      | none => simp [splitFirst, ha', hs] at h
      | some r =>
        obtain ⟨pre1, j, post1⟩ := r
        simp [splitFirst, ha', hs] at h
        obtain ⟨rfl, rfl, rfl⟩ := h
        obtain ⟨h1, h2, h3⟩ := ih pre1 hs
        refine ⟨by simp [h1], h2, ?_⟩
        intro x hx
        rcases List.mem_cons.mp hx with rfl | hx
        · exact ha'
        · exact h3 x hx

theorem splitFirst_append {α : Type} (hit : α → Bool) (pre post : List α) (i : α)
    (hpre : ∀ x ∈ pre, hit x = false) (hi : hit i = true) :
    splitFirst hit (pre ++ i :: post) = some (pre, i, post) := by
  induction pre with
  | nil => simp [splitFirst, hi]
  | cons a pre ih =>
    have ha : hit a = false := hpre a (List.mem_cons_self _ _)
    have := ih (fun x hx => hpre x (List.mem_cons_of_mem _ hx))
    simp [splitFirst, ha, this]

namespace GPUMemMan

/-! ## Misses -/

/-- C10: `Access1DTrans` on a transfer function that is in no entry of
`m_vpTrans1DList` returns `NULL` and leaves the whole manager state as it was (no
entry created or removed, no owner list modified); `Access2DTrans` does the same
on `m_vpTrans2DList`. -/
theorem C10_access_unknown_is_null_and_noop (s : GPUMemMan) (f g requester : Nat)
    (hf : ∀ i ∈ s.m_vpTrans1DList, i.pTransferFunction1D ≠ f)
    (hg : ∀ i ∈ s.m_vpTrans2DList, i.pTransferFunction2D ≠ g) :
    s.Access1DTrans f requester = (s, none) ∧ s.Access2DTrans g requester = (s, none) := by
  constructor
  · have h : splitFirst (fun i : Trans1DListElem => i.pTransferFunction1D == f)
        s.m_vpTrans1DList = none :=
      (splitFirst_eq_none _ _).mpr (fun i hi => by simpa using hf i hi)
    simp [Access1DTrans, h]
  · have h : splitFirst (fun i : Trans2DListElem => i.pTransferFunction2D == g)
        s.m_vpTrans2DList = none :=
      (splitFirst_eq_none _ _).mpr (fun i hi => by simpa using hg i hi)
    simp [Access2DTrans, h]

/-- C9: `FreeDataset` on a miss reads the dataset behind the handle it was given.
For every manager state and every handle/requester pair such that no entry has
both that handle and that requester among its owners, `FreeDataset` returns the
state unchanged when `pVolumeDataset->Filename()` can be evaluated and has no
defined result when it cannot (a null handle, or a handle whose dataset has been
deleted). The other five releases are no-ops on every miss: `Free1DTrans` and
`Free2DTrans` when no entry has both the handle and the requester, `FreeTexture`,
`FreeFBO` and `FreeGLSLProgram` when no entry has the handle. On a freshly
constructed manager, requester 1 loads "head.uvf" and receives the handle 100;
`FreeDataset(100, 1)` empties the registry again and deletes the dataset; a second
`FreeDataset(100, 1)` finds no entry and has no defined result, and neither has
`FreeDataset(NULL, 1)`, while `Free1DTrans(300, 1)` on the same state is a no-op. -/
theorem C9_dataset_release_miss_reads_the_handle :
    (∀ (s : GPUMemMan) (d rd : Nat),
      (∀ i ∈ s.m_vpVolumeDatasets, i.pVolumeDataset.addr = d → rd ∉ i.qpUser) →
        (∀ fn : String, s.FreeDataset d rd (some fn) = some s) ∧
          s.FreeDataset d rd none = none) ∧
    (∀ (s : GPUMemMan) (f1 r1 : Nat),
      (∀ i ∈ s.m_vpTrans1DList, i.pTransferFunction1D = f1 → r1 ∉ i.qpUser) →
        s.Free1DTrans f1 r1 = s) ∧
    (∀ (s : GPUMemMan) (f2 r2 : Nat),
      (∀ i ∈ s.m_vpTrans2DList, i.pTransferFunction2D = f2 → r2 ∉ i.qpUser) →
        s.Free2DTrans f2 r2 = s) ∧
    (∀ (s : GPUMemMan) (t : Nat),
      (∀ i ∈ s.m_vpSimpleTextures, i.pTexture.addr ≠ t) → s.FreeTexture t = s) ∧
    (∀ (s : GPUMemMan) (fbo : Nat),
      (∀ i ∈ s.m_vpFBOList, i.pFBOTex.addr ≠ fbo) → s.FreeFBO fbo = s) ∧
    (∀ (s : GPUMemMan) (prog : Nat),
      (∀ i ∈ s.m_vpGLSLList, i.pGLSLProgram.addr ≠ prog) → s.FreeGLSLProgram prog = s) ∧
    (init.LoadDataset "head.uvf" 1 ⟨100, "head.uvf", true⟩).2 = some 100 ∧
    (init.LoadDataset "head.uvf" 1 ⟨100, "head.uvf", true⟩).1.FreeDataset 100 1 none
      = some init ∧
    init.FreeDataset 100 1 none = none ∧
    init.FreeDataset 0 1 none = none ∧
    init.Free1DTrans 300 1 = init := by
  refine ⟨?_, ?_, ?_, ?_, ?_, ?_, by decide, by decide, by decide, by decide, by decide⟩
  · intro s d rd hd
    have h : splitFirst (fun i : VolDataListElem =>
        i.pVolumeDataset.addr == d && i.qpUser.contains rd) s.m_vpVolumeDatasets = none :=
      (splitFirst_eq_none _ _).mpr (fun i hi => by
        by_cases e : i.pVolumeDataset.addr = d
        · simp [e, hd i hi e]
        · simp [e])
    exact ⟨fun fn => by simp only [FreeDataset, h], by simp only [FreeDataset, h]⟩
  · intro s f1 r1 h1
    have h : splitFirst (fun i : Trans1DListElem =>
        i.pTransferFunction1D == f1 && i.qpUser.contains r1) s.m_vpTrans1DList = none :=
      (splitFirst_eq_none _ _).mpr (fun i hi => by
        by_cases e : i.pTransferFunction1D = f1
        · simp [e, h1 i hi e]
        · simp [e])
    simp only [Free1DTrans, h]
  · intro s f2 r2 h2
    have h : splitFirst (fun i : Trans2DListElem =>
        i.pTransferFunction2D == f2 && i.qpUser.contains r2) s.m_vpTrans2DList = none :=
      (splitFirst_eq_none _ _).mpr (fun i hi => by
        by_cases e : i.pTransferFunction2D = f2
        · simp [e, h2 i hi e]
        · simp [e])
    simp only [Free2DTrans, h]
  · intro s t ht
    have h : splitFirst (fun i : SimpleTextureListElem => i.pTexture.addr == t)
        s.m_vpSimpleTextures = none :=
      (splitFirst_eq_none _ _).mpr (fun i hi => by simpa using ht i hi)
    simp [FreeTexture, h]
  · intro s fbo hfbo
    have h : splitFirst (fun i : FBOListElem => i.pFBOTex.addr == fbo) s.m_vpFBOList = none :=
      (splitFirst_eq_none _ _).mpr (fun i hi => by simpa using hfbo i hi)
    simp [FreeFBO, h]
  · intro s prog hprog
    have h : splitFirst (fun i : GLSLListElem => i.pGLSLProgram.addr == prog)
        s.m_vpGLSLList = none :=
      (splitFirst_eq_none _ _).mpr (fun i hi => by simpa using hprog i hi)
    simp [FreeGLSLProgram, h]

/-! ## 3-D texture lookup -/

/-- C4: two consecutive `Get3DTexture` calls with the same key return the same
texture pointer, and the second call leaves the whole manager state (3-D texture
list and both totals) unchanged. If the key was resident before the first call,
nothing changes over the two calls; otherwise the list gains the one new entry
and the totals grow once by the sizes of the one texture created by the first
call, `m_iAllocatedGPUMemory` by its `GetCPUSize()` and `m_iAllocatedCPUMemory` by
its `GetGPUSize()`, whatever texture the second call would have created. -/
theorem C4_get3DTexture_twice (s : GPUMemMan) (pDataset : Nat) (vLOD vBrick : List Nat)
    (t1 t2 : GLObject) :
    (∃ h, (s.Get3DTexture pDataset vLOD vBrick t1).2 = some h ∧
      ((s.Get3DTexture pDataset vLOD vBrick t1).1.Get3DTexture pDataset vLOD vBrick t2).2
        = some h) ∧
    ((s.Get3DTexture pDataset vLOD vBrick t1).1.Get3DTexture pDataset vLOD vBrick t2).1
      = (s.Get3DTexture pDataset vLOD vBrick t1).1 ∧
    ((∃ i ∈ s.m_vpTex3DList, i.Match pDataset vLOD vBrick = true) →
      (s.Get3DTexture pDataset vLOD vBrick t1).1 = s) ∧
    ((∀ i ∈ s.m_vpTex3DList, i.Match pDataset vLOD vBrick = false) →
      (s.Get3DTexture pDataset vLOD vBrick t1).1 =
        { s with
          m_vpTex3DList := s.m_vpTex3DList ++ [⟨pDataset, vLOD, vBrick, t1⟩]
          m_iAllocatedGPUMemory := wadd s.m_iAllocatedGPUMemory t1.cpuSize
          m_iAllocatedCPUMemory := wadd s.m_iAllocatedCPUMemory t1.gpuSize }) := by
  cases hs : splitFirst (fun i : Texture3DListElem => i.Match pDataset vLOD vBrick)
      s.m_vpTex3DList with
  | some r =>
    obtain ⟨pre, i, post⟩ := r
    have h1 : s.Get3DTexture pDataset vLOD vBrick t1 = (s, some i.pTexture.addr) := by
      simp [Get3DTexture, hs]
    obtain ⟨hl, hi, hpre⟩ := splitFirst_eq_some _ _ _ _ _ hs
    refine ⟨⟨i.pTexture.addr, by rw [h1], by rw [h1]; simp [Get3DTexture, hs]⟩,
      by rw [h1]; simp [Get3DTexture, hs], fun _ => by rw [h1], ?_⟩
    intro hall
    have := hall i (by rw [hl]; simp)
    rw [hi] at this
    cases this
  | none =>
    have hall := (splitFirst_eq_none _ _).mp hs
    have hnew : (⟨pDataset, vLOD, vBrick, t1⟩ : Texture3DListElem).Match pDataset vLOD vBrick
        = true := by simp [Texture3DListElem.Match]
    have h2 := splitFirst_append (fun i : Texture3DListElem => i.Match pDataset vLOD vBrick)
      s.m_vpTex3DList [] ⟨pDataset, vLOD, vBrick, t1⟩ hall hnew
    have h1 : s.Get3DTexture pDataset vLOD vBrick t1 =
        ({ addSizes s t1 with
            m_vpTex3DList := s.m_vpTex3DList ++ [⟨pDataset, vLOD, vBrick, t1⟩] },
          some t1.addr) := by
      simp [Get3DTexture, hs]
    refine ⟨⟨t1.addr, by rw [h1], by rw [h1]; simp [Get3DTexture, h2]⟩,
      by rw [h1]; simp [Get3DTexture, h2], ?_, fun _ => by rw [h1]; rfl⟩
    rintro ⟨i, hi, hm⟩
    rw [hall i hi] at hm
    cases hm

/-- Witness of C10 on `exampleManager` with the unknown handles 999 and 998. -/
theorem C10_access_unknown_is_null_and_noop_witness :
    (∀ i ∈ exampleManager.m_vpTrans1DList, i.pTransferFunction1D ≠ 999) ∧
    (∀ i ∈ exampleManager.m_vpTrans2DList, i.pTransferFunction2D ≠ 998) ∧
    exampleManager.Access1DTrans 999 2 = (exampleManager, none) ∧
    exampleManager.Access2DTrans 998 2 = (exampleManager, none) :=
  ⟨by decide, by decide,
    C10_access_unknown_is_null_and_noop exampleManager 999 998 2 (by decide) (by decide)⟩

/-! ## Change notifications -/

theorem flatMap_ite_eq_filter_flatMap {α β : Type} (p : α → Bool) (g : α → List β) (l : List α) :
    (l.flatMap fun i => if p i then g i else []) = (l.filter p).flatMap g := by
  induction l with
  | nil => rfl
  | cons a l ih =>
    by_cases h : p a = true
    · simp [List.flatMap_cons, List.filter_cons, h, ih]
    · have h' : p a = false := by simpa using h
      simp [List.flatMap_cons, List.filter_cons, h', ih]

/-- What a list of owners yields when every owner other than `A` is notified once
per occurrence. -/
theorem notified_filter_facts (users : List Nat) (A : Nat) :
    A ∉ users.filter (fun j => j != A) ∧
    (∀ B ∈ users.filter (fun j => j != A), B ∈ users) ∧
    (∀ B, B ≠ A → (users.filter (fun j => j != A)).count B = users.count B) ∧
    (users.Nodup → ∀ B ∈ users, B ≠ A → (users.filter (fun j => j != A)).count B = 1) := by
  have hcount : ∀ B, B ≠ A → (users.filter (fun j => j != A)).count B = users.count B := by
    intro B hB
    exact List.count_filter (by simpa using hB)
  refine ⟨by simp, fun B hB => (List.mem_filter.mp hB).1, hcount, ?_⟩
  intro hnd B hB hne
  rw [hcount B hne]
  exact List.count_eq_one_of_mem hnd hB

/-- C7 as stated fails on a reachable state: in `sharedTwiceManager` renderer 2 is
an owner of transfer function 300 other than the notifying owner 1, and
`Changed1DTrans(1, 300)` invokes its callback twice. -/
theorem C7_counterexample :
    ¬ ∀ (s : GPUMemMan) (f A B : Nat) (e : Trans1DListElem), Reachable s →
        e ∈ s.m_vpTrans1DList → e.pTransferFunction1D = f → A ∈ e.qpUser → B ∈ e.qpUser →
        B ≠ A → (s.Changed1DTrans A f).count B = 1 := by
  intro h
  have h2 := h sharedTwiceManager 300 1 2 ⟨300, ⟨301, 8, 16⟩, [1, 2, 2]⟩ ⟨_, rfl⟩
    (by decide) rfl (by decide) (by decide) (by decide)
  revert h2
  decide

/-- C7 (amended): when `e1` is the one entry of `m_vpTrans1DList` for transfer
function `f`, `Changed1DTrans(A, f)` invokes the callback exactly on the members
of `e1.qpUser` other than `A`, once per occurrence in the list and in list order:
never on `A`, on no renderer outside the owner list, on every other owner as many
times as it occurs, hence exactly once on every other owner when the owner list
has no duplicates. `Changed2DTrans` does the same on `m_vpTrans2DList`, whatever
the 1-D registry holds, and the other way round. -/
theorem C7_change_notification (s : GPUMemMan) (A : Nat) :
    (∀ (f : Nat) (e1 : Trans1DListElem),
      s.m_vpTrans1DList.filter (fun i => i.pTransferFunction1D == f) = [e1] →
        s.Changed1DTrans A f = e1.qpUser.filter (fun j => j != A) ∧
        A ∉ s.Changed1DTrans A f ∧
        (∀ B ∈ s.Changed1DTrans A f, B ∈ e1.qpUser) ∧
        (∀ B, B ≠ A → (s.Changed1DTrans A f).count B = e1.qpUser.count B) ∧
        (e1.qpUser.Nodup → ∀ B ∈ e1.qpUser, B ≠ A → (s.Changed1DTrans A f).count B = 1)) ∧
    (∀ (g : Nat) (e2 : Trans2DListElem),
      s.m_vpTrans2DList.filter (fun i => i.pTransferFunction2D == g) = [e2] →
        s.Changed2DTrans A g = e2.qpUser.filter (fun j => j != A) ∧
        A ∉ s.Changed2DTrans A g ∧
        (∀ B ∈ s.Changed2DTrans A g, B ∈ e2.qpUser) ∧
        (∀ B, B ≠ A → (s.Changed2DTrans A g).count B = e2.qpUser.count B) ∧
        (e2.qpUser.Nodup → ∀ B ∈ e2.qpUser, B ≠ A → (s.Changed2DTrans A g).count B = 1)) := by
  constructor
  · intro f e1 h1
    have e1D : s.Changed1DTrans A f = e1.qpUser.filter (fun j => j != A) := by
      unfold Changed1DTrans
      rw [flatMap_ite_eq_filter_flatMap (fun i : Trans1DListElem => i.pTransferFunction1D == f),
        h1]
      simp
    rw [e1D]
    exact ⟨rfl, notified_filter_facts e1.qpUser A⟩
  · intro g e2 h2
    have e2D : s.Changed2DTrans A g = e2.qpUser.filter (fun j => j != A) := by
      unfold Changed2DTrans
      rw [flatMap_ite_eq_filter_flatMap (fun i : Trans2DListElem => i.pTransferFunction2D == g),
        h2]
      simp
    rw [e2D]
    exact ⟨rfl, notified_filter_facts e2.qpUser A⟩

/-- Witness of C7 (amended). On `sharedTwiceManager`, which has no 2-D transfer
function, a change of the 1-D transfer function 300 by renderer 1 notifies
renderer 2 twice, once per occurrence in the owner list `[1, 2, 2]`. On
`sharedOnceManager` a change of the 2-D transfer function 400 by renderer 2
notifies renderer 1 once. -/
theorem C7_change_notification_witness :
    sharedTwiceManager.m_vpTrans2DList = [] ∧
    (sharedTwiceManager.m_vpTrans1DList.filter (fun i => i.pTransferFunction1D == 300)
      = [⟨300, ⟨301, 8, 16⟩, [1, 2, 2]⟩]) ∧
    sharedTwiceManager.Changed1DTrans 1 300 = [2, 2] ∧
    (sharedOnceManager.m_vpTrans2DList.filter (fun i => i.pTransferFunction2D == 400)
      = [⟨400, ⟨401, 8, 16⟩, [1, 2]⟩]) ∧
    sharedOnceManager.Changed2DTrans 2 400 = [1] :=
  ⟨by decide, by decide,
    ((C7_change_notification sharedTwiceManager 1).1 300 ⟨300, ⟨301, 8, 16⟩, [1, 2, 2]⟩
      (by decide)).1,
    by decide,
    ((C7_change_notification sharedOnceManager 2).2 400 ⟨400, ⟨401, 8, 16⟩, [1, 2]⟩
      (by decide)).1⟩

/-! ## Counted images -/

theorem wsub_wadd_cancel (a x : Nat) (h : a < WORD) : wsub (wadd a x) x = a := by
  unfold wsub wadd WORD at *
  omega

theorem subSizes_addSizes (s : GPUMemMan) (o : GLObject)
    (hg : s.m_iAllocatedGPUMemory < WORD) (hc : s.m_iAllocatedCPUMemory < WORD) :
    subSizes (addSizes s o) o = s := by
  cases s
  simp only [subSizes, addSizes] at *
  simp [wsub_wadd_cancel _ _ hg, wsub_wadd_cancel _ _ hc]

theorem Load2DTextureFromFile_hit (t : GPUMemMan) (p : String) (pre : List SimpleTextureListElem)
    (c : Int) (tex : GLObject) (image : Option GLObject)
    (hl : t.m_vpSimpleTextures = pre ++ [⟨c, tex, p⟩])
    (hpre : ∀ i ∈ pre, i.strFilename ≠ p) :
    t.Load2DTextureFromFile p image =
      ({ t with m_vpSimpleTextures := pre ++ [⟨c + 1, tex, p⟩] }, some tex.addr) := by
  have h := splitFirst_append (fun i : SimpleTextureListElem => i.strFilename == p) pre []
    ⟨c, tex, p⟩ (fun i hi => by simpa using hpre i hi) (by simp)
  simp only [Load2DTextureFromFile, hl, h]

theorem Load2DTextureFromFile_calls_hit (p : String) (pre : List SimpleTextureListElem)
    (tex : GLObject) (hpre : ∀ i ∈ pre, i.strFilename ≠ p) (images : List (Option GLObject)) :
    ∀ (t : GPUMemMan) (c : Int), t.m_vpSimpleTextures = pre ++ [⟨c, tex, p⟩] →
      Load2DTextureFromFile.calls p t images =
        ({ t with m_vpSimpleTextures := pre ++ [⟨c + images.length, tex, p⟩] },
          List.replicate images.length (some tex.addr)) := by
  induction images with
  | nil =>
    intro t c hl
    simp [Load2DTextureFromFile.calls, ← hl]
  | cons image images ih =>
    intro t c hl
    have h1 := Load2DTextureFromFile_hit t p pre c tex image hl hpre
    have h2 := ih { t with m_vpSimpleTextures := pre ++ [⟨c + 1, tex, p⟩] } (c + 1) rfl
    simp only [Load2DTextureFromFile.calls, h1, h2, List.length_cons, List.replicate_succ]
    have : c + 1 + (images.length : Int) = c + ((images.length + 1 : Nat) : Int) := by
      push_cast; ring
    simp [this]

theorem FreeTexture_last_entry (t : GPUMemMan) (p : String) (pre : List SimpleTextureListElem)
    (c : Int) (tex : GLObject)
    (hl : t.m_vpSimpleTextures = pre ++ [⟨c, tex, p⟩])
    (hpre : ∀ i ∈ pre, i.pTexture.addr ≠ tex.addr) :
    t.FreeTexture tex.addr =
      if c - 1 = 0 then { subSizes t tex with m_vpSimpleTextures := pre }
      else { t with m_vpSimpleTextures := pre ++ [⟨c - 1, tex, p⟩] } := by
  have h := splitFirst_append (fun i : SimpleTextureListElem => i.pTexture.addr == tex.addr) pre []
    ⟨c, tex, p⟩ (fun i hi => by simpa using hpre i hi) (by simp)
  simp only [FreeTexture, hl, h]
  by_cases hc : c - 1 = 0 <;> simp [hc]

theorem FreeTexture_calls_keep (p : String) (pre : List SimpleTextureListElem) (tex : GLObject)
    (hpre : ∀ i ∈ pre, i.pTexture.addr ≠ tex.addr) (k : Nat) :
    ∀ (t : GPUMemMan) (n : Nat), k < n → t.m_vpSimpleTextures = pre ++ [⟨(n : Int), tex, p⟩] →
      FreeTexture.calls tex.addr k t =
        { t with m_vpSimpleTextures := pre ++ [⟨(n : Int) - (k : Int), tex, p⟩] } := by
  induction k with
  | zero =>
    intro t n _ hl
    simp [FreeTexture.calls, ← hl]
  | succ k ih =>
    intro t n hk hl
    have h1 := FreeTexture_last_entry t p pre n tex hl hpre
    have hne : ¬ ((n : Int) - 1 = 0) := by omega
    rw [if_neg hne] at h1
    have h2 := ih { t with m_vpSimpleTextures := pre ++ [⟨(n : Int) - 1, tex, p⟩] } (n - 1)
      (by omega) (by
        have : ((n - 1 : Nat) : Int) = (n : Int) - 1 := by omega
        simp [this])
    simp only [FreeTexture.calls, h1, h2]
    have e1 : ((n - 1 : Nat) : Int) - (k : Int) = (n : Int) - ((k + 1 : Nat) : Int) := by omega
    simp [e1]

/-- C8: for a path `p` held by no entry of `m_vpSimpleTextures`, a texture `tex`
whose address is new to the list, and `n = images.length + 1` consecutive
`Load2DTextureFromFile(p)` calls of which the first decodes the image into `tex`:
the calls append the single entry `(n, tex, p)`, add the sizes of `tex` to the
totals once, and each returns the address of `tex`; after `k < n` calls of
`FreeTexture` on that address the entry is still there with counter `n - k` and
the totals are as after creation; after `n` calls the whole manager state,
registries and both totals, is what it was before the first acquisition. -/
theorem C8_image_counter_lifecycle (s : GPUMemMan) (p : String) (tex : GLObject)
    (images : List (Option GLObject))
    (hp : ∀ i ∈ s.m_vpSimpleTextures, i.strFilename ≠ p)
    (hfresh : ∀ i ∈ s.m_vpSimpleTextures, i.pTexture.addr ≠ tex.addr)
    (hg : s.m_iAllocatedGPUMemory < WORD) (hc : s.m_iAllocatedCPUMemory < WORD) :
    Load2DTextureFromFile.calls p s (some tex :: images) =
      ({ addSizes s tex with
          m_vpSimpleTextures := s.m_vpSimpleTextures ++ [⟨((images.length + 1 : Nat) : Int), tex, p⟩] },
        List.replicate (images.length + 1) (some tex.addr)) ∧
    (∀ k, k < images.length + 1 →
      FreeTexture.calls tex.addr k (Load2DTextureFromFile.calls p s (some tex :: images)).1 =
        { addSizes s tex with
          m_vpSimpleTextures :=
            s.m_vpSimpleTextures ++ [⟨((images.length + 1 : Nat) : Int) - (k : Int), tex, p⟩] }) ∧
    FreeTexture.calls tex.addr (images.length + 1)
      (Load2DTextureFromFile.calls p s (some tex :: images)).1 = s := by
  have hmiss : splitFirst (fun i : SimpleTextureListElem => i.strFilename == p)
      s.m_vpSimpleTextures = none :=
    (splitFirst_eq_none _ _).mpr (fun i hi => by simpa using hp i hi)
  have hfirst : s.Load2DTextureFromFile p (some tex) =
      ({ addSizes s tex with m_vpSimpleTextures := s.m_vpSimpleTextures ++ [⟨1, tex, p⟩] },
        some tex.addr) := by
    simp only [Load2DTextureFromFile, hmiss]
  have hrest := Load2DTextureFromFile_calls_hit p s.m_vpSimpleTextures tex hp images
    { addSizes s tex with m_vpSimpleTextures := s.m_vpSimpleTextures ++ [⟨1, tex, p⟩] } 1 rfl
  have hcast : (1 : Int) + (images.length : Int) = ((images.length + 1 : Nat) : Int) := by
    push_cast; ring
  have hloads : Load2DTextureFromFile.calls p s (some tex :: images) =
      ({ addSizes s tex with
          m_vpSimpleTextures :=
            s.m_vpSimpleTextures ++ [⟨((images.length + 1 : Nat) : Int), tex, p⟩] },
        List.replicate (images.length + 1) (some tex.addr)) := by
    simp only [Load2DTextureFromFile.calls, hfirst, hrest, List.replicate_succ, hcast]
  have hkeep : ∀ k, k < images.length + 1 →
      FreeTexture.calls tex.addr k
        { addSizes s tex with
          m_vpSimpleTextures :=
            s.m_vpSimpleTextures ++ [⟨((images.length + 1 : Nat) : Int), tex, p⟩] } =
        { addSizes s tex with
          m_vpSimpleTextures :=
            s.m_vpSimpleTextures ++ [⟨((images.length + 1 : Nat) : Int) - (k : Int), tex, p⟩] } :=
    fun k hk => FreeTexture_calls_keep p s.m_vpSimpleTextures tex hfresh k _ _ hk rfl
  refine ⟨hloads, ?_, ?_⟩
  · intro k hk
    rw [hloads]
    exact hkeep k hk
  · rw [hloads]
    have hsplit : ∀ (m : Nat) (t : GPUMemMan),
        FreeTexture.calls tex.addr (m + 1) t =
          (FreeTexture.calls tex.addr m t).FreeTexture tex.addr := by
      intro m
      induction m with
      | zero => intro t; rfl
      | succ m ih => intro t; exact ih (t.FreeTexture tex.addr)
    rw [hsplit, hkeep images.length (Nat.lt_succ_self _)]
    have hone : ((images.length + 1 : Nat) : Int) - (images.length : Int) = 1 := by
      push_cast; ring
    rw [hone]
    have hlast := FreeTexture_last_entry
      { addSizes s tex with m_vpSimpleTextures := s.m_vpSimpleTextures ++ [⟨1, tex, p⟩] }
      p s.m_vpSimpleTextures 1 tex rfl hfresh
    rw [hlast]
    have := subSizes_addSizes s tex hg hc
    cases s
    simp only [subSizes, addSizes] at *
    simpa using this

/-! ## The cascade `FreeAssociatedTextures` -/

theorem wsub_lt (a b : Nat) : wsub a b < WORD := by
  unfold wsub WORD
  omega

theorem wsub_zero (a : Nat) (h : a < WORD) : wsub a 0 = a := by
  unfold wsub WORD at *
  omega

theorem wsub_wsub (a x y : Nat) : wsub (wsub a x) y = wsub a (x + y) := by
  unfold wsub WORD
  omega

theorem wsub_eq_sub (a b : Nat) (h : a < WORD) (hb : b ≤ a) : wsub a b = a - b := by
  unfold wsub WORD at *
  omega

theorem wadd_wsub_one (i : Nat) (h : i < WORD) : wadd (wsub i 1) 1 = i := by
  unfold wsub wadd WORD at *
  omega

theorem wadd_one (i : Nat) (h : i + 1 < WORD) : wadd i 1 = i + 1 := by
  unfold wadd WORD at *
  omega

/-- The loop writes only the 3-D texture list and the two totals. -/
theorem FreeAssociatedTextures_loop_frame (d : Nat) (fuel : Nat) :
    ∀ (i : Nat) (s s1 : GPUMemMan), FreeAssociatedTextures.loop d fuel i s = some s1 →
      s1.m_vpVolumeDatasets = s.m_vpVolumeDatasets ∧
      s1.m_vpSimpleTextures = s.m_vpSimpleTextures ∧
      s1.m_vpTrans1DList = s.m_vpTrans1DList ∧
      s1.m_vpTrans2DList = s.m_vpTrans2DList ∧
      s1.m_vpFBOList = s.m_vpFBOList ∧
      s1.m_vpGLSLList = s.m_vpGLSLList := by
  induction fuel with
  | zero => intro i s s1 h; simp [FreeAssociatedTextures.loop] at h
  | succ fuel ih =>
    intro i s s1 h
    unfold FreeAssociatedTextures.loop at h
    cases hget : s.m_vpTex3DList[i]? with
    | none =>
      simp only [hget] at h
      cases h
      simp
    | some e =>
      simp only [hget] at h
      by_cases hd : (e.pDataset == d) = true
      · rw [if_pos hd] at h
        have := ih _ _ _ h
        simpa [subSizes] using this
      · rw [if_neg hd] at h
        exact ih _ _ _ h

theorem FreeAssociatedTextures_frame (s : GPUMemMan) (d : Nat) :
    (s.FreeAssociatedTextures d).m_vpVolumeDatasets = s.m_vpVolumeDatasets ∧
    (s.FreeAssociatedTextures d).m_vpSimpleTextures = s.m_vpSimpleTextures ∧
    (s.FreeAssociatedTextures d).m_vpTrans1DList = s.m_vpTrans1DList ∧
    (s.FreeAssociatedTextures d).m_vpTrans2DList = s.m_vpTrans2DList ∧
    (s.FreeAssociatedTextures d).m_vpFBOList = s.m_vpFBOList ∧
    (s.FreeAssociatedTextures d).m_vpGLSLList = s.m_vpGLSLList := by
  unfold FreeAssociatedTextures
  cases h : FreeAssociatedTextures.loop d (s.m_vpTex3DList.length + 1) 0 s with
  | none => simp
  | some s1 => simpa using FreeAssociatedTextures_loop_frame d _ _ _ _ h

/-- Without a texture of dataset `d` the loop never writes. -/
theorem FreeAssociatedTextures_loop_no_match (d : Nat) (s : GPUMemMan)
    (h : ∀ t ∈ s.m_vpTex3DList, t.pDataset ≠ d) (fuel : Nat) :
    ∀ i, FreeAssociatedTextures.loop d fuel i s = some s ∨
      FreeAssociatedTextures.loop d fuel i s = none := by
  induction fuel with
  | zero => intro i; right; rfl
  | succ fuel ih =>
    intro i
    unfold FreeAssociatedTextures.loop
    cases hget : s.m_vpTex3DList[i]? with
    | none => left; rfl
    | some e =>
      have hmem : e ∈ s.m_vpTex3DList := List.getElem?_mem hget
      have hne : ¬ ((e.pDataset == d) = true) := by simpa using h e hmem
      simp only [if_neg hne]
      exact ih _

theorem FreeAssociatedTextures_no_match (s : GPUMemMan) (d : Nat)
    (h : ∀ t ∈ s.m_vpTex3DList, t.pDataset ≠ d) : s.FreeAssociatedTextures d = s := by
  unfold FreeAssociatedTextures
  rcases FreeAssociatedTextures_loop_no_match d s h (s.m_vpTex3DList.length + 1) 0 with h1 | h1 <;>
    simp [h1]

/-- The loop, entered at index `done.length` with `done` holding no texture of `d`
and enough fuel for the rest of a list that fits a `size_t`, ends with the textures
of `d` erased from the rest and their sizes subtracted. -/
theorem FreeAssociatedTextures_loop_run (d : Nat) (todo : List Texture3DListElem) :
    ∀ (done : List Texture3DListElem) (s : GPUMemMan) (fuel : Nat),
      s.m_vpTex3DList = done ++ todo → (∀ t ∈ done, t.pDataset ≠ d) →
      done.length + todo.length < WORD → todo.length + 1 ≤ fuel →
      s.m_iAllocatedGPUMemory < WORD → s.m_iAllocatedCPUMemory < WORD →
      FreeAssociatedTextures.loop d fuel done.length s = some
        { s with
          m_vpTex3DList := done ++ todo.filter (fun t => t.pDataset != d)
          m_iAllocatedGPUMemory := wsub s.m_iAllocatedGPUMemory
            ((todo.filter (fun t => t.pDataset == d)).map (fun t => t.pTexture.cpuSize)).sum
          m_iAllocatedCPUMemory := wsub s.m_iAllocatedCPUMemory
            ((todo.filter (fun t => t.pDataset == d)).map (fun t => t.pTexture.gpuSize)).sum } := by
  induction todo with
  | nil =>
    intro done s fuel hl _ _ hfuel hg hc
    obtain ⟨fuel, rfl⟩ : ∃ f, fuel = f + 1 := ⟨fuel - 1, by simp at hfuel; omega⟩
    unfold FreeAssociatedTextures.loop
    have hget : s.m_vpTex3DList[done.length]? = none := by simp [hl]
    simp only [hget]
    cases s
    simp only [List.append_nil] at hl
    simp [wsub_zero _ hg, wsub_zero _ hc, hl]
  | cons e todo ih =>
    intro done s fuel hl hdone hlen hfuel hg hc
    obtain ⟨fuel, rfl⟩ : ∃ f, fuel = f + 1 := ⟨fuel - 1, by simp at hfuel; omega⟩
    simp only [List.length_cons] at hlen hfuel
    unfold FreeAssociatedTextures.loop
    have hget : s.m_vpTex3DList[done.length]? = some e := by
      rw [hl, List.getElem?_append_right (Nat.le_refl _)]
      simp
    simp only [hget]
    by_cases hd : (e.pDataset == d) = true
    · rw [if_pos hd]
      have hidx : wadd (wsub done.length 1) 1 = done.length := wadd_wsub_one _ (by omega)
      have herase : s.m_vpTex3DList.eraseIdx done.length = done ++ todo := by
        rw [hl, List.eraseIdx_append_of_length_le (Nat.le_refl _)]
        simp
      rw [hidx, herase]
      have hs1 := ih done { subSizes s e.pTexture with m_vpTex3DList := done ++ todo } fuel rfl hdone
        (by omega) (by omega) (wsub_lt _ _) (wsub_lt _ _)
      rw [hs1]
      have hne : (e.pDataset != d) = false := by simpa using hd
      simp [subSizes, List.filter_cons, hd, hne, wsub_wsub]
    · rw [if_neg hd]
      have hd' : (e.pDataset == d) = false := by simpa using hd
      have hne : (e.pDataset != d) = true := by simpa using hd
      have hidx : wadd done.length 1 = (done ++ [e]).length := by
        rw [wadd_one _ (by omega)]; simp
      rw [hidx]
      have hs1 := ih (done ++ [e]) s fuel (by simp [hl])
        (by
          intro t ht
          rcases List.mem_append.mp ht with ht | ht
          · exact hdone t ht
          · simp at ht; subst ht; simpa using hd)
        (by simp; omega) (by omega) hg hc
      rw [hs1]
      simp [List.filter_cons, hd', hne]

theorem FreeAssociatedTextures_eq (s : GPUMemMan) (d : Nat)
    (hlen : s.m_vpTex3DList.length < WORD)
    (hg : s.m_iAllocatedGPUMemory < WORD) (hc : s.m_iAllocatedCPUMemory < WORD) :
    s.FreeAssociatedTextures d =
      { s with
        m_vpTex3DList := s.m_vpTex3DList.filter (fun t => t.pDataset != d)
        m_iAllocatedGPUMemory := wsub s.m_iAllocatedGPUMemory
          ((s.m_vpTex3DList.filter (fun t => t.pDataset == d)).map
            (fun t => t.pTexture.cpuSize)).sum
        m_iAllocatedCPUMemory := wsub s.m_iAllocatedCPUMemory
          ((s.m_vpTex3DList.filter (fun t => t.pDataset == d)).map
            (fun t => t.pTexture.gpuSize)).sum } := by
  unfold FreeAssociatedTextures
  have h := FreeAssociatedTextures_loop_run d s.m_vpTex3DList [] s (s.m_vpTex3DList.length + 1)
    (by simp) (by simp) (by simpa using hlen) (Nat.le_refl _) hg hc
  simp only [List.length_nil, List.nil_append] at h
  rw [h]
  rfl

/-! ## Releasing datasets -/

/-- C3: when the first entry of `m_vpVolumeDatasets` that has pointer `d` and owner
`r` is `e` with owner list `[r]`, `FreeDataset(d, r)` returns, erases `e`, erases
every 3-D texture entry whose `pDataset` is `d` wherever it stands in
`m_vpTex3DList`, keeps all other 3-D texture entries in their order, writes
nothing else, and lowers the totals (64-bit unsigned) by the summed sizes of the
erased textures: `m_iAllocatedGPUMemory` by the sum of their `GetCPUSize()` and
`m_iAllocatedCPUMemory` by the sum of their `GetGPUSize()`, as the code pairs
them; this is an ordinary subtraction whenever the sum does not exceed the total. -/
theorem C3_last_release_cascades (s : GPUMemMan) (d r : Nat) (pointeeFilename : Option String)
    (pre post : List VolDataListElem) (e : VolDataListElem)
    (hl : s.m_vpVolumeDatasets = pre ++ e :: post)
    (he : e.pVolumeDataset.addr = d) (hu : e.qpUser = [r])
    (hpre : ∀ x ∈ pre, x.pVolumeDataset.addr = d → r ∉ x.qpUser)
    (hlen : s.m_vpTex3DList.length < WORD)
    (hg : s.m_iAllocatedGPUMemory < WORD) (hc : s.m_iAllocatedCPUMemory < WORD) :
    s.FreeDataset d r pointeeFilename =
      some { s with
        m_vpVolumeDatasets := pre ++ post
        m_vpTex3DList := s.m_vpTex3DList.filter (fun t => t.pDataset != d)
        m_iAllocatedGPUMemory := wsub s.m_iAllocatedGPUMemory
          ((s.m_vpTex3DList.filter (fun t => t.pDataset == d)).map
            (fun t => t.pTexture.cpuSize)).sum
        m_iAllocatedCPUMemory := wsub s.m_iAllocatedCPUMemory
          ((s.m_vpTex3DList.filter (fun t => t.pDataset == d)).map
            (fun t => t.pTexture.gpuSize)).sum } ∧
    (((s.m_vpTex3DList.filter (fun t => t.pDataset == d)).map
          (fun t => t.pTexture.cpuSize)).sum ≤ s.m_iAllocatedGPUMemory →
      (s.FreeDataset d r pointeeFilename).map (fun t => t.m_iAllocatedGPUMemory) =
        some (s.m_iAllocatedGPUMemory -
          ((s.m_vpTex3DList.filter (fun t => t.pDataset == d)).map
            (fun t => t.pTexture.cpuSize)).sum)) ∧
    (((s.m_vpTex3DList.filter (fun t => t.pDataset == d)).map
          (fun t => t.pTexture.gpuSize)).sum ≤ s.m_iAllocatedCPUMemory →
      (s.FreeDataset d r pointeeFilename).map (fun t => t.m_iAllocatedCPUMemory) =
        some (s.m_iAllocatedCPUMemory -
          ((s.m_vpTex3DList.filter (fun t => t.pDataset == d)).map
            (fun t => t.pTexture.gpuSize)).sum)) := by
  have hsplit := splitFirst_append
    (fun i : VolDataListElem => i.pVolumeDataset.addr == d && i.qpUser.contains r) pre post e
    (fun x hx => by
      by_cases hxd : x.pVolumeDataset.addr = d
      · simp [hxd, hpre x hx hxd]
      · simp [hxd])
    (by simp [he, hu])
  have hmain : s.FreeDataset d r pointeeFilename =
      some { s with
        m_vpVolumeDatasets := pre ++ post
        m_vpTex3DList := s.m_vpTex3DList.filter (fun t => t.pDataset != d)
        m_iAllocatedGPUMemory := wsub s.m_iAllocatedGPUMemory
          ((s.m_vpTex3DList.filter (fun t => t.pDataset == d)).map
            (fun t => t.pTexture.cpuSize)).sum
        m_iAllocatedCPUMemory := wsub s.m_iAllocatedCPUMemory
          ((s.m_vpTex3DList.filter (fun t => t.pDataset == d)).map
            (fun t => t.pTexture.gpuSize)).sum } := by
    simp only [FreeDataset, hl, hsplit]
    rw [FreeAssociatedTextures_eq s d hlen hg hc]
    simp [hu]
  refine ⟨hmain, ?_, ?_⟩
  · intro hle
    rw [hmain]
    exact congrArg some (wsub_eq_sub _ _ hg hle)
  · intro hle
    rw [hmain]
    exact congrArg some (wsub_eq_sub _ _ hc hle)

/-- Witness of C3 on `cascadeManager`: releasing dataset 100 by its only owner 1
erases its two brick textures and keeps the texture of dataset 110. -/
theorem C3_last_release_cascades_witness :
    cascadeManager.m_vpVolumeDatasets =
      [] ++ ⟨⟨100, "head.uvf", true⟩, [1]⟩ :: [⟨⟨110, "foot.uvf", true⟩, [1]⟩] ∧
    cascadeManager.m_vpTex3DList.length < WORD ∧
    cascadeManager.m_iAllocatedGPUMemory < WORD ∧
    cascadeManager.m_iAllocatedCPUMemory < WORD ∧
    (cascadeManager.FreeDataset 100 1 none).map (fun t => t.m_vpVolumeDatasets)
      = some [⟨⟨110, "foot.uvf", true⟩, [1]⟩] ∧
    (cascadeManager.FreeDataset 100 1 none).map (fun t => t.m_vpTex3DList)
      = some [⟨110, [0], [0, 0, 0], ⟨510, 32, 32⟩⟩] ∧
    (cascadeManager.FreeDataset 100 1 none).map (fun t => t.m_iAllocatedGPUMemory)
      = some (104 - 72) ∧
    (cascadeManager.FreeDataset 100 1 none).map (fun t => t.m_iAllocatedCPUMemory)
      = some (176 - 144) := by
  have h := C3_last_release_cascades cascadeManager 100 1 none []
    [⟨⟨110, "foot.uvf", true⟩, [1]⟩] ⟨⟨100, "head.uvf", true⟩, [1]⟩
    (by decide) rfl rfl (by simp) (by decide) (by decide) (by decide)
  refine ⟨by decide, by decide, by decide, by decide, ?_, ?_, ?_, ?_⟩
  · rw [h.1]; rfl
  · rw [h.1]; decide
  · exact h.2.1 (by decide)
  · exact h.2.2 (by decide)

/-- C2 as stated fails on a reachable state: in `exampleManager` the path
"head.uvf" is held by renderer 1; after renderer 2 loads it and releases the
returned handle at once, the registry still holds the entry for "head.uvf". -/
theorem C2_counterexample :
    ¬ ∀ (s : GPUMemMan) (p : String) (r : Nat) (dataset : VolumeDataset) (handle : Nat)
        (pointeeFilename : Option String) (t : GPUMemMan),
        Reachable s → (s.LoadDataset p r dataset).2 = some handle →
        (s.LoadDataset p r dataset).1.FreeDataset handle r pointeeFilename = some t →
        ∀ i ∈ t.m_vpVolumeDatasets, i.pVolumeDataset.filename ≠ p := by
  intro h
  have h2 := h exampleManager "head.uvf" 2 ⟨101, "head.uvf", true⟩ 100 none
    exampleManager ⟨_, rfl⟩ (by decide) (by decide)
  revert h2
  decide

/-- C2 (amended): in a state with no dataset entry for `p`, a successful
`LoadDataset(p, r)` (the new dataset opens, and its address is the pointer of no
registered dataset and the back-reference of no 3-D texture entry) returns the new
dataset, and `FreeDataset` on the returned handle by `r` right afterwards returns
and gives back exactly the state before the load: no entry for `p`, the same
registries, and both totals at their values before the load. -/
theorem C2_load_then_free_restores (s : GPUMemMan) (p : String) (r : Nat)
    (dataset : VolumeDataset) (pointeeFilename : Option String)
    (hp : ∀ i ∈ s.m_vpVolumeDatasets, i.pVolumeDataset.filename ≠ p)
    (hopen : dataset.isOpen = true)
    (hfresh : ∀ i ∈ s.m_vpVolumeDatasets, i.pVolumeDataset.addr ≠ dataset.addr)
    (htex : ∀ t ∈ s.m_vpTex3DList, t.pDataset ≠ dataset.addr) :
    (s.LoadDataset p r dataset).2 = some dataset.addr ∧
    ∃ t, (s.LoadDataset p r dataset).1.FreeDataset dataset.addr r pointeeFilename = some t ∧
      t = s ∧
      (∀ i ∈ t.m_vpVolumeDatasets, i.pVolumeDataset.filename ≠ p) ∧
      t.m_iAllocatedGPUMemory = s.m_iAllocatedGPUMemory ∧
      t.m_iAllocatedCPUMemory = s.m_iAllocatedCPUMemory := by
  have hmiss : splitFirst (fun i : VolDataListElem => i.pVolumeDataset.filename == p)
      s.m_vpVolumeDatasets = none :=
    (splitFirst_eq_none _ _).mpr (fun i hi => by simpa using hp i hi)
  have hload : s.LoadDataset p r dataset =
      ({ s with m_vpVolumeDatasets := s.m_vpVolumeDatasets ++ [⟨dataset, [r]⟩] },
        some dataset.addr) := by
    simp only [LoadDataset, hmiss, hopen, if_true]
  have hsplit := splitFirst_append
    (fun i : VolDataListElem => i.pVolumeDataset.addr == dataset.addr && i.qpUser.contains r)
    s.m_vpVolumeDatasets [] ⟨dataset, [r]⟩
    (fun x hx => by simp [hfresh x hx]) (by simp)
  have hfree : (s.LoadDataset p r dataset).1.FreeDataset dataset.addr r pointeeFilename
      = some s := by
    rw [hload]
    simp only [FreeDataset, hsplit]
    rw [FreeAssociatedTextures_no_match _ _ (by simpa using htex)]
    simp
  exact ⟨by rw [hload], s, hfree, rfl, hp, rfl, rfl⟩

/-- Witness of C2 (amended) on `exampleManager`: renderer 2 loads and at once
releases "foot.uvf", opened at the unused address 110. -/
theorem C2_load_then_free_restores_witness :
    (∀ i ∈ exampleManager.m_vpVolumeDatasets, i.pVolumeDataset.filename ≠ "foot.uvf") ∧
    (∀ i ∈ exampleManager.m_vpVolumeDatasets, i.pVolumeDataset.addr ≠ 110) ∧
    (∀ t ∈ exampleManager.m_vpTex3DList, t.pDataset ≠ 110) ∧
    (exampleManager.LoadDataset "foot.uvf" 2 ⟨110, "foot.uvf", true⟩).2 = some 110 ∧
    (exampleManager.LoadDataset "foot.uvf" 2 ⟨110, "foot.uvf", true⟩).1.FreeDataset 110 2
      none = some exampleManager := by
  obtain ⟨h1, t, h2, h3, _⟩ :=
    C2_load_then_free_restores exampleManager "foot.uvf" 2 ⟨110, "foot.uvf", true⟩ none
      (by decide) rfl (by decide) (by decide)
  exact ⟨by decide, by decide, by decide, h1, by rw [h2, h3]⟩

/-- Witness of C8 on `exampleManager`: "RenderWin1.png" is acquired twice (texture
210) and released twice. -/
theorem C8_image_counter_lifecycle_witness :
    (∀ i ∈ exampleManager.m_vpSimpleTextures, i.strFilename ≠ "RenderWin1.png") ∧
    (∀ i ∈ exampleManager.m_vpSimpleTextures, i.pTexture.addr ≠ 210) ∧
    exampleManager.m_iAllocatedGPUMemory < WORD ∧
    exampleManager.m_iAllocatedCPUMemory < WORD ∧
    FreeTexture.calls 210 2
      (Load2DTextureFromFile.calls "RenderWin1.png" exampleManager
        [some ⟨210, 12, 12⟩, none]).1 = exampleManager :=
  ⟨by decide, by decide, by decide, by decide,
    (C8_image_counter_lifecycle exampleManager "RenderWin1.png" ⟨210, 12, 12⟩ [none]
      (by decide) (by decide) (by decide) (by decide)).2.2⟩

/-! ## The totals along every run -/

theorem sum_map_eraseIdx {α : Type} (f : α → Nat) (l : List α) :
    ∀ (i : Nat) (e : α), l[i]? = some e → ((l.eraseIdx i).map f).sum + f e = (l.map f).sum := by
  induction l with
  | nil => intro i e h; simp at h
  | cons a l ih =>
    intro i e h
    cases i with
    | zero =>
      simp at h
      subst h
      simp [Nat.add_comm]
    | succ i =>
      simp at h
      have := ih i e h
      simp [List.eraseIdx_cons_succ]
      omega

theorem TotalsInv_init : TotalsInv init := by
  simp [TotalsInv, init, cpuSizeSum, gpuSizeSum]

theorem TotalsInv_FreeAssociatedTextures_loop (d : Nat) (fuel : Nat) :
    ∀ (i : Nat) (s s1 : GPUMemMan), TotalsInv s →
      FreeAssociatedTextures.loop d fuel i s = some s1 → TotalsInv s1 := by
  induction fuel with
  | zero => intro i s s1 _ h; simp [FreeAssociatedTextures.loop] at h
  | succ fuel ih =>
    intro i s s1 hinv h
    unfold FreeAssociatedTextures.loop at h
    cases hget : s.m_vpTex3DList[i]? with
    | none =>
      simp only [hget] at h
      cases h
      exact hinv
    | some e =>
      simp only [hget] at h
      by_cases hd : (e.pDataset == d) = true
      · rw [if_pos hd] at h
        refine ih _ _ _ ?_ h
        have hc := sum_map_eraseIdx (fun t : Texture3DListElem => t.pTexture.cpuSize) _ i e hget
        have hg := sum_map_eraseIdx (fun t : Texture3DListElem => t.pTexture.gpuSize) _ i e hget
        unfold TotalsInv cpuSizeSum gpuSizeSum subSizes wsub WORD at *
        simp only at hc hg hinv ⊢
        omega
      · rw [if_neg hd] at h
        exact ih _ _ _ hinv h

theorem TotalsInv_FreeAssociatedTextures (s : GPUMemMan) (d : Nat) (h : TotalsInv s) :
    TotalsInv (s.FreeAssociatedTextures d) := by
  unfold FreeAssociatedTextures
  cases hl : FreeAssociatedTextures.loop d (s.m_vpTex3DList.length + 1) 0 s with
  | none => simpa using h
  | some s1 => simpa using TotalsInv_FreeAssociatedTextures_loop d _ _ _ _ h hl

theorem TotalsInv_LoadDataset (s : GPUMemMan) (f : String) (r : Nat) (d : VolumeDataset)
    (h : TotalsInv s) : TotalsInv (s.LoadDataset f r d).1 := by
  unfold LoadDataset
  cases hs : splitFirst (fun i : VolDataListElem => i.pVolumeDataset.filename == f)
      s.m_vpVolumeDatasets with
  | none =>
    simp only
    split <;> exact h
  | some x =>
    obtain ⟨pre, i, post⟩ := x
    exact h

theorem TotalsInv_FreeDataset (s : GPUMemMan) (p r : Nat) (fn : Option String)
    (h : TotalsInv s) : TotalsInv ((s.FreeDataset p r fn).getD s) := by
  unfold FreeDataset
  cases hs : splitFirst
      (fun i : VolDataListElem => i.pVolumeDataset.addr == p && i.qpUser.contains r)
      s.m_vpVolumeDatasets with
  | none => cases fn <;> simpa using h
  | some x =>
    obtain ⟨pre, i, post⟩ := x
    simp only
    split
    · exact TotalsInv_FreeAssociatedTextures s p h
    · exact h

theorem TotalsInv_Load2DTextureFromFile (s : GPUMemMan) (f : String) (image : Option GLObject)
    (h : TotalsInv s) : TotalsInv (s.Load2DTextureFromFile f image).1 := by
  unfold Load2DTextureFromFile
  cases hs : splitFirst (fun i : SimpleTextureListElem => i.strFilename == f)
      s.m_vpSimpleTextures with
  | none =>
    cases image with
    | none => simpa using h
    | some tex =>
      unfold TotalsInv cpuSizeSum gpuSizeSum addSizes wadd WORD at *
      simp only [List.map_append, List.sum_append, List.map_cons, List.sum_cons, List.map_nil,
        List.sum_nil] at h ⊢
      omega
  | some x =>
    obtain ⟨pre, i, post⟩ := x
    obtain ⟨hl, -, -⟩ := splitFirst_eq_some _ _ _ _ _ hs
    unfold TotalsInv cpuSizeSum gpuSizeSum at *
    simp only [hl, List.map_append, List.sum_append, List.map_cons, List.sum_cons] at h ⊢
    exact h

theorem TotalsInv_FreeTexture (s : GPUMemMan) (p : Nat) (h : TotalsInv s) :
    TotalsInv (s.FreeTexture p) := by
  unfold FreeTexture
  cases hs : splitFirst (fun i : SimpleTextureListElem => i.pTexture.addr == p) s.m_vpSimpleTextures with
  | none => simpa using h
  | some x =>
    obtain ⟨pre, i, post⟩ := x
    obtain ⟨hl, -, -⟩ := splitFirst_eq_some _ _ _ _ _ hs
    simp only
    split
    · unfold TotalsInv cpuSizeSum gpuSizeSum subSizes wsub WORD at *
      simp only [hl, List.map_append, List.sum_append, List.map_cons, List.sum_cons] at h ⊢
      omega
    · unfold TotalsInv cpuSizeSum gpuSizeSum at *
      simp only [hl, List.map_append, List.sum_append, List.map_cons, List.sum_cons] at h ⊢
      exact h

theorem TotalsInv_GetEmpty1DTrans (s : GPUMemMan) (n r tf : Nat) (tex : GLObject) (h : TotalsInv s) :
    TotalsInv (s.GetEmpty1DTrans n r tf tex) := by
  unfold GetEmpty1DTrans TotalsInv cpuSizeSum gpuSizeSum addSizes wadd WORD at *
  simp only [List.map_append, List.sum_append, List.map_cons, List.sum_cons, List.map_nil,
    List.sum_nil] at h ⊢
  omega

theorem TotalsInv_Get1DTransFromFile (s : GPUMemMan) (f : String) (r tf : Nat) (tex : GLObject) (h : TotalsInv s) :
    TotalsInv (s.Get1DTransFromFile f r tf tex) := by
  unfold Get1DTransFromFile TotalsInv cpuSizeSum gpuSizeSum addSizes wadd WORD at *
  simp only [List.map_append, List.sum_append, List.map_cons, List.sum_cons, List.map_nil,
    List.sum_nil] at h ⊢
  omega

theorem TotalsInv_Access1DTrans (s : GPUMemMan) (p r : Nat) (h : TotalsInv s) :
    TotalsInv (s.Access1DTrans p r).1 := by
  unfold Access1DTrans
  cases hs : splitFirst (fun i : Trans1DListElem => i.pTransferFunction1D == p) s.m_vpTrans1DList with
  | none => simpa using h
  | some x =>
    obtain ⟨pre, i, post⟩ := x
    obtain ⟨hl, -, -⟩ := splitFirst_eq_some _ _ _ _ _ hs
    unfold TotalsInv cpuSizeSum gpuSizeSum at *
    simp only [hl, List.map_append, List.sum_append, List.map_cons, List.sum_cons] at h ⊢
    exact h

theorem TotalsInv_Free1DTrans (s : GPUMemMan) (p r : Nat) (h : TotalsInv s) :
    TotalsInv (s.Free1DTrans p r) := by
  unfold Free1DTrans
  cases hs : splitFirst (fun i : Trans1DListElem => i.pTransferFunction1D == p && i.qpUser.contains r) s.m_vpTrans1DList with
  | none => simpa using h
  | some x =>
    obtain ⟨pre, i, post⟩ := x
    obtain ⟨hl, -, -⟩ := splitFirst_eq_some _ _ _ _ _ hs
    simp only
    split
    · unfold TotalsInv cpuSizeSum gpuSizeSum subSizes wsub WORD at *
      simp only [hl, List.map_append, List.sum_append, List.map_cons, List.sum_cons] at h ⊢
      omega
    · unfold TotalsInv cpuSizeSum gpuSizeSum at *
      simp only [hl, List.map_append, List.sum_append, List.map_cons, List.sum_cons] at h ⊢
      exact h

theorem TotalsInv_GetEmpty2DTrans (s : GPUMemMan) (n : Nat × Nat) (r tf : Nat) (tex : GLObject) (h : TotalsInv s) :
    TotalsInv (s.GetEmpty2DTrans n r tf tex) := by
  unfold GetEmpty2DTrans TotalsInv cpuSizeSum gpuSizeSum addSizes wadd WORD at *
  simp only [List.map_append, List.sum_append, List.map_cons, List.sum_cons, List.map_nil,
    List.sum_nil] at h ⊢
  omega

theorem TotalsInv_Get2DTransFromFile (s : GPUMemMan) (f : String) (r tf : Nat) (tex : GLObject) (h : TotalsInv s) :
    TotalsInv (s.Get2DTransFromFile f r tf tex) := by
  unfold Get2DTransFromFile TotalsInv cpuSizeSum gpuSizeSum addSizes wadd WORD at *
  simp only [List.map_append, List.sum_append, List.map_cons, List.sum_cons, List.map_nil,
    List.sum_nil] at h ⊢
  omega

theorem TotalsInv_Access2DTrans (s : GPUMemMan) (p r : Nat) (h : TotalsInv s) :
    TotalsInv (s.Access2DTrans p r).1 := by
  unfold Access2DTrans
  cases hs : splitFirst (fun i : Trans2DListElem => i.pTransferFunction2D == p) s.m_vpTrans2DList with
  | none => simpa using h
  | some x =>
    obtain ⟨pre, i, post⟩ := x
    obtain ⟨hl, -, -⟩ := splitFirst_eq_some _ _ _ _ _ hs
    unfold TotalsInv cpuSizeSum gpuSizeSum at *
    simp only [hl, List.map_append, List.sum_append, List.map_cons, List.sum_cons] at h ⊢
    exact h

theorem TotalsInv_Free2DTrans (s : GPUMemMan) (p r : Nat) (h : TotalsInv s) :
    TotalsInv (s.Free2DTrans p r) := by
  unfold Free2DTrans
  cases hs : splitFirst (fun i : Trans2DListElem => i.pTransferFunction2D == p && i.qpUser.contains r) s.m_vpTrans2DList with
  | none => simpa using h
  | some x =>
    obtain ⟨pre, i, post⟩ := x
    obtain ⟨hl, -, -⟩ := splitFirst_eq_some _ _ _ _ _ hs
    simp only
    split
    · unfold TotalsInv cpuSizeSum gpuSizeSum subSizes wsub WORD at *
      simp only [hl, List.map_append, List.sum_append, List.map_cons, List.sum_cons] at h ⊢
      omega
    · unfold TotalsInv cpuSizeSum gpuSizeSum at *
      simp only [hl, List.map_append, List.sum_append, List.map_cons, List.sum_cons] at h ⊢
      exact h

theorem TotalsInv_Get3DTexture (s : GPUMemMan) (d : Nat) (l b : List Nat) (t : GLObject)
    (h : TotalsInv s) : TotalsInv (s.Get3DTexture d l b t).1 := by
  unfold Get3DTexture
  cases hs : splitFirst (fun i : Texture3DListElem => i.Match d l b) s.m_vpTex3DList with
  | none =>
    unfold TotalsInv cpuSizeSum gpuSizeSum addSizes wadd WORD at *
    simp only [List.map_append, List.sum_append, List.map_cons, List.sum_cons, List.map_nil,
      List.sum_nil] at h ⊢
    omega
  | some x =>
    obtain ⟨pre, i, post⟩ := x
    exact h

theorem TotalsInv_MemSizesChanged (s : GPUMemMan) (c g : Nat) (h : TotalsInv s) :
    TotalsInv (s.MemSizesChanged c g) := by
  simpa [MemSizesChanged] using h

theorem TotalsInv_GetFBO (s : GPUMemMan) (t : GLObject) (h : TotalsInv s) :
    TotalsInv ((s.GetFBO t).1) := by
  unfold GetFBO TotalsInv cpuSizeSum gpuSizeSum addSizes wadd WORD at *
  simp only [List.map_append, List.sum_append, List.map_cons, List.sum_cons, List.map_nil,
    List.sum_nil] at h ⊢
  omega

theorem TotalsInv_FreeFBO (s : GPUMemMan) (p : Nat) (h : TotalsInv s) :
    TotalsInv (s.FreeFBO p) := by
  unfold FreeFBO
  cases hs : splitFirst (fun i : FBOListElem => i.pFBOTex.addr == p) s.m_vpFBOList with
  | none => simpa using h
  | some x =>
    obtain ⟨pre, i, post⟩ := x
    obtain ⟨hl, -, -⟩ := splitFirst_eq_some _ _ _ _ _ hs
    unfold TotalsInv cpuSizeSum gpuSizeSum subSizes wsub WORD at *
    simp only [hl, List.map_append, List.sum_append, List.map_cons, List.sum_cons] at h ⊢
    omega

theorem TotalsInv_GetGLSLProgram (s : GPUMemMan) (v f : String) (e : GLSLListElem)
    (h : TotalsInv s) : TotalsInv (s.GetGLSLProgram v f e).1 := by
  unfold GetGLSLProgram
  cases hs : splitFirst (fun i : GLSLListElem => i.strVSFile == v && i.strFSFile == f)
      s.m_vpGLSLList with
  | none =>
    unfold TotalsInv cpuSizeSum gpuSizeSum addSizes wadd WORD at *
    simp only [List.map_append, List.sum_append, List.map_cons, List.sum_cons, List.map_nil,
      List.sum_nil] at h ⊢
    omega
  | some x =>
    obtain ⟨pre, i, post⟩ := x
    obtain ⟨hl, -, -⟩ := splitFirst_eq_some _ _ _ _ _ hs
    unfold TotalsInv cpuSizeSum gpuSizeSum at *
    simp only [hl, List.map_append, List.sum_append, List.map_cons, List.sum_cons] at h ⊢
    exact h

theorem TotalsInv_FreeGLSLProgram (s : GPUMemMan) (p : Nat) (h : TotalsInv s) :
    TotalsInv (s.FreeGLSLProgram p) := by
  unfold FreeGLSLProgram
  cases hs : splitFirst (fun i : GLSLListElem => i.pGLSLProgram.addr == p) s.m_vpGLSLList with
  | none => simpa using h
  | some x =>
    obtain ⟨pre, i, post⟩ := x
    obtain ⟨hl, -, -⟩ := splitFirst_eq_some _ _ _ _ _ hs
    simp only
    split
    · unfold TotalsInv cpuSizeSum gpuSizeSum subSizes wsub WORD at *
      simp only [hl, List.map_append, List.sum_append, List.map_cons, List.sum_cons] at h ⊢
      omega
    · unfold TotalsInv cpuSizeSum gpuSizeSum at *
      simp only [hl, List.map_append, List.sum_append, List.map_cons, List.sum_cons] at h ⊢
      exact h

/-- Every public call preserves the invariant of the totals. -/
theorem TotalsInv_step (s : GPUMemMan) (op : Op) (h : TotalsInv s) : TotalsInv (step s op) := by
  cases op with
  | LoadDataset f r d => exact TotalsInv_LoadDataset s f r d h
  | FreeDataset p r fn => exact TotalsInv_FreeDataset s p r fn h
  | Load2DTextureFromFile f image => exact TotalsInv_Load2DTextureFromFile s f image h
  | FreeTexture p => exact TotalsInv_FreeTexture s p h
  | Changed1DTrans r p => exact h
  | GetEmpty1DTrans n r tf tex => exact TotalsInv_GetEmpty1DTrans s n r tf tex h
  | Get1DTransFromFile f r tf tex => exact TotalsInv_Get1DTransFromFile s f r tf tex h
  | Access1DTrans p r => exact TotalsInv_Access1DTrans s p r h
  | Free1DTrans p r => exact TotalsInv_Free1DTrans s p r h
  | Changed2DTrans r p => exact h
  | GetEmpty2DTrans n r tf tex => exact TotalsInv_GetEmpty2DTrans s n r tf tex h
  | Get2DTransFromFile f r tf tex => exact TotalsInv_Get2DTransFromFile s f r tf tex h
  | Access2DTrans p r => exact TotalsInv_Access2DTrans s p r h
  | Free2DTrans p r => exact TotalsInv_Free2DTrans s p r h
  | Get3DTexture d l b t => exact TotalsInv_Get3DTexture s d l b t h
  | MemSizesChanged c g => exact TotalsInv_MemSizesChanged s c g h
  | GetFBO t => exact TotalsInv_GetFBO s t h
  | FreeFBO p => exact TotalsInv_FreeFBO s p h
  | GetGLSLProgram v f e => exact TotalsInv_GetGLSLProgram s v f e h
  | FreeGLSLProgram p => exact TotalsInv_FreeGLSLProgram s p h

theorem TotalsInv_foldl_step (ops : List Op) :
    ∀ s, TotalsInv s → TotalsInv (ops.foldl step s) := by
  induction ops with
  | nil => intro s h; exact h
  | cons op ops ih => intro s h; exact ih _ (TotalsInv_step s op h)

/-- In every reachable state the totals are the attributed size sums modulo `2^64`. -/
theorem TotalsInv_of_Reachable (s : GPUMemMan) (h : Reachable s) : TotalsInv s := by
  obtain ⟨ops, rfl⟩ := h
  exact TotalsInv_foldl_step ops init TotalsInv_init

/-! ## Teardown -/

theorem foldl_subSizes {α : Type} (f : α → GLObject) (l : List α) :
    ∀ s : GPUMemMan, s.m_iAllocatedGPUMemory < WORD → s.m_iAllocatedCPUMemory < WORD →
      l.foldl (fun s i => subSizes s (f i)) s =
        { s with
          m_iAllocatedGPUMemory := wsub s.m_iAllocatedGPUMemory (l.map fun i => (f i).cpuSize).sum
          m_iAllocatedCPUMemory :=
            wsub s.m_iAllocatedCPUMemory (l.map fun i => (f i).gpuSize).sum } := by
  induction l with
  | nil =>
    intro s hg hc
    cases s
    simp only [List.foldl_nil, List.map_nil, List.sum_nil] at *
    simp [wsub_zero _ hg, wsub_zero _ hc]
  | cons a l ih =>
    intro s hg hc
    rw [List.foldl_cons, ih (subSizes s (f a)) (wsub_lt _ _) (wsub_lt _ _)]
    simp [subSizes, wsub_wsub]

theorem destructor_eq (s : GPUMemMan)
    (hg : s.m_iAllocatedGPUMemory < WORD) (hc : s.m_iAllocatedCPUMemory < WORD) :
    destructor s =
      { s with
        m_iAllocatedGPUMemory := wsub s.m_iAllocatedGPUMemory s.cpuSizeSum
        m_iAllocatedCPUMemory := wsub s.m_iAllocatedCPUMemory s.gpuSizeSum } := by
  unfold destructor
  simp only
  rw [foldl_subSizes (fun i : SimpleTextureListElem => i.pTexture) _ s hg hc]
  rw [foldl_subSizes (fun i : Trans1DListElem => i.pTexture) _ _ (wsub_lt _ _) (wsub_lt _ _)]
  rw [foldl_subSizes (fun i : Trans2DListElem => i.pTexture) _ _ (wsub_lt _ _) (wsub_lt _ _)]
  rw [foldl_subSizes (fun i : Texture3DListElem => i.pTexture) _ _ (wsub_lt _ _) (wsub_lt _ _)]
  rw [foldl_subSizes (fun i : FBOListElem => i.pFBOTex) _ _ (wsub_lt _ _) (wsub_lt _ _)]
  rw [foldl_subSizes (fun i : GLSLListElem => i.pGLSLProgram) _ _ (wsub_lt _ _) (wsub_lt _ _)]
  simp only [wsub_wsub, cpuSizeSum, gpuSizeSum]

/-- C6: in every state reachable from the freshly constructed manager by public
calls, the teardown loops of `~GPUMemMan`, which subtract the sizes of every entry
still present in every registry, leave `m_iAllocatedGPUMemory = 0` and
`m_iAllocatedCPUMemory = 0`, so both final assertions hold. -/
theorem C6_teardown_totals_zero (s : GPUMemMan) (h : Reachable s) :
    (destructor s).m_iAllocatedGPUMemory = 0 ∧ (destructor s).m_iAllocatedCPUMemory = 0 ∧
      destructorAsserts s = true := by
  have hinv := TotalsInv_of_Reachable s h
  have hg : s.m_iAllocatedGPUMemory < WORD := by
    rw [hinv.1]; exact Nat.mod_lt _ (by unfold WORD; omega)
  have hc : s.m_iAllocatedCPUMemory < WORD := by
    rw [hinv.2]; exact Nat.mod_lt _ (by unfold WORD; omega)
  have h1 : (destructor s).m_iAllocatedGPUMemory = 0 := by
    rw [destructor_eq s hg hc]
    simp only
    rw [hinv.1]
    unfold wsub WORD
    omega
  have h2 : (destructor s).m_iAllocatedCPUMemory = 0 := by
    rw [destructor_eq s hg hc]
    simp only
    rw [hinv.2]
    unfold wsub WORD
    omega
  refine ⟨h1, h2, ?_⟩
  simp [destructorAsserts, h1, h2]

/-- Witness of C6 on `exampleManager`, which holds one unreleased entry in every
registry. -/
theorem C6_teardown_totals_zero_witness :
    Reachable exampleManager ∧
    (destructor exampleManager).m_iAllocatedGPUMemory = 0 ∧
    (destructor exampleManager).m_iAllocatedCPUMemory = 0 ∧
    destructorAsserts exampleManager = true :=
  ⟨⟨_, rfl⟩, C6_teardown_totals_zero exampleManager ⟨_, rfl⟩⟩

/-! ## Which size feeds which total -/

/-- C5 (the code at the failing inputs): after one `GetFBO` on a fresh manager,
the registered GPU-side sizes sum to 4096 while `m_iAllocatedGPUMemory` is 0, and
the registered CPU-side sizes sum to 0 while `m_iAllocatedCPUMemory` is 4096; and
the `FreeTexture` call that removes the image entry of `oneImageManager` lowers
`m_iAllocatedGPUMemory` by 30, the texture's CPU size, not by its GPU size 40. -/
theorem C5_totals_take_the_other_size :
    Reachable oneTargetManager ∧
    oneTargetManager.gpuSizeSum = 4096 ∧ oneTargetManager.m_iAllocatedGPUMemory = 0 ∧
    oneTargetManager.cpuSizeSum = 0 ∧ oneTargetManager.m_iAllocatedCPUMemory = 4096 ∧
    Reachable oneImageManager ∧
    oneImageManager.m_vpSimpleTextures = [⟨1, ⟨200, 30, 40⟩, "logo.png"⟩] ∧
    oneImageManager.m_iAllocatedGPUMemory = 30 ∧
    (oneImageManager.FreeTexture 200).m_vpSimpleTextures = [] ∧
    (oneImageManager.FreeTexture 200).m_iAllocatedGPUMemory = 30 - 30 :=
  ⟨⟨_, rfl⟩, by decide, by decide, by decide, by decide, ⟨_, rfl⟩, by decide, by decide,
    by decide, by decide⟩

end GPUMemMan

/-! ## One path shared by several requesters -/

theorem loaders_append (a b : List DatasetCall) : loaders (a ++ b) = loaders a ++ loaders b := by
  simp [loaders, List.filterMap_append]

theorem freers_append (a b : List DatasetCall) : freers (a ++ b) = freers a ++ freers b := by
  simp [freers, List.filterMap_append]

theorem seenAfter_append_loaders (seen : List Nat) (c : DatasetCall) (cs : List DatasetCall) :
    seenAfter seen c ++ loaders cs = seen ++ loaders (c :: cs) := by
  cases c <;> simp [seenAfter, loaders]

theorem releasedAfter_append_freers (released : List Nat) (c : DatasetCall)
    (cs : List DatasetCall) :
    releasedAfter released c ++ freers cs = released ++ freers (c :: cs) := by
  cases c <;> simp [releasedAfter, freers]

theorem validCalls_snoc (p : String) (s0 : GPUMemMan) (c : DatasetCall) (cs : List DatasetCall) :
    ∀ seen released, validCalls p s0 seen released (cs ++ [c]) =
      (validCalls p s0 seen released cs &&
        okCall p s0 (seen ++ loaders cs) (released ++ freers cs) c) := by
  induction cs with
  | nil => intro seen released; simp [validCalls, loaders, freers]
  | cons c0 cs ih =>
    intro seen released
    show (okCall p s0 seen released c0 &&
      validCalls p s0 (seenAfter seen c0) (releasedAfter released c0) (cs ++ [c])) = _
    rw [ih (seenAfter seen c0) (releasedAfter released c0), seenAfter_append_loaders,
      releasedAfter_append_freers]
    simp [validCalls, Bool.and_assoc]


open GPUMemMan

theorem runDatasetCalls_snoc (p : String) (s0 : GPUMemMan) (cs : List DatasetCall)
    (c : DatasetCall) :
    runDatasetCalls p s0 (cs ++ [c]) =
      (runDatasetCalls p s0 cs).bind fun x => datasetCall p x c := by
  simp [runDatasetCalls, List.foldl_append]

theorem holders_snoc_load (cs : List DatasetCall) (r : Nat) (d : VolumeDataset)
    (h : r ∉ freers cs) : holders (cs ++ [.load r d]) = holders cs ++ [r] := by
  have h1 : loaders [DatasetCall.load r d] = [r] := rfl
  have h2 : freers [DatasetCall.load r d] = [] := rfl
  simp [holders, loaders_append, freers_append, h1, h2, List.filter_append, h]

theorem holders_snoc_free (cs : List DatasetCall) (r : Nat) (fn : Option String) :
    holders (cs ++ [.free r fn]) = (holders cs).filter (fun x => x != r) := by
  have h1 : loaders [DatasetCall.free r fn] = [] := rfl
  have h2 : freers [DatasetCall.free r fn] = [r] := rfl
  simp only [holders, loaders_append, freers_append, h1, h2, List.append_nil, List.filter_filter]
  apply List.filter_congr
  intro x _
  by_cases hx : x = r <;> simp [hx]

theorem LoadDataset_miss (t : GPUMemMan) (p : String) (r : Nat) (d : VolumeDataset)
    (hp : ∀ e ∈ t.m_vpVolumeDatasets, e.pVolumeDataset.filename ≠ p) (hopen : d.isOpen = true) :
    t.LoadDataset p r d =
      ({ t with m_vpVolumeDatasets := t.m_vpVolumeDatasets ++ [⟨d, [r]⟩] }, some d.addr) := by
  have hmiss : splitFirst (fun i : VolDataListElem => i.pVolumeDataset.filename == p)
      t.m_vpVolumeDatasets = none :=
    (splitFirst_eq_none _ _).mpr (fun i hi => by simpa using hp i hi)
  simp only [LoadDataset, hmiss, hopen, if_true]

theorem LoadDataset_hit_last (t : GPUMemMan) (p : String) (r : Nat) (d : VolumeDataset)
    (pre : List VolDataListElem) (d0 : VolumeDataset) (users : List Nat)
    (hl : t.m_vpVolumeDatasets = pre ++ [⟨d0, users⟩])
    (hpre : ∀ e ∈ pre, e.pVolumeDataset.filename ≠ p) (hd0 : d0.filename = p) :
    t.LoadDataset p r d =
      ({ t with m_vpVolumeDatasets := pre ++ [⟨d0, users ++ [r]⟩] }, some d0.addr) := by
  have h := splitFirst_append (fun i : VolDataListElem => i.pVolumeDataset.filename == p) pre []
    ⟨d0, users⟩ (fun i hi => by simpa using hpre i hi) (by simp [hd0])
  simp only [LoadDataset, hl, h]

theorem FreeDataset_hit_last (t : GPUMemMan) (r : Nat) (fn : Option String)
    (pre : List VolDataListElem) (d0 : VolumeDataset) (users : List Nat)
    (hl : t.m_vpVolumeDatasets = pre ++ [⟨d0, users⟩])
    (hpre : ∀ e ∈ pre, e.pVolumeDataset.addr ≠ d0.addr) (hr : r ∈ users) :
    ∃ u, t.FreeDataset d0.addr r fn = some u ∧
      u.m_vpVolumeDatasets =
        if users.erase r = [] then pre else pre ++ [⟨d0, users.erase r⟩] := by
  have h := splitFirst_append
    (fun i : VolDataListElem => i.pVolumeDataset.addr == d0.addr && i.qpUser.contains r) pre []
    ⟨d0, users⟩ (fun i hi => by simp [hpre i hi]) (by simp [hr])
  simp only [FreeDataset, hl, h]
  by_cases he : users.erase r = [] <;> simp [he]


theorem lookup_cons_ne (x r v : Nat) (tbl : List (Nat × Nat)) (h : x ≠ r) :
    List.lookup x ((r, v) :: tbl) = List.lookup x tbl := by
  have hb : (x == r) = false := by simpa using h
  simp [List.lookup, hb]

theorem lookup_cons_self (r v : Nat) (tbl : List (Nat × Nat)) :
    List.lookup r ((r, v) :: tbl) = some v := by
  simp [List.lookup]

theorem datasetRun_invariant (p : String) (s0 : GPUMemMan)
    (hp0 : ∀ e ∈ s0.m_vpVolumeDatasets, e.pVolumeDataset.filename ≠ p)
    (cs : List DatasetCall) :
    validCalls p s0 [] [] cs = true →
    ∃ st, runDatasetCalls p s0 cs = some st ∧
    (loaders cs).Nodup ∧ (∀ r ∈ freers cs, r ∈ loaders cs) ∧
    (∀ r ∈ loaders cs, ∃ h, st.2.lookup r = some h ∧
        ∀ e ∈ s0.m_vpVolumeDatasets, e.pVolumeDataset.addr ≠ h) ∧
    (holders cs = [] → st.1.m_vpVolumeDatasets = s0.m_vpVolumeDatasets) ∧
    (holders cs ≠ [] → ∃ d : VolumeDataset,
        st.1.m_vpVolumeDatasets = s0.m_vpVolumeDatasets ++ [⟨d, holders cs⟩] ∧
        d.filename = p ∧
        ∀ r ∈ holders cs, st.2.lookup r = some d.addr) := by
  induction cs using List.reverseRecOn with
  | nil =>
    intro _
    refine ⟨(s0, []), rfl, by simp [loaders], by simp [freers], by simp [loaders],
      fun _ => rfl, ?_⟩
    intro h
    exact absurd rfl h
  | append_singleton cs c ih =>
    intro hv
    rw [validCalls_snoc, Bool.and_eq_true, List.nil_append, List.nil_append] at hv
    obtain ⟨hv1, hok⟩ := hv
    obtain ⟨st, hst, hnd, hfl, htbl, hnone, hsome⟩ := ih hv1
    rw [runDatasetCalls_snoc, hst]
    cases c with
    | load r d =>
      simp only [okCall, Bool.and_eq_true, Bool.not_eq_true', List.all_eq_true, bne_iff_ne,
        ne_eq, beq_iff_eq] at hok
      obtain ⟨⟨⟨hrl, hopen⟩, hname⟩, hfresh⟩ := hok
      have hrl : r ∉ loaders cs := by simpa using hrl
      have hrf : r ∉ freers cs := fun h => hrl (hfl r h)
      have hL : loaders (cs ++ [DatasetCall.load r d]) = loaders cs ++ [r] := by
        rw [loaders_append]; rfl
      have hF : freers (cs ++ [DatasetCall.load r d]) = freers cs := by
        rw [freers_append]; simp [freers]
      have hH := holders_snoc_load cs r d hrf
      by_cases hh : holders cs = []
      · have hds := hnone hh
        have hload := LoadDataset_miss st.1 p r d (by rw [hds]; exact hp0) hopen
        have hstep : datasetCall p st (DatasetCall.load r d) =
            some ({ st.1 with m_vpVolumeDatasets := s0.m_vpVolumeDatasets ++ [⟨d, [r]⟩] },
              (r, d.addr) :: st.2) := by
          simp only [datasetCall, hload, hds]
        rw [hL, hF, hH, hh]
        refine ⟨_, hstep, ?_, ?_, ?_, ?_, ?_⟩
        · exact List.Nodup.append hnd (List.nodup_singleton r) (by simpa using hrl)
        · intro x hx; exact List.mem_append_left _ (hfl x hx)
        · intro x hx
          by_cases hxr : x = r
          · subst hxr
            exact ⟨d.addr, lookup_cons_self _ _ _, hfresh⟩
          · rcases List.mem_append.mp hx with hx | hx
            · obtain ⟨h, h1, h2⟩ := htbl x hx
              exact ⟨h, by rw [lookup_cons_ne x r _ _ hxr]; exact h1, h2⟩
            · simp at hx; exact absurd hx hxr
        · intro h; simp at h
        · intro _
          refine ⟨d, rfl, hname, ?_⟩
          intro x hx
          simp at hx
          subst hx
          exact lookup_cons_self _ _ _
      · obtain ⟨d0, hds, hd0, hlk⟩ := hsome hh
        have hload := LoadDataset_hit_last st.1 p r d
          s0.m_vpVolumeDatasets d0 (holders cs) hds hp0 hd0
        have hstep : datasetCall p st (DatasetCall.load r d) =
            some ({ st.1 with
                m_vpVolumeDatasets := s0.m_vpVolumeDatasets ++ [⟨d0, holders cs ++ [r]⟩] },
              (r, d0.addr) :: st.2) := by
          simp only [datasetCall, hload]
        obtain ⟨r0, hr0⟩ := List.exists_mem_of_ne_nil _ hh
        have hfresh0 : ∀ e ∈ s0.m_vpVolumeDatasets, e.pVolumeDataset.addr ≠ d0.addr := by
          obtain ⟨h, h1, h2⟩ := htbl r0 (List.mem_filter.mp hr0).1
          rw [hlk r0 hr0] at h1
          cases h1
          exact h2
        rw [hL, hF, hH]
        refine ⟨_, hstep, ?_, ?_, ?_, ?_, ?_⟩
        · exact List.Nodup.append hnd (List.nodup_singleton r) (by simpa using hrl)
        · intro x hx; exact List.mem_append_left _ (hfl x hx)
        · intro x hx
          by_cases hxr : x = r
          · subst hxr
            exact ⟨d0.addr, lookup_cons_self _ _ _, hfresh0⟩
          · rcases List.mem_append.mp hx with hx | hx
            · obtain ⟨h, h1, h2⟩ := htbl x hx
              exact ⟨h, by rw [lookup_cons_ne x r _ _ hxr]; exact h1, h2⟩
            · simp at hx; exact absurd hx hxr
        · intro h; simp at h
        · intro _
          refine ⟨d0, rfl, hd0, ?_⟩
          intro x hx
          by_cases hxr : x = r
          · subst hxr
            exact lookup_cons_self _ _ _
          · rcases List.mem_append.mp hx with hx | hx
            · rw [lookup_cons_ne x r _ _ hxr]; exact hlk x hx
            · simp at hx; exact absurd hx hxr
    | free r fn =>
      simp only [okCall, Bool.and_eq_true, Bool.not_eq_true'] at hok
      have hrl : r ∈ loaders cs := by simpa using hok.1
      have hrf : r ∉ freers cs := by simpa using hok.2
      have hrh : r ∈ holders cs := by
        simp only [holders, List.mem_filter]
        exact ⟨hrl, by simpa using hrf⟩
      have hh : holders cs ≠ [] := List.ne_nil_of_mem hrh
      have hL : loaders (cs ++ [DatasetCall.free r fn]) = loaders cs := by
        rw [loaders_append]; simp [loaders]
      have hF : freers (cs ++ [DatasetCall.free r fn]) = freers cs ++ [r] := by
        rw [freers_append]; rfl
      have hH := holders_snoc_free cs r fn
      have hHnd : (holders cs).Nodup := hnd.filter _
      have herase : (holders cs).erase r = (holders cs).filter (fun x => x != r) :=
        hHnd.erase_eq_filter r
      obtain ⟨h, hlookup, hfresh⟩ := htbl r hrl
      obtain ⟨d0, hds, hd0, hlk⟩ := hsome hh
      have hd0a : h = d0.addr := by
        have := hlk r hrh
        rw [hlookup] at this
        exact Option.some.inj this
      subst hd0a
      obtain ⟨u, hu, hudata⟩ :=
        FreeDataset_hit_last st.1 r fn s0.m_vpVolumeDatasets d0 (holders cs) hds hfresh hrh
      have hstep : datasetCall p st (DatasetCall.free r fn) = some (u, st.2) := by
        simp only [datasetCall, hlookup, hu]
      rw [hL, hF, hH]
      refine ⟨_, hstep, hnd, ?_, htbl, ?_, ?_⟩
      · intro x hx
        rcases List.mem_append.mp hx with hx | hx
        · exact hfl x hx
        · simp at hx; subst hx; exact hrl
      · intro hempty
        show u.m_vpVolumeDatasets = _
        rw [hudata, herase, hempty]
        simp
      · intro hne
        refine ⟨d0, ?_, hd0, fun x hx => hlk x (List.mem_filter.mp hx).1⟩
        show u.m_vpVolumeDatasets = _
        rw [hudata, herase, if_neg hne]

/-- C1: start from any manager state with no dataset entry for `p` and let clients
make any admissible sequence of calls on `p` (`validCalls`): successful
`LoadDataset(p, r)` calls by pairwise distinct requesters, interleaved with
`FreeDataset(handle, r)` calls by requesters that loaded earlier and have not yet
released, each with the handle its own load returned. Every call of the sequence
returns. While some requester has loaded and not released, the registry holds
exactly one entry for `p`, and its owner list is, without repetition, exactly the
requesters that have loaded and not yet released (in loading order); once all
have released, the registry holds no entry for `p`. -/
theorem C1_one_entry_owned_by_holders (p : String) (s0 : GPUMemMan) (calls : List DatasetCall)
    (hp0 : ∀ e ∈ s0.m_vpVolumeDatasets, e.pVolumeDataset.filename ≠ p)
    (hv : validCalls p s0 [] [] calls = true) :
    ∃ st, runDatasetCalls p s0 calls = some st ∧
      (holders calls ≠ [] →
        ∃ e : VolDataListElem,
          st.1.m_vpVolumeDatasets.filter (fun i => i.pVolumeDataset.filename == p) = [e] ∧
          e.qpUser = holders calls ∧ e.qpUser.Nodup ∧
          ∀ r, r ∈ e.qpUser ↔ (r ∈ loaders calls ∧ r ∉ freers calls)) ∧
      (holders calls = [] →
        st.1.m_vpVolumeDatasets.filter (fun i => i.pVolumeDataset.filename == p) = []) := by
  obtain ⟨st, hst, hnd, -, -, hnone, hsome⟩ := datasetRun_invariant p s0 hp0 calls hv
  have hf0 : s0.m_vpVolumeDatasets.filter (fun i => i.pVolumeDataset.filename == p) = [] := by
    apply List.filter_eq_nil_iff.mpr
    intro i hi
    simpa using hp0 i hi
  refine ⟨st, hst, ?_, ?_⟩
  · intro hne
    obtain ⟨d, hds, hd, -⟩ := hsome hne
    refine ⟨⟨d, holders calls⟩, ?_, rfl, hnd.filter _, ?_⟩
    · rw [hds, List.filter_append, hf0]
      simp [hd]
    · intro r
      simp [holders, List.mem_filter]
  · intro he
    rw [hnone he, hf0]

/-- Witness of C1 on `exampleManager` and `exampleCalls`: of the three requesters
that loaded "foot.uvf", requesters 1 and 2 have released, so the single entry is
owned by 3. The sequence `staleFreeCalls`, in which requester 1 releases twice,
is not admissible, and its second release has no defined result. -/
theorem C1_one_entry_owned_by_holders_witness :
    (∀ e ∈ exampleManager.m_vpVolumeDatasets, e.pVolumeDataset.filename ≠ "foot.uvf") ∧
    validCalls "foot.uvf" exampleManager [] [] exampleCalls = true ∧
    holders exampleCalls = [3] ∧
    validCalls "foot.uvf" exampleManager [] [] staleFreeCalls = false ∧
    runDatasetCalls "foot.uvf" exampleManager staleFreeCalls = none ∧
    ∃ st, runDatasetCalls "foot.uvf" exampleManager exampleCalls = some st ∧
      ∃ e : VolDataListElem,
        st.1.m_vpVolumeDatasets.filter
          (fun i => i.pVolumeDataset.filename == "foot.uvf") = [e] ∧
        e.qpUser = holders exampleCalls ∧ e.qpUser.Nodup ∧
        ∀ r, r ∈ e.qpUser ↔ (r ∈ loaders exampleCalls ∧ r ∉ freers exampleCalls) := by
  obtain ⟨st, hst, h1, -⟩ :=
    C1_one_entry_owned_by_holders "foot.uvf" exampleManager exampleCalls (by decide)
      (by decide)
  exact ⟨by decide, by decide, by decide, by decide, by decide, st, hst, h1 (by decide)⟩

/-! ## Failed creation -/

/-- C11: for a path held by no dataset entry, `LoadDataset` with a dataset that
fails to open (`IsOpen()` false) returns `NULL`; for a path held by no image
entry, `Load2DTextureFromFile` with a failing image loader returns `NULL`; in both
cases the manager state, every registry and both totals, is returned unchanged. -/
theorem C11_failed_creation_is_noop (s : GPUMemMan) (strFilename : String) (requester : Nat)
    (dataset : VolumeDataset) (imageFilename : String)
    (hd : ∀ i ∈ s.m_vpVolumeDatasets, i.pVolumeDataset.filename ≠ strFilename)
    (hopen : dataset.isOpen = false)
    (hi : ∀ i ∈ s.m_vpSimpleTextures, i.strFilename ≠ imageFilename) :
    s.LoadDataset strFilename requester dataset = (s, none) ∧
    s.Load2DTextureFromFile imageFilename none = (s, none) := by
  constructor
  · have h : splitFirst (fun i : VolDataListElem => i.pVolumeDataset.filename == strFilename)
        s.m_vpVolumeDatasets = none :=
      (splitFirst_eq_none _ _).mpr (fun i hi => by simpa using hd i hi)
    simp [LoadDataset, h, hopen]
  · have h : splitFirst (fun i : SimpleTextureListElem => i.strFilename == imageFilename)
        s.m_vpSimpleTextures = none :=
      (splitFirst_eq_none _ _).mpr (fun i hx => by simpa using hi i hx)
    simp [Load2DTextureFromFile, h]

/-- Witness of C11 on `exampleManager`: "foot.uvf" fails to open and "missing.png"
fails to decode. -/
theorem C11_failed_creation_is_noop_witness :
    (∀ i ∈ exampleManager.m_vpVolumeDatasets, i.pVolumeDataset.filename ≠ "foot.uvf") ∧
    (∀ i ∈ exampleManager.m_vpSimpleTextures, i.strFilename ≠ "missing.png") ∧
    exampleManager.LoadDataset "foot.uvf" 2 ⟨110, "foot.uvf", false⟩ = (exampleManager, none) ∧
    exampleManager.Load2DTextureFromFile "missing.png" none = (exampleManager, none) :=
  ⟨by decide, by decide,
    C11_failed_creation_is_noop exampleManager "foot.uvf" 2 ⟨110, "foot.uvf", false⟩ "missing.png"
      (by decide) rfl (by decide)⟩

/-- C12 (the code at the failing input): on `exampleManager`, which holds no
shader entry for the pair ("a.vs", "broken.fs"), `GetGLSLProgram` appends the
element `e` that the `GLSLListElem` constructor yields, adds the sizes of its
program to the totals and returns the program pointer, for every such `e`: no
outcome of compiling and linking makes the function return `NULL` or leave the
registry as it was. -/
theorem C12_shader_registered_whatever_compiles (e : GLSLListElem) :
    (exampleManager.GetGLSLProgram "a.vs" "broken.fs" e).2 = some e.pGLSLProgram.addr ∧
    (exampleManager.GetGLSLProgram "a.vs" "broken.fs" e).1.m_vpGLSLList =
      exampleManager.m_vpGLSLList ++ [e] ∧
    (exampleManager.GetGLSLProgram "a.vs" "broken.fs" e).1.m_iAllocatedGPUMemory =
      wadd exampleManager.m_iAllocatedGPUMemory e.pGLSLProgram.cpuSize ∧
    (exampleManager.GetGLSLProgram "a.vs" "broken.fs" e).1.m_iAllocatedCPUMemory =
      wadd exampleManager.m_iAllocatedCPUMemory e.pGLSLProgram.gpuSize :=
  ⟨rfl, rfl, rfl, rfl⟩

/-! ## Creating transfer functions -/

/-- C14: `GetEmpty1DTrans`, `Get1DTransFromFile`, `GetEmpty2DTrans` and
`Get2DTransFromFile` each return the state in which the corresponding
transfer-function list is the old list followed by one new entry holding the new
function, its texture and the owner list `[requester]`, all other registries are
as before, and the totals have grown by the sizes of the new texture
(`m_iAllocatedGPUMemory` by `GetCPUSize()`, `m_iAllocatedCPUMemory` by
`GetGPUSize()`); no existing entry is looked up or reused, whatever the
arguments. -/
theorem C14_transfer_function_creation_appends (s : GPUMemMan) (iSize : Nat)
    (iSize2 : Nat × Nat) (strFilename : String) (requester tf : Nat) (tex : GLObject) :
    s.GetEmpty1DTrans iSize requester tf tex =
      { s with
        m_vpTrans1DList := s.m_vpTrans1DList ++ [⟨tf, tex, [requester]⟩]
        m_iAllocatedGPUMemory := wadd s.m_iAllocatedGPUMemory tex.cpuSize
        m_iAllocatedCPUMemory := wadd s.m_iAllocatedCPUMemory tex.gpuSize } ∧
    s.Get1DTransFromFile strFilename requester tf tex =
      { s with
        m_vpTrans1DList := s.m_vpTrans1DList ++ [⟨tf, tex, [requester]⟩]
        m_iAllocatedGPUMemory := wadd s.m_iAllocatedGPUMemory tex.cpuSize
        m_iAllocatedCPUMemory := wadd s.m_iAllocatedCPUMemory tex.gpuSize } ∧
    s.GetEmpty2DTrans iSize2 requester tf tex =
      { s with
        m_vpTrans2DList := s.m_vpTrans2DList ++ [⟨tf, tex, [requester]⟩]
        m_iAllocatedGPUMemory := wadd s.m_iAllocatedGPUMemory tex.cpuSize
        m_iAllocatedCPUMemory := wadd s.m_iAllocatedCPUMemory tex.gpuSize } ∧
    s.Get2DTransFromFile strFilename requester tf tex =
      { s with
        m_vpTrans2DList := s.m_vpTrans2DList ++ [⟨tf, tex, [requester]⟩]
        m_iAllocatedGPUMemory := wadd s.m_iAllocatedGPUMemory tex.cpuSize
        m_iAllocatedCPUMemory := wadd s.m_iAllocatedCPUMemory tex.gpuSize } :=
  ⟨rfl, rfl, rfl, rfl⟩

/-! ## The budget check -/

/-- C20: `MemSizesChanged` returns the manager state unchanged, every registry and
both totals, for every pair of ceilings, also ceilings below the current totals. -/
theorem C20_memSizesChanged_only_detects (s : GPUMemMan) (maxUsableCPUMem maxUsableGPUMem : Nat) :
    s.MemSizesChanged maxUsableCPUMem maxUsableGPUMem = s := by
  simp [MemSizesChanged]

/-! ## Offscreen targets -/

/-- C17: `GetFBO` appends one entry for the target it creates and returns that
target, without looking at the entries already there; after two calls, whose
targets have two different addresses that no registered target has, the list is
the old list followed by the two new entries (length + 2) and the two returned
handles differ; `FreeFBO` on either handle erases exactly that entry and keeps
the other one and all earlier entries. -/
theorem C17_offscreen_targets_never_shared (s : GPUMemMan) (t1 t2 : GLObject)
    (h1 : ∀ i ∈ s.m_vpFBOList, i.pFBOTex.addr ≠ t1.addr)
    (h2 : ∀ i ∈ s.m_vpFBOList, i.pFBOTex.addr ≠ t2.addr)
    (h12 : t1.addr ≠ t2.addr) :
    (s.GetFBO t1).2 = some t1.addr ∧ ((s.GetFBO t1).1.GetFBO t2).2 = some t2.addr ∧
    (s.GetFBO t1).1.m_vpFBOList = s.m_vpFBOList ++ [⟨t1⟩] ∧
    ((s.GetFBO t1).1.GetFBO t2).1.m_vpFBOList = s.m_vpFBOList ++ [⟨t1⟩, ⟨t2⟩] ∧
    ((s.GetFBO t1).1.GetFBO t2).1.m_vpFBOList.length = s.m_vpFBOList.length + 2 ∧
    (((s.GetFBO t1).1.GetFBO t2).1.FreeFBO t1.addr).m_vpFBOList = s.m_vpFBOList ++ [⟨t2⟩] ∧
    (((s.GetFBO t1).1.GetFBO t2).1.FreeFBO t2.addr).m_vpFBOList = s.m_vpFBOList ++ [⟨t1⟩] := by
  have hl : ((s.GetFBO t1).1.GetFBO t2).1.m_vpFBOList = s.m_vpFBOList ++ [⟨t1⟩, ⟨t2⟩] := by
    simp [GetFBO, addSizes]
  have hs1 := splitFirst_append (fun i : FBOListElem => i.pFBOTex.addr == t1.addr)
    s.m_vpFBOList [⟨t2⟩] ⟨t1⟩ (fun i hi => by simpa using h1 i hi) (by simp)
  have hs2 := splitFirst_append (fun i : FBOListElem => i.pFBOTex.addr == t2.addr)
    (s.m_vpFBOList ++ [⟨t1⟩]) [] ⟨t2⟩
    (fun i hi => by
      rcases List.mem_append.mp hi with hi | hi
      · simpa using h2 i hi
      · simp at hi; subst hi; simpa using h12)
    (by simp)
  refine ⟨rfl, rfl, rfl, hl, by rw [hl]; simp, ?_, ?_⟩
  · simp only [FreeFBO, hl]
    rw [show s.m_vpFBOList ++ [(⟨t1⟩ : FBOListElem), ⟨t2⟩] = s.m_vpFBOList ++ ⟨t1⟩ :: [⟨t2⟩] from rfl,
      hs1]
  · simp only [FreeFBO, hl]
    rw [show s.m_vpFBOList ++ [(⟨t1⟩ : FBOListElem), ⟨t2⟩] = (s.m_vpFBOList ++ [⟨t1⟩]) ++ ⟨t2⟩ :: []
      from by simp, hs2]
    simp

/-- Witness of C17 on `exampleManager`: two targets with the same sizes at the new
addresses 610 and 620. -/
theorem C17_offscreen_targets_never_shared_witness :
    (∀ i ∈ exampleManager.m_vpFBOList, i.pFBOTex.addr ≠ 610) ∧
    (∀ i ∈ exampleManager.m_vpFBOList, i.pFBOTex.addr ≠ 620) ∧
    (((exampleManager.GetFBO ⟨610, 0, 4096⟩).1.GetFBO ⟨620, 0, 4096⟩).1.FreeFBO 610).m_vpFBOList
      = exampleManager.m_vpFBOList ++ [⟨⟨620, 0, 4096⟩⟩] :=
  ⟨by decide, by decide,
    (C17_offscreen_targets_never_shared exampleManager ⟨610, 0, 4096⟩ ⟨620, 0, 4096⟩
      (by decide) (by decide) (by decide)).2.2.2.2.2.1⟩

/-! ## Releasing transfer functions -/

/-- Erasing the first occurrence of a member removes exactly one occurrence of it
and none of anything else. -/
theorem erase_one_occurrence (users : List Nat) (r : Nat) (hr : r ∈ users) :
    (users.erase r).count r + 1 = users.count r ∧
    (∀ x, x ≠ r → (users.erase r).count x = users.count x) ∧
    (users.erase r).length + 1 = users.length := by
  refine ⟨?_, ?_, ?_⟩
  · have hpos : 0 < users.count r := List.count_pos_iff.mpr hr
    rw [List.count_erase_self]
    omega
  · intro x hx
    exact List.count_erase_of_ne hx users
  · have hpos : 0 < users.length := List.length_pos_of_mem hr
    rw [List.length_erase_of_mem hr]
    omega

/-- C15: let `e1` be the first entry of `m_vpTrans1DList` that holds transfer
function `f1` with `r1` among its owners. `Free1DTrans(f1, r1)` erases one
occurrence of `r1` from its owner list and no other owner. If no owner remains,
the entry is erased and the totals drop by the sizes of its texture
(`m_iAllocatedGPUMemory` by `GetCPUSize()`, `m_iAllocatedCPUMemory` by
`GetGPUSize()`, modulo `2^64`); otherwise the entry stays in place with the
remaining owners and the totals are unchanged. All other entries and all other
registries are untouched. `Free2DTrans` does the same on `m_vpTrans2DList`,
whatever the 1-D registry holds, and the other way round. -/
theorem C15_release_transfer_function (s : GPUMemMan) :
    (∀ (f1 r1 : Nat) (pre1 post1 : List Trans1DListElem) (e1 : Trans1DListElem),
      s.m_vpTrans1DList = pre1 ++ e1 :: post1 →
      e1.pTransferFunction1D = f1 → r1 ∈ e1.qpUser →
      (∀ x ∈ pre1, x.pTransferFunction1D = f1 → r1 ∉ x.qpUser) →
      (s.Free1DTrans f1 r1 =
        if e1.qpUser.erase r1 = [] then
          { s with
            m_vpTrans1DList := pre1 ++ post1
            m_iAllocatedGPUMemory := wsub s.m_iAllocatedGPUMemory e1.pTexture.cpuSize
            m_iAllocatedCPUMemory := wsub s.m_iAllocatedCPUMemory e1.pTexture.gpuSize }
        else
          { s with
            m_vpTrans1DList := pre1 ++ { e1 with qpUser := e1.qpUser.erase r1 } :: post1 }) ∧
      ((e1.qpUser.erase r1).count r1 + 1 = e1.qpUser.count r1 ∧
        (∀ x, x ≠ r1 → (e1.qpUser.erase r1).count x = e1.qpUser.count x) ∧
        (e1.qpUser.erase r1).length + 1 = e1.qpUser.length)) ∧
    (∀ (f2 r2 : Nat) (pre2 post2 : List Trans2DListElem) (e2 : Trans2DListElem),
      s.m_vpTrans2DList = pre2 ++ e2 :: post2 →
      e2.pTransferFunction2D = f2 → r2 ∈ e2.qpUser →
      (∀ x ∈ pre2, x.pTransferFunction2D = f2 → r2 ∉ x.qpUser) →
      (s.Free2DTrans f2 r2 =
        if e2.qpUser.erase r2 = [] then
          { s with
            m_vpTrans2DList := pre2 ++ post2
            m_iAllocatedGPUMemory := wsub s.m_iAllocatedGPUMemory e2.pTexture.cpuSize
            m_iAllocatedCPUMemory := wsub s.m_iAllocatedCPUMemory e2.pTexture.gpuSize }
        else
          { s with
            m_vpTrans2DList := pre2 ++ { e2 with qpUser := e2.qpUser.erase r2 } :: post2 }) ∧
      ((e2.qpUser.erase r2).count r2 + 1 = e2.qpUser.count r2 ∧
        (∀ x, x ≠ r2 → (e2.qpUser.erase r2).count x = e2.qpUser.count x) ∧
        (e2.qpUser.erase r2).length + 1 = e2.qpUser.length)) := by
  constructor
  · intro f1 r1 pre1 post1 e1 hl1 hf1 hr1 hpre1
    have hs1 := splitFirst_append
      (fun i : Trans1DListElem => i.pTransferFunction1D == f1 && i.qpUser.contains r1)
      pre1 post1 e1
      (fun x hx => by
        by_cases hxf : x.pTransferFunction1D = f1
        · simp [hxf, hpre1 x hx hxf]
        · simp [hxf])
      (by simp [hf1, hr1])
    refine ⟨?_, erase_one_occurrence _ _ hr1⟩
    simp only [Free1DTrans, hl1, hs1]
    by_cases he : e1.qpUser.erase r1 = []
    · simp [he, subSizes]
    · simp [he]
  · intro f2 r2 pre2 post2 e2 hl2 hf2 hr2 hpre2
    have hs2 := splitFirst_append
      (fun i : Trans2DListElem => i.pTransferFunction2D == f2 && i.qpUser.contains r2)
      pre2 post2 e2
      (fun x hx => by
        by_cases hxf : x.pTransferFunction2D = f2
        · simp [hxf, hpre2 x hx hxf]
        · simp [hxf])
      (by simp [hf2, hr2])
    refine ⟨?_, erase_one_occurrence _ _ hr2⟩
    simp only [Free2DTrans, hl2, hs2]
    by_cases he : e2.qpUser.erase r2 = []
    · simp [he, subSizes]
    · simp [he]

/-- Witness of C15. On `sharedTwiceManager`, which has no 2-D transfer function,
renderer 2 releases one of its two holds of the 1-D function 300 (owner list
`[1, 2, 2]`). On `sharedOnceManager` renderer 2 releases the 2-D function 400
(owners 1, 2). -/
theorem C15_release_transfer_function_witness :
    sharedTwiceManager.m_vpTrans2DList = [] ∧
    sharedTwiceManager.m_vpTrans1DList = [] ++ ⟨300, ⟨301, 8, 16⟩, [1, 2, 2]⟩ :: [] ∧
    (sharedTwiceManager.Free1DTrans 300 2).m_vpTrans1DList = [⟨300, ⟨301, 8, 16⟩, [1, 2]⟩] ∧
    sharedOnceManager.m_vpTrans2DList = [] ++ ⟨400, ⟨401, 8, 16⟩, [1, 2]⟩ :: [] ∧
    (sharedOnceManager.Free2DTrans 400 2).m_vpTrans2DList = [⟨400, ⟨401, 8, 16⟩, [1]⟩] := by
  have h1 := (C15_release_transfer_function sharedTwiceManager).1 300 2
    [] [] ⟨300, ⟨301, 8, 16⟩, [1, 2, 2]⟩ (by decide) rfl (by decide) (by simp)
  have h2 := (C15_release_transfer_function sharedOnceManager).2 400 2
    [] [] ⟨400, ⟨401, 8, 16⟩, [1, 2]⟩ (by decide) rfl (by decide) (by simp)
  refine ⟨by decide, by decide, ?_, by decide, ?_⟩
  · rw [h1.1]; decide
  · rw [h2.1]; decide

/-! ## Counted shader programs -/

theorem GetGLSLProgram_hit (t : GPUMemMan) (vs fs : String) (pre : List GLSLListElem)
    (c : Int) (prog : GLObject) (e : GLSLListElem)
    (hl : t.m_vpGLSLList = pre ++ [⟨vs, fs, c, prog⟩])
    (hpre : ∀ i ∈ pre, ¬ (i.strVSFile = vs ∧ i.strFSFile = fs)) :
    t.GetGLSLProgram vs fs e =
      ({ t with m_vpGLSLList := pre ++ [⟨vs, fs, c + 1, prog⟩] }, some prog.addr) := by
  have h := splitFirst_append (fun i : GLSLListElem => i.strVSFile == vs && i.strFSFile == fs)
    pre [] ⟨vs, fs, c, prog⟩ (fun i hi => by simpa using hpre i hi) (by simp)
  simp only [GetGLSLProgram, hl, h]

theorem GetGLSLProgram_calls_hit (vs fs : String) (pre : List GLSLListElem) (prog : GLObject)
    (hpre : ∀ i ∈ pre, ¬ (i.strVSFile = vs ∧ i.strFSFile = fs)) (elems : List GLSLListElem) :
    ∀ (t : GPUMemMan) (c : Int), t.m_vpGLSLList = pre ++ [⟨vs, fs, c, prog⟩] →
      GetGLSLProgram.calls vs fs t elems =
        ({ t with m_vpGLSLList := pre ++ [⟨vs, fs, c + elems.length, prog⟩] },
          List.replicate elems.length (some prog.addr)) := by
  induction elems with
  | nil =>
    intro t c hl
    simp [GetGLSLProgram.calls, ← hl]
  | cons e elems ih =>
    intro t c hl
    have h1 := GetGLSLProgram_hit t vs fs pre c prog e hl hpre
    have h2 := ih { t with m_vpGLSLList := pre ++ [⟨vs, fs, c + 1, prog⟩] } (c + 1) rfl
    simp only [GetGLSLProgram.calls, h1, h2, List.length_cons, List.replicate_succ]
    have : c + 1 + (elems.length : Int) = c + ((elems.length + 1 : Nat) : Int) := by
      push_cast; ring
    simp [this]

theorem FreeGLSLProgram_last_entry (t : GPUMemMan) (vs fs : String) (pre : List GLSLListElem)
    (c : Int) (prog : GLObject)
    (hl : t.m_vpGLSLList = pre ++ [⟨vs, fs, c, prog⟩])
    (hpre : ∀ i ∈ pre, i.pGLSLProgram.addr ≠ prog.addr) :
    t.FreeGLSLProgram prog.addr =
      if c - 1 = 0 then { subSizes t prog with m_vpGLSLList := pre }
      else { t with m_vpGLSLList := pre ++ [⟨vs, fs, c - 1, prog⟩] } := by
  have h := splitFirst_append (fun i : GLSLListElem => i.pGLSLProgram.addr == prog.addr) pre []
    ⟨vs, fs, c, prog⟩ (fun i hi => by simpa using hpre i hi) (by simp)
  simp only [FreeGLSLProgram, hl, h]
  by_cases hc : c - 1 = 0 <;> simp [hc]

theorem FreeGLSLProgram_calls_keep (vs fs : String) (pre : List GLSLListElem) (prog : GLObject)
    (hpre : ∀ i ∈ pre, i.pGLSLProgram.addr ≠ prog.addr) (k : Nat) :
    ∀ (t : GPUMemMan) (n : Nat), k < n → t.m_vpGLSLList = pre ++ [⟨vs, fs, (n : Int), prog⟩] →
      FreeGLSLProgram.calls prog.addr k t =
        { t with m_vpGLSLList := pre ++ [⟨vs, fs, (n : Int) - (k : Int), prog⟩] } := by
  induction k with
  | zero =>
    intro t n _ hl
    simp [FreeGLSLProgram.calls, ← hl]
  | succ k ih =>
    intro t n hk hl
    have h1 := FreeGLSLProgram_last_entry t vs fs pre n prog hl hpre
    have hne : ¬ ((n : Int) - 1 = 0) := by omega
    rw [if_neg hne] at h1
    have h2 := ih { t with m_vpGLSLList := pre ++ [⟨vs, fs, (n : Int) - 1, prog⟩] } (n - 1)
      (by omega) (by
        have : ((n - 1 : Nat) : Int) = (n : Int) - 1 := by omega
        simp [this])
    simp only [FreeGLSLProgram.calls, h1, h2]
    have e1 : ((n - 1 : Nat) : Int) - (k : Int) = (n : Int) - ((k + 1 : Nat) : Int) := by omega
    simp [e1]

/-- C16: for a pair `(vs, fs)` held by no entry of `m_vpGLSLList`, a new element
that stores the pair, starts with access counter 1 and whose program lies at an
address new to the list, and `n = elems.length + 1` consecutive
`GetGLSLProgram(vs, fs)` calls: the calls append that single entry, leave its
counter at `n`, add the sizes of its program to the totals once, and each returns
the address of the program; after `k < n` calls of `FreeGLSLProgram` on that
address the entry is still there with counter `n - k` and the totals are as after
creation; after `n` calls the whole manager state, registries and both totals, is
what it was before the first acquisition. -/
theorem C16_shader_counter_lifecycle (s : GPUMemMan) (vs fs : String) (prog : GLObject)
    (elems : List GLSLListElem)
    (hp : ∀ i ∈ s.m_vpGLSLList, ¬ (i.strVSFile = vs ∧ i.strFSFile = fs))
    (hfresh : ∀ i ∈ s.m_vpGLSLList, i.pGLSLProgram.addr ≠ prog.addr)
    (hg : s.m_iAllocatedGPUMemory < WORD) (hc : s.m_iAllocatedCPUMemory < WORD) :
    GetGLSLProgram.calls vs fs s (⟨vs, fs, 1, prog⟩ :: elems) =
      ({ addSizes s prog with
          m_vpGLSLList := s.m_vpGLSLList ++ [⟨vs, fs, ((elems.length + 1 : Nat) : Int), prog⟩] },
        List.replicate (elems.length + 1) (some prog.addr)) ∧
    (∀ k, k < elems.length + 1 →
      FreeGLSLProgram.calls prog.addr k
          (GetGLSLProgram.calls vs fs s (⟨vs, fs, 1, prog⟩ :: elems)).1 =
        { addSizes s prog with
          m_vpGLSLList :=
            s.m_vpGLSLList ++ [⟨vs, fs, ((elems.length + 1 : Nat) : Int) - (k : Int), prog⟩] }) ∧
    FreeGLSLProgram.calls prog.addr (elems.length + 1)
      (GetGLSLProgram.calls vs fs s (⟨vs, fs, 1, prog⟩ :: elems)).1 = s := by
  have hmiss : splitFirst (fun i : GLSLListElem => i.strVSFile == vs && i.strFSFile == fs)
      s.m_vpGLSLList = none :=
    (splitFirst_eq_none _ _).mpr (fun i hi => by simpa using hp i hi)
  have hfirst : s.GetGLSLProgram vs fs ⟨vs, fs, 1, prog⟩ =
      ({ addSizes s prog with m_vpGLSLList := s.m_vpGLSLList ++ [⟨vs, fs, 1, prog⟩] },
        some prog.addr) := by
    simp only [GetGLSLProgram, hmiss]
    rfl
  have hrest := GetGLSLProgram_calls_hit vs fs s.m_vpGLSLList prog hp elems
    { addSizes s prog with m_vpGLSLList := s.m_vpGLSLList ++ [⟨vs, fs, 1, prog⟩] } 1 rfl
  have hcast : (1 : Int) + (elems.length : Int) = ((elems.length + 1 : Nat) : Int) := by
    push_cast; ring
  have hloads : GetGLSLProgram.calls vs fs s (⟨vs, fs, 1, prog⟩ :: elems) =
      ({ addSizes s prog with
          m_vpGLSLList :=
            s.m_vpGLSLList ++ [⟨vs, fs, ((elems.length + 1 : Nat) : Int), prog⟩] },
        List.replicate (elems.length + 1) (some prog.addr)) := by
    simp only [GetGLSLProgram.calls, hfirst, hrest, List.replicate_succ, hcast]
  have hkeep : ∀ k, k < elems.length + 1 →
      FreeGLSLProgram.calls prog.addr k
        { addSizes s prog with
          m_vpGLSLList :=
            s.m_vpGLSLList ++ [⟨vs, fs, ((elems.length + 1 : Nat) : Int), prog⟩] } =
        { addSizes s prog with
          m_vpGLSLList :=
            s.m_vpGLSLList ++ [⟨vs, fs, ((elems.length + 1 : Nat) : Int) - (k : Int), prog⟩] } :=
    fun k hk => FreeGLSLProgram_calls_keep vs fs s.m_vpGLSLList prog hfresh k _ _ hk rfl
  refine ⟨hloads, ?_, ?_⟩
  · intro k hk
    rw [hloads]
    exact hkeep k hk
  · rw [hloads]
    have hsplit : ∀ (m : Nat) (t : GPUMemMan),
        FreeGLSLProgram.calls prog.addr (m + 1) t =
          (FreeGLSLProgram.calls prog.addr m t).FreeGLSLProgram prog.addr := by
      intro m
      induction m with
      | zero => intro t; rfl
      | succ m ih => intro t; exact ih (t.FreeGLSLProgram prog.addr)
    rw [hsplit, hkeep elems.length (Nat.lt_succ_self _)]
    have hone : ((elems.length + 1 : Nat) : Int) - (elems.length : Int) = 1 := by
      push_cast; ring
    rw [hone]
    have hlast := FreeGLSLProgram_last_entry
      { addSizes s prog with m_vpGLSLList := s.m_vpGLSLList ++ [⟨vs, fs, 1, prog⟩] }
      vs fs s.m_vpGLSLList 1 prog rfl hfresh
    rw [hlast]
    have := subSizes_addSizes s prog hg hc
    cases s
    simp only [subSizes, addSizes] at *
    simpa using this

/-- Witness of C16 on `exampleManager`: the pair ("b.vs", "b.fs") is acquired three
times (program 710) and released three times. -/
theorem C16_shader_counter_lifecycle_witness :
    (∀ i ∈ exampleManager.m_vpGLSLList, ¬ (i.strVSFile = "b.vs" ∧ i.strFSFile = "b.fs")) ∧
    (∀ i ∈ exampleManager.m_vpGLSLList, i.pGLSLProgram.addr ≠ 710) ∧
    exampleManager.m_iAllocatedGPUMemory < WORD ∧
    exampleManager.m_iAllocatedCPUMemory < WORD ∧
    FreeGLSLProgram.calls 710 3
      (GetGLSLProgram.calls "b.vs" "b.fs" exampleManager
        [⟨"b.vs", "b.fs", 1, ⟨710, 8, 0⟩⟩, ⟨"b.vs", "b.fs", 1, ⟨711, 8, 0⟩⟩,
          ⟨"b.vs", "b.fs", 1, ⟨712, 8, 0⟩⟩]).1 = exampleManager :=
  ⟨by decide, by decide, by decide, by decide,
    (C16_shader_counter_lifecycle exampleManager "b.vs" "b.fs" ⟨710, 8, 0⟩
      [⟨"b.vs", "b.fs", 1, ⟨711, 8, 0⟩⟩, ⟨"b.vs", "b.fs", 1, ⟨712, 8, 0⟩⟩]
      (by decide) (by decide) (by decide) (by decide)).2.2⟩

/-! ## Key uniqueness along every run -/

theorem nodup_map_update {α κ : Type} (k : α → κ) (pre post : List α) (i j : α)
    (hk : k j = k i) (h : ((pre ++ i :: post).map k).Nodup) :
    ((pre ++ j :: post).map k).Nodup := by
  simpa [hk] using h

theorem nodup_map_remove {α κ : Type} (k : α → κ) (pre post : List α) (i : α)
    (h : ((pre ++ i :: post).map k).Nodup) : ((pre ++ post).map k).Nodup := by
  refine h.sublist ?_
  apply List.Sublist.map
  exact List.Sublist.append (List.Sublist.refl _) (List.sublist_cons_self _ _)

theorem nodup_map_append_new {α κ : Type} (k : α → κ) (l : List α) (new : α)
    (hnew : ∀ x ∈ l, k x ≠ k new) (h : (l.map k).Nodup) : ((l ++ [new]).map k).Nodup := by
  rw [List.map_append]
  refine List.Nodup.append h (by simp) ?_
  intro a ha hb
  simp at hb
  obtain ⟨x, hx, rfl⟩ := List.mem_map.mp ha
  exact hnew x hx hb

theorem FreeAssociatedTextures_loop_sublist (d : Nat) (fuel : Nat) :
    ∀ (i : Nat) (s s1 : GPUMemMan), FreeAssociatedTextures.loop d fuel i s = some s1 →
      s1.m_vpTex3DList.Sublist s.m_vpTex3DList := by
  induction fuel with
  | zero => intro i s s1 h; simp [FreeAssociatedTextures.loop] at h
  | succ fuel ih =>
    intro i s s1 h
    unfold FreeAssociatedTextures.loop at h
    cases hget : s.m_vpTex3DList[i]? with
    | none =>
      simp only [hget] at h
      cases h
      exact List.Sublist.refl _
    | some e =>
      simp only [hget] at h
      by_cases hd : (e.pDataset == d) = true
      · rw [if_pos hd] at h
        exact (ih _ _ _ h).trans (List.eraseIdx_sublist _ _)
      · rw [if_neg hd] at h
        exact ih _ _ _ h

theorem FreeAssociatedTextures_sublist (s : GPUMemMan) (d : Nat) :
    (s.FreeAssociatedTextures d).m_vpTex3DList.Sublist s.m_vpTex3DList := by
  unfold FreeAssociatedTextures
  cases h : FreeAssociatedTextures.loop d (s.m_vpTex3DList.length + 1) 0 s with
  | none => exact List.Sublist.refl _
  | some s1 => exact FreeAssociatedTextures_loop_sublist d _ _ _ _ h

theorem KeysUnique_init : KeysUnique init := by
  simp [KeysUnique, init]

theorem KeysUnique_LoadDataset (s : GPUMemMan) (f : String) (r : Nat) (d : VolumeDataset)
    (hd : d.filename = f) (h : KeysUnique s) : KeysUnique (s.LoadDataset f r d).1 := by
  unfold LoadDataset
  cases hs : splitFirst (fun i : VolDataListElem => i.pVolumeDataset.filename == f)
      s.m_vpVolumeDatasets with
  | none =>
    have hall := (splitFirst_eq_none _ _).mp hs
    simp only
    split
    · refine ⟨?_, h.2.1, h.2.2.1, h.2.2.2⟩
      exact nodup_map_append_new _ _ _ (fun x hx => by simpa [hd] using hall x hx) h.1
    · exact h
  | some x =>
    obtain ⟨pre, i, post⟩ := x
    obtain ⟨hl, -, -⟩ := splitFirst_eq_some _ _ _ _ _ hs
    refine ⟨?_, h.2.1, h.2.2.1, h.2.2.2⟩
    have h1 := h.1
    rw [hl] at h1
    exact nodup_map_update _ pre post i _ rfl h1

theorem KeysUnique_FreeDataset (s : GPUMemMan) (p r : Nat) (fn : Option String)
    (h : KeysUnique s) : KeysUnique ((s.FreeDataset p r fn).getD s) := by
  unfold FreeDataset
  cases hs : splitFirst
      (fun i : VolDataListElem => i.pVolumeDataset.addr == p && i.qpUser.contains r)
      s.m_vpVolumeDatasets with
  | none => cases fn <;> exact h
  | some x =>
    obtain ⟨pre, i, post⟩ := x
    obtain ⟨hl, -, -⟩ := splitFirst_eq_some _ _ _ _ _ hs
    have h1 := h.1
    rw [hl] at h1
    obtain ⟨-, hsimple, -, -, -, hglsl⟩ := FreeAssociatedTextures_frame s p
    simp only
    split
    · refine ⟨nodup_map_remove _ pre post i h1, ?_, ?_, ?_⟩
      · exact h.2.1.sublist ((FreeAssociatedTextures_sublist s p).map _)
      · simp only [hsimple]; exact h.2.2.1
      · simp only [hglsl]; exact h.2.2.2
    · exact ⟨nodup_map_update _ pre post i _ rfl h1, h.2.1, h.2.2.1, h.2.2.2⟩

theorem KeysUnique_Load2DTextureFromFile (s : GPUMemMan) (f : String) (image : Option GLObject)
    (h : KeysUnique s) : KeysUnique (s.Load2DTextureFromFile f image).1 := by
  unfold Load2DTextureFromFile
  cases hs : splitFirst (fun i : SimpleTextureListElem => i.strFilename == f)
      s.m_vpSimpleTextures with
  | none =>
    have hall := (splitFirst_eq_none _ _).mp hs
    cases image with
    | none => exact h
    | some tex =>
      refine ⟨h.1, h.2.1, ?_, h.2.2.2⟩
      exact nodup_map_append_new _ _ _ (fun x hx => by simpa using hall x hx) h.2.2.1
  | some x =>
    obtain ⟨pre, i, post⟩ := x
    obtain ⟨hl, -, -⟩ := splitFirst_eq_some _ _ _ _ _ hs
    have h1 := h.2.2.1
    rw [hl] at h1
    exact ⟨h.1, h.2.1, nodup_map_update _ pre post i _ rfl h1, h.2.2.2⟩

theorem KeysUnique_FreeTexture (s : GPUMemMan) (p : Nat) (h : KeysUnique s) :
    KeysUnique (s.FreeTexture p) := by
  unfold FreeTexture
  cases hs : splitFirst (fun i : SimpleTextureListElem => i.pTexture.addr == p)
      s.m_vpSimpleTextures with
  | none => exact h
  | some x =>
    obtain ⟨pre, i, post⟩ := x
    obtain ⟨hl, -, -⟩ := splitFirst_eq_some _ _ _ _ _ hs
    have h1 := h.2.2.1
    rw [hl] at h1
    simp only
    split
    · exact ⟨h.1, h.2.1, nodup_map_remove _ pre post i h1, h.2.2.2⟩
    · exact ⟨h.1, h.2.1, nodup_map_update _ pre post i _ rfl h1, h.2.2.2⟩

theorem KeysUnique_Access1DTrans (s : GPUMemMan) (p r : Nat) (h : KeysUnique s) :
    KeysUnique (s.Access1DTrans p r).1 := by
  unfold Access1DTrans
  cases hs : splitFirst (fun i : Trans1DListElem => i.pTransferFunction1D == p)
      s.m_vpTrans1DList with
  | none => exact h
  | some x => obtain ⟨pre, i, post⟩ := x; exact h

theorem KeysUnique_Free1DTrans (s : GPUMemMan) (p r : Nat) (h : KeysUnique s) :
    KeysUnique (s.Free1DTrans p r) := by
  unfold Free1DTrans
  cases hs : splitFirst
      (fun i : Trans1DListElem => i.pTransferFunction1D == p && i.qpUser.contains r)
      s.m_vpTrans1DList with
  | none => exact h
  | some x =>
    obtain ⟨pre, i, post⟩ := x
    simp only
    split <;> exact h

theorem KeysUnique_Access2DTrans (s : GPUMemMan) (p r : Nat) (h : KeysUnique s) :
    KeysUnique (s.Access2DTrans p r).1 := by
  unfold Access2DTrans
  cases hs : splitFirst (fun i : Trans2DListElem => i.pTransferFunction2D == p)
      s.m_vpTrans2DList with
  | none => exact h
  | some x => obtain ⟨pre, i, post⟩ := x; exact h

theorem KeysUnique_Free2DTrans (s : GPUMemMan) (p r : Nat) (h : KeysUnique s) :
    KeysUnique (s.Free2DTrans p r) := by
  unfold Free2DTrans
  cases hs : splitFirst
      (fun i : Trans2DListElem => i.pTransferFunction2D == p && i.qpUser.contains r)
      s.m_vpTrans2DList with
  | none => exact h
  | some x =>
    obtain ⟨pre, i, post⟩ := x
    simp only
    split <;> exact h

theorem KeysUnique_Get3DTexture (s : GPUMemMan) (d : Nat) (l b : List Nat) (t : GLObject)
    (h : KeysUnique s) : KeysUnique (s.Get3DTexture d l b t).1 := by
  unfold Get3DTexture
  cases hs : splitFirst (fun i : Texture3DListElem => i.Match d l b) s.m_vpTex3DList with
  | none =>
    have hall := (splitFirst_eq_none _ _).mp hs
    refine ⟨h.1, ?_, h.2.2.1, h.2.2.2⟩
    refine nodup_map_append_new _ _ _ (fun x hx => ?_) h.2.1
    have hx2 := hall x hx
    intro heq
    simp only [Prod.mk.injEq] at heq
    simp [Texture3DListElem.Match, heq.1, heq.2.1, heq.2.2] at hx2
  | some x => obtain ⟨pre, i, post⟩ := x; exact h

theorem KeysUnique_FreeFBO (s : GPUMemMan) (p : Nat) (h : KeysUnique s) :
    KeysUnique (s.FreeFBO p) := by
  unfold FreeFBO
  cases hs : splitFirst (fun i : FBOListElem => i.pFBOTex.addr == p) s.m_vpFBOList with
  | none => exact h
  | some x => obtain ⟨pre, i, post⟩ := x; exact h

theorem KeysUnique_GetGLSLProgram (s : GPUMemMan) (v f : String) (e : GLSLListElem)
    (he : e.strVSFile = v ∧ e.strFSFile = f) (h : KeysUnique s) :
    KeysUnique (s.GetGLSLProgram v f e).1 := by
  unfold GetGLSLProgram
  cases hs : splitFirst (fun i : GLSLListElem => i.strVSFile == v && i.strFSFile == f)
      s.m_vpGLSLList with
  | none =>
    have hall := (splitFirst_eq_none _ _).mp hs
    refine ⟨h.1, h.2.1, h.2.2.1, ?_⟩
    refine nodup_map_append_new _ _ _ (fun x hx => ?_) h.2.2.2
    have hx2 := hall x hx
    intro heq
    simp only [Prod.mk.injEq, he.1, he.2] at heq
    simp [heq.1, heq.2] at hx2
  | some x =>
    obtain ⟨pre, i, post⟩ := x
    obtain ⟨hl, -, -⟩ := splitFirst_eq_some _ _ _ _ _ hs
    have h1 := h.2.2.2
    rw [hl] at h1
    exact ⟨h.1, h.2.1, h.2.2.1, nodup_map_update _ pre post i _ rfl h1⟩

theorem KeysUnique_FreeGLSLProgram (s : GPUMemMan) (p : Nat) (h : KeysUnique s) :
    KeysUnique (s.FreeGLSLProgram p) := by
  unfold FreeGLSLProgram
  cases hs : splitFirst (fun i : GLSLListElem => i.pGLSLProgram.addr == p) s.m_vpGLSLList with
  | none => exact h
  | some x =>
    obtain ⟨pre, i, post⟩ := x
    obtain ⟨hl, -, -⟩ := splitFirst_eq_some _ _ _ _ _ hs
    have h1 := h.2.2.2
    rw [hl] at h1
    simp only
    split
    · exact ⟨h.1, h.2.1, h.2.2.1, nodup_map_remove _ pre post i h1⟩
    · exact ⟨h.1, h.2.1, h.2.2.1, nodup_map_update _ pre post i _ rfl h1⟩

/-- Every public call whose constructors keep the key of the call preserves key
uniqueness. -/
theorem KeysUnique_step (s : GPUMemMan) (op : Op) (hop : op.constructsKeyed = true)
    (h : KeysUnique s) : KeysUnique (step s op) := by
  cases op with
  | LoadDataset f r d =>
    exact KeysUnique_LoadDataset s f r d (by simpa [Op.constructsKeyed] using hop) h
  | FreeDataset p r fn => exact KeysUnique_FreeDataset s p r fn h
  | Load2DTextureFromFile f image => exact KeysUnique_Load2DTextureFromFile s f image h
  | FreeTexture p => exact KeysUnique_FreeTexture s p h
  | Changed1DTrans r p => exact h
  | GetEmpty1DTrans n r tf tex => exact h
  | Get1DTransFromFile f r tf tex => exact h
  | Access1DTrans p r => exact KeysUnique_Access1DTrans s p r h
  | Free1DTrans p r => exact KeysUnique_Free1DTrans s p r h
  | Changed2DTrans r p => exact h
  | GetEmpty2DTrans n r tf tex => exact h
  | Get2DTransFromFile f r tf tex => exact h
  | Access2DTrans p r => exact KeysUnique_Access2DTrans s p r h
  | Free2DTrans p r => exact KeysUnique_Free2DTrans s p r h
  | Get3DTexture d l b t => exact KeysUnique_Get3DTexture s d l b t h
  | MemSizesChanged c g => simpa [step, MemSizesChanged] using h
  | GetFBO t => exact h
  | FreeFBO p => exact KeysUnique_FreeFBO s p h
  | GetGLSLProgram v f e =>
    exact KeysUnique_GetGLSLProgram s v f e (by simpa [Op.constructsKeyed] using hop) h
  | FreeGLSLProgram p => exact KeysUnique_FreeGLSLProgram s p h

theorem KeysUnique_foldl_step (ops : List Op) (hops : ∀ op ∈ ops, op.constructsKeyed = true) :
    ∀ s, KeysUnique s → KeysUnique (ops.foldl step s) := by
  induction ops with
  | nil => intro s h; exact h
  | cons op ops ih =>
    intro s h
    exact ih (fun o ho => hops o (List.mem_cons_of_mem _ ho)) _
      (KeysUnique_step s op (hops op (List.mem_cons_self _ _)) h)

/-- C13: in every state that a sequence of public calls produces from the freshly
constructed manager, the constructors keeping the key of their call
(`Op.constructsKeyed`), no two dataset entries have the same path, no two 3-D
texture entries the same (dataset, LOD, brick) triple, no two image entries the
same file path, and no two shader entries the same (vertex path, fragment path)
pair. -/
theorem C13_keys_unique (ops : List Op) (hops : ∀ op ∈ ops, op.constructsKeyed = true) :
    ((run ops).m_vpVolumeDatasets.map fun i => i.pVolumeDataset.filename).Nodup ∧
    ((run ops).m_vpTex3DList.map fun i => (i.pDataset, i.vLOD, i.vBrick)).Nodup ∧
    ((run ops).m_vpSimpleTextures.map fun i => i.strFilename).Nodup ∧
    ((run ops).m_vpGLSLList.map fun i => (i.strVSFile, i.strFSFile)).Nodup :=
  KeysUnique_foldl_step ops hops init KeysUnique_init

/-- Witness of C13 on the calls that produce `exampleManager`, followed by a
second acquisition of every keyed resource. -/
theorem C13_keys_unique_witness :
    (∀ op ∈ exampleOps ++ exampleOps, op.constructsKeyed = true) ∧
    ((run (exampleOps ++ exampleOps)).m_vpVolumeDatasets.map
      fun i => i.pVolumeDataset.filename).Nodup ∧
    ((run (exampleOps ++ exampleOps)).m_vpTex3DList.map
      fun i => (i.pDataset, i.vLOD, i.vBrick)).Nodup ∧
    ((run (exampleOps ++ exampleOps)).m_vpSimpleTextures.map fun i => i.strFilename).Nodup ∧
    ((run (exampleOps ++ exampleOps)).m_vpGLSLList.map
      fun i => (i.strVSFile, i.strFSFile)).Nodup :=
  ⟨by decide, C13_keys_unique (exampleOps ++ exampleOps) (by decide)⟩

/-! ## The slice-based renderer -/

/-- C18 (the code at the failing input): after `GPUSBVR::Initialize` on a freshly
constructed manager, `GPUSBVR::Cleanup` leaves the three image entries acquired by
`Initialize` registered with counter 1 and both totals at 36, not at the values 0
they had before `Initialize`; `Cleanup` changes nothing at all, in this state or
any other, so a second `Cleanup` changes nothing either. -/
theorem C18_cleanup_releases_nothing :
    sbvrInitialized.2.m_IDTex = [some 210, some 220, some 230] ∧
    (GPUSBVR.Cleanup sbvrInitialized.1 sbvrInitialized.2).1.m_vpSimpleTextures =
      [⟨1, ⟨210, 12, 12⟩, "RenderWin1x3.png"⟩, ⟨1, ⟨220, 12, 12⟩, "RenderWin2x2.png"⟩,
        ⟨1, ⟨230, 12, 12⟩, "RenderWin1.png"⟩] ∧
    (GPUSBVR.Cleanup sbvrInitialized.1 sbvrInitialized.2).1.m_iAllocatedGPUMemory = 36 ∧
    (GPUSBVR.Cleanup sbvrInitialized.1 sbvrInitialized.2).1.m_iAllocatedCPUMemory = 36 ∧
    (GPUSBVR.Cleanup sbvrInitialized.1 sbvrInitialized.2).1 ≠ init ∧
    (∀ (memMan : GPUMemMan) (self : GPUSBVR),
      GPUSBVR.Cleanup memMan self = (memMan, self) ∧
      GPUSBVR.Cleanup (GPUSBVR.Cleanup memMan self).1 (GPUSBVR.Cleanup memMan self).2 =
        GPUSBVR.Cleanup memMan self) :=
  ⟨by decide, by decide, by decide, by decide, by decide, fun _ _ => ⟨rfl, rfl⟩⟩


/-! ## No eviction -/

/-- C21: for a key that no entry of `m_vpTex3DList` matches, `Get3DTexture` returns
the new texture and the state in which the list is the old list followed by the
one new entry for that key, so every earlier entry keeps its position, and the
totals have grown by the sizes of the new texture (`m_iAllocatedGPUMemory` by
`GetCPUSize()`, `m_iAllocatedCPUMemory` by `GetGPUSize()`, modulo `2^64`). No
ceiling enters the computation, and a budget check made right afterwards with any
ceilings removes nothing. -/
theorem C21_get3DTexture_never_evicts (s : GPUMemMan) (pDataset : Nat) (vLOD vBrick : List Nat)
    (pTexture : GLObject) (maxUsableCPUMem maxUsableGPUMem : Nat)
    (hmiss : ∀ i ∈ s.m_vpTex3DList, i.Match pDataset vLOD vBrick = false) :
    s.Get3DTexture pDataset vLOD vBrick pTexture =
      ({ s with
          m_vpTex3DList := s.m_vpTex3DList ++ [⟨pDataset, vLOD, vBrick, pTexture⟩]
          m_iAllocatedGPUMemory := wadd s.m_iAllocatedGPUMemory pTexture.cpuSize
          m_iAllocatedCPUMemory := wadd s.m_iAllocatedCPUMemory pTexture.gpuSize },
        some pTexture.addr) ∧
    (s.Get3DTexture pDataset vLOD vBrick pTexture).1.m_vpTex3DList.length
      = s.m_vpTex3DList.length + 1 ∧
    (∀ k, k < s.m_vpTex3DList.length →
      (s.Get3DTexture pDataset vLOD vBrick pTexture).1.m_vpTex3DList[k]? = s.m_vpTex3DList[k]?) ∧
    (s.Get3DTexture pDataset vLOD vBrick pTexture).1.m_vpTex3DList[s.m_vpTex3DList.length]?
      = some ⟨pDataset, vLOD, vBrick, pTexture⟩ ∧
    (s.Get3DTexture pDataset vLOD vBrick pTexture).1.MemSizesChanged maxUsableCPUMem
        maxUsableGPUMem = (s.Get3DTexture pDataset vLOD vBrick pTexture).1 := by
  have hs : splitFirst (fun i : Texture3DListElem => i.Match pDataset vLOD vBrick)
      s.m_vpTex3DList = none := (splitFirst_eq_none _ _).mpr hmiss
  have hmain : s.Get3DTexture pDataset vLOD vBrick pTexture =
      ({ s with
          m_vpTex3DList := s.m_vpTex3DList ++ [⟨pDataset, vLOD, vBrick, pTexture⟩]
          m_iAllocatedGPUMemory := wadd s.m_iAllocatedGPUMemory pTexture.cpuSize
          m_iAllocatedCPUMemory := wadd s.m_iAllocatedCPUMemory pTexture.gpuSize },
        some pTexture.addr) := by
    simp only [Get3DTexture, hs]
    rfl
  refine ⟨hmain, ?_, ?_, ?_, ?_⟩
  · rw [hmain]; simp
  · intro k hk
    rw [hmain]
    simp only
    rw [List.getElem?_append_left hk]
  · rw [hmain]
    simp only
    rw [List.getElem?_append_right (Nat.le_refl _)]
    simp
  · simp [MemSizesChanged]

/-- Witness of C21 on `exampleManager` with totals already above ceilings of 1
byte: a second brick of dataset 100 is made resident behind the first. -/
theorem C21_get3DTexture_never_evicts_witness :
    (∀ i ∈ exampleManager.m_vpTex3DList, i.Match 100 [0] [1, 0, 0] = false) ∧
    1 < exampleManager.m_iAllocatedGPUMemory ∧ 1 < exampleManager.m_iAllocatedCPUMemory ∧
    (exampleManager.Get3DTexture 100 [0] [1, 0, 0] ⟨530, 64, 128⟩).1.m_vpTex3DList =
      [⟨100, [0], [0, 0, 0], ⟨500, 64, 128⟩⟩, ⟨100, [0], [1, 0, 0], ⟨530, 64, 128⟩⟩] := by
  have h := C21_get3DTexture_never_evicts exampleManager 100 [0] [1, 0, 0] ⟨530, 64, 128⟩ 1 1
    (by decide)
  refine ⟨by decide, by decide, by decide, ?_⟩
  rw [h.1]
  decide

/-! ## Releasing one of several owners -/

/-- C23: let `e` be the first entry of `m_vpVolumeDatasets` that has pointer `d`
and holds `r`, its owner list having at least two members. `FreeDataset(d, r)`
returns, erases one occurrence of `r` from that owner list, no other owner, and
writes nothing else: the entry stays at its place, every other dataset entry, the
3-D texture list with all textures of `d`, every other registry and both totals
are unchanged. -/
theorem C23_release_of_shared_dataset (s : GPUMemMan) (d r : Nat)
    (pointeeFilename : Option String)
    (pre post : List VolDataListElem) (e : VolDataListElem)
    (hl : s.m_vpVolumeDatasets = pre ++ e :: post)
    (he : e.pVolumeDataset.addr = d) (hr : r ∈ e.qpUser) (hlen : 2 ≤ e.qpUser.length)
    (hpre : ∀ x ∈ pre, x.pVolumeDataset.addr = d → r ∉ x.qpUser) :
    s.FreeDataset d r pointeeFilename =
      some { s with
        m_vpVolumeDatasets := pre ++ { e with qpUser := e.qpUser.erase r } :: post } ∧
    ((e.qpUser.erase r).count r + 1 = e.qpUser.count r ∧
      (∀ x, x ≠ r → (e.qpUser.erase r).count x = e.qpUser.count x) ∧
      (e.qpUser.erase r).length + 1 = e.qpUser.length) ∧
    (s.FreeDataset d r pointeeFilename).map (fun t => t.m_vpTex3DList)
      = some s.m_vpTex3DList ∧
    (s.FreeDataset d r pointeeFilename).map (fun t => t.m_iAllocatedGPUMemory)
      = some s.m_iAllocatedGPUMemory ∧
    (s.FreeDataset d r pointeeFilename).map (fun t => t.m_iAllocatedCPUMemory)
      = some s.m_iAllocatedCPUMemory := by
  have hsplit := splitFirst_append
    (fun i : VolDataListElem => i.pVolumeDataset.addr == d && i.qpUser.contains r) pre post e
    (fun x hx => by
      by_cases hxd : x.pVolumeDataset.addr = d
      · simp [hxd, hpre x hx hxd]
      · simp [hxd])
    (by simp [he, hr])
  have hfacts := erase_one_occurrence e.qpUser r hr
  have hne : ¬ ((e.qpUser.erase r).length == 0) = true := by
    have := hfacts.2.2
    simp only [beq_iff_eq]
    omega
  have hmain : s.FreeDataset d r pointeeFilename =
      some { s with
        m_vpVolumeDatasets := pre ++ { e with qpUser := e.qpUser.erase r } :: post } := by
    simp only [FreeDataset, hl, hsplit, if_neg hne]
  exact ⟨hmain, hfacts, by rw [hmain]; rfl, by rw [hmain]; rfl, by rw [hmain]; rfl⟩

/-- Witness of C23: in `exampleManager` after renderer 2 has also loaded
"head.uvf", the release by renderer 1 leaves the entry with owner 2 and the brick
texture of dataset 100 in place. -/
theorem C23_release_of_shared_dataset_witness :
    (exampleManager.LoadDataset "head.uvf" 2 ⟨101, "head.uvf", true⟩).1.m_vpVolumeDatasets
      = [] ++ ⟨⟨100, "head.uvf", true⟩, [1, 2]⟩ :: [] ∧
    (((exampleManager.LoadDataset "head.uvf" 2 ⟨101, "head.uvf", true⟩).1.FreeDataset 100
      1 none).map (fun t => t.m_vpVolumeDatasets)
        = some [⟨⟨100, "head.uvf", true⟩, [2]⟩]) ∧
    (((exampleManager.LoadDataset "head.uvf" 2 ⟨101, "head.uvf", true⟩).1.FreeDataset 100
      1 none).map (fun t => t.m_vpTex3DList) = some exampleManager.m_vpTex3DList) := by
  have h := C23_release_of_shared_dataset
    (exampleManager.LoadDataset "head.uvf" 2 ⟨101, "head.uvf", true⟩).1 100 1 none [] []
    ⟨⟨100, "head.uvf", true⟩, [1, 2]⟩ (by decide) rfl (by decide) (by decide) (by simp)
  refine ⟨by decide, ?_, ?_⟩
  · rw [h.1]; decide
  · rw [h.2.2.1]; decide

/-! ## The cascade loop, entry by entry -/

theorem foldl_subSizes_setTex (l : List Texture3DListElem) :
    ∀ (s : GPUMemMan) (a : List Texture3DListElem),
      l.foldl (fun s t => subSizes s t.pTexture) { s with m_vpTex3DList := a } =
        { l.foldl (fun s t => subSizes s t.pTexture) s with m_vpTex3DList := a } := by
  induction l with
  | nil => intro s a; rfl
  | cons x l ih =>
    intro s a
    simp only [List.foldl_cons]
    exact ih (subSizes s x.pTexture) a

/-- The loop, entered at index `done.length` with `done` holding no texture of `d`
and enough fuel for the rest of a list that fits a `size_t`, ends with the
textures of `d` erased from the rest, `subSizes` having run once for each of them
in list order. -/
theorem FreeAssociatedTextures_loop_run_fold (d : Nat) (todo : List Texture3DListElem) :
    ∀ (done : List Texture3DListElem) (s : GPUMemMan) (fuel : Nat),
      s.m_vpTex3DList = done ++ todo → (∀ t ∈ done, t.pDataset ≠ d) →
      done.length + todo.length < WORD → todo.length + 1 ≤ fuel →
      FreeAssociatedTextures.loop d fuel done.length s = some
        { (todo.filter (fun t => t.pDataset == d)).foldl (fun s t => subSizes s t.pTexture) s with
          m_vpTex3DList := done ++ todo.filter (fun t => t.pDataset != d) } := by
  induction todo with
  | nil =>
    intro done s fuel hl _ _ hfuel
    obtain ⟨fuel, rfl⟩ : ∃ f, fuel = f + 1 := ⟨fuel - 1, by simp at hfuel; omega⟩
    unfold FreeAssociatedTextures.loop
    have hget : s.m_vpTex3DList[done.length]? = none := by simp [hl]
    simp only [hget]
    cases s
    simp only [List.append_nil] at hl
    simp [hl]
  | cons e todo ih =>
    intro done s fuel hl hdone hlen hfuel
    obtain ⟨fuel, rfl⟩ : ∃ f, fuel = f + 1 := ⟨fuel - 1, by simp at hfuel; omega⟩
    simp only [List.length_cons] at hlen hfuel
    unfold FreeAssociatedTextures.loop
    have hget : s.m_vpTex3DList[done.length]? = some e := by
      rw [hl, List.getElem?_append_right (Nat.le_refl _)]
      simp
    simp only [hget]
    by_cases hd : (e.pDataset == d) = true
    · rw [if_pos hd]
      have hidx : wadd (wsub done.length 1) 1 = done.length := wadd_wsub_one _ (by omega)
      have herase : s.m_vpTex3DList.eraseIdx done.length = done ++ todo := by
        rw [hl, List.eraseIdx_append_of_length_le (Nat.le_refl _)]
        simp
      rw [hidx, herase]
      have hs1 := ih done { subSizes s e.pTexture with m_vpTex3DList := done ++ todo } fuel rfl hdone
        (by omega) (by omega)
      rw [hs1, foldl_subSizes_setTex]
      have hne : (e.pDataset != d) = false := by simpa using hd
      simp [List.filter_cons, hd, hne]
    · rw [if_neg hd]
      have hd' : (e.pDataset == d) = false := by simpa using hd
      have hne : (e.pDataset != d) = true := by simpa using hd
      have hidx : wadd done.length 1 = (done ++ [e]).length := by
        rw [wadd_one _ (by omega)]; simp
      rw [hidx]
      have hs1 := ih (done ++ [e]) s fuel (by simp [hl])
        (by
          intro t ht
          rcases List.mem_append.mp ht with ht | ht
          · exact hdone t ht
          · simp at ht; subst ht; simpa using hd)
        (by simp; omega) (by omega)
      rw [hs1]
      simp [List.filter_cons, hd', hne]

/-- C22: on a 3-D texture list that fits a `size_t`, the loop of
`FreeAssociatedTextures(d)` ends within `size() + 1` loop tests (more fuel gives
the same result) and leaves exactly the entries whose `pDataset` is not `d`, in
their original order, the two-statement size subtraction having run once for each
erased entry and nothing else being written. When the entry at index 0 matches,
the index goes from 0 to `2^64 - 1` by the decrement and back to 0 by the loop
increment, and the loop goes on at index 0 of the shortened list. -/
theorem C22_cascade_erases_exactly_the_dataset (s : GPUMemMan) (d : Nat)
    (hlen : s.m_vpTex3DList.length < WORD) :
    (∀ fuel, s.m_vpTex3DList.length + 1 ≤ fuel →
      FreeAssociatedTextures.loop d fuel 0 s = some
        { (s.m_vpTex3DList.filter (fun t => t.pDataset == d)).foldl
            (fun s t => subSizes s t.pTexture) s with
          m_vpTex3DList := s.m_vpTex3DList.filter (fun t => t.pDataset != d) }) ∧
    s.FreeAssociatedTextures d =
      { (s.m_vpTex3DList.filter (fun t => t.pDataset == d)).foldl
          (fun s t => subSizes s t.pTexture) s with
        m_vpTex3DList := s.m_vpTex3DList.filter (fun t => t.pDataset != d) } ∧
    (s.FreeAssociatedTextures d).m_vpTex3DList =
      s.m_vpTex3DList.filter (fun t => t.pDataset != d) ∧
    (s.m_iAllocatedGPUMemory < WORD → s.m_iAllocatedCPUMemory < WORD →
      (s.FreeAssociatedTextures d).m_iAllocatedGPUMemory =
        wsub s.m_iAllocatedGPUMemory
          ((s.m_vpTex3DList.filter (fun t => t.pDataset == d)).map
            (fun t => t.pTexture.cpuSize)).sum ∧
      (s.FreeAssociatedTextures d).m_iAllocatedCPUMemory =
        wsub s.m_iAllocatedCPUMemory
          ((s.m_vpTex3DList.filter (fun t => t.pDataset == d)).map
            (fun t => t.pTexture.gpuSize)).sum) ∧
    (wsub 0 1 = WORD - 1 ∧ wadd (wsub 0 1) 1 = 0) ∧
    (∀ (e : Texture3DListElem) (rest : List Texture3DListElem) (fuel : Nat),
      s.m_vpTex3DList = e :: rest → e.pDataset = d →
      FreeAssociatedTextures.loop d (fuel + 1) 0 s =
        FreeAssociatedTextures.loop d fuel 0
          { subSizes s e.pTexture with m_vpTex3DList := rest }) := by
  have hrun : ∀ fuel, s.m_vpTex3DList.length + 1 ≤ fuel →
      FreeAssociatedTextures.loop d fuel 0 s = some
        { (s.m_vpTex3DList.filter (fun t => t.pDataset == d)).foldl
            (fun s t => subSizes s t.pTexture) s with
          m_vpTex3DList := s.m_vpTex3DList.filter (fun t => t.pDataset != d) } := by
    intro fuel hfuel
    have h := FreeAssociatedTextures_loop_run_fold d s.m_vpTex3DList [] s fuel
      (by simp) (by simp) (by simpa using hlen) hfuel
    simpa using h
  have hfree : s.FreeAssociatedTextures d =
      { (s.m_vpTex3DList.filter (fun t => t.pDataset == d)).foldl
          (fun s t => subSizes s t.pTexture) s with
        m_vpTex3DList := s.m_vpTex3DList.filter (fun t => t.pDataset != d) } := by
    unfold FreeAssociatedTextures
    rw [hrun _ (Nat.le_refl _)]
    rfl
  refine ⟨hrun, hfree, by rw [hfree], ?_, ⟨by decide, by decide⟩, ?_⟩
  · intro hg hc
    rw [FreeAssociatedTextures_eq s d hlen hg hc]
    exact ⟨rfl, rfl⟩
  · intro e rest fuel hl he
    have hget : s.m_vpTex3DList[0]? = some e := by simp [hl]
    have hd : (e.pDataset == d) = true := by simpa using he
    have hidx : wadd (wsub 0 1) 1 = 0 := by decide
    conv => lhs; unfold FreeAssociatedTextures.loop
    simp only [hget, if_pos hd, hidx]
    simp [hl]

/-- Witness of C22 on `cascadeManager`, whose entry at index 0 belongs to dataset
100: the two textures of dataset 100 are erased and the one of dataset 110 stays. -/
theorem C22_cascade_erases_exactly_the_dataset_witness :
    cascadeManager.m_vpTex3DList.length < WORD ∧
    cascadeManager.m_vpTex3DList[0]? = some ⟨100, [0], [0, 0, 0], ⟨500, 64, 128⟩⟩ ∧
    (cascadeManager.FreeAssociatedTextures 100).m_vpTex3DList
      = [⟨110, [0], [0, 0, 0], ⟨510, 32, 32⟩⟩] := by
  have h := C22_cascade_erases_exactly_the_dataset cascadeManager 100 (by decide)
  refine ⟨by decide, by decide, ?_⟩
  rw [h.2.2.1]
  decide


theorem Access1DTrans_hit (t : GPUMemMan) (f r : Nat) (pre post : List Trans1DListElem)
    (tex : GLObject) (users : List Nat)
    (hl : t.m_vpTrans1DList = pre ++ ⟨f, tex, users⟩ :: post)
    (hpre : ∀ x ∈ pre, x.pTransferFunction1D ≠ f) :
    t.Access1DTrans f r =
      ({ t with m_vpTrans1DList := pre ++ ⟨f, tex, users ++ [r]⟩ :: post }, some tex.addr) := by
  have h := splitFirst_append (fun i : Trans1DListElem => i.pTransferFunction1D == f) pre post
    ⟨f, tex, users⟩ (fun i hi => by simpa using hpre i hi) (by simp)
  simp only [Access1DTrans, hl, h]

theorem Free1DTrans_hit (t : GPUMemMan) (f r : Nat) (pre post : List Trans1DListElem)
    (tex : GLObject) (users : List Nat)
    (hl : t.m_vpTrans1DList = pre ++ ⟨f, tex, users⟩ :: post)
    (hpre : ∀ x ∈ pre, x.pTransferFunction1D ≠ f) (hr : r ∈ users) :
    t.Free1DTrans f r =
      if users.erase r = [] then { subSizes t tex with m_vpTrans1DList := pre ++ post }
      else { t with m_vpTrans1DList := pre ++ ⟨f, tex, users.erase r⟩ :: post } := by
  have h := splitFirst_append
    (fun i : Trans1DListElem => i.pTransferFunction1D == f && i.qpUser.contains r) pre post
    ⟨f, tex, users⟩ (fun i hi => by simp [hpre i hi]) (by simp [hr])
  simp only [Free1DTrans, hl, h]
  by_cases he : users.erase r = [] <;> simp [he]

theorem Access1DTrans_iterate (f r : Nat) (pre post : List Trans1DListElem) (tex : GLObject)
    (hpre : ∀ x ∈ pre, x.pTransferFunction1D ≠ f) (n : Nat) :
    ∀ (t : GPUMemMan) (m : Nat),
      t.m_vpTrans1DList = pre ++ ⟨f, tex, List.replicate m r⟩ :: post →
      Nat.iterate (fun u => (u.Access1DTrans f r).1) n t =
        { t with m_vpTrans1DList := pre ++ ⟨f, tex, List.replicate (m + n) r⟩ :: post } := by
  induction n with
  | zero =>
    intro t m hl
    simp [← hl]
  | succ n ih =>
    intro t m hl
    rw [Function.iterate_succ_apply]
    have h1 := Access1DTrans_hit t f r pre post tex (List.replicate m r) hl hpre
    rw [← List.replicate_succ'] at h1
    simp only [h1]
    rw [ih _ (m + 1) rfl]
    have : m + 1 + n = m + (n + 1) := by omega
    simp [this]

theorem Free1DTrans_one (t : GPUMemMan) (f r : Nat) (pre post : List Trans1DListElem)
    (tex : GLObject) (m : Nat)
    (hl : t.m_vpTrans1DList = pre ++ ⟨f, tex, List.replicate (m + 1) r⟩ :: post)
    (hpre : ∀ x ∈ pre, x.pTransferFunction1D ≠ f) :
    t.Free1DTrans f r =
      if m = 0 then { subSizes t tex with m_vpTrans1DList := pre ++ post }
      else { t with m_vpTrans1DList := pre ++ ⟨f, tex, List.replicate m r⟩ :: post } := by
  have h := Free1DTrans_hit t f r pre post tex (List.replicate (m + 1) r) hl hpre
    (by simp)
  have he : (List.replicate (m + 1) r).erase r = List.replicate m r := by
    simp [List.replicate_succ]
  rw [h, he]
  cases m with
  | zero => simp
  | succ m => simp [List.replicate_succ]

theorem Free1DTrans_iterate_keep (f r : Nat) (pre post : List Trans1DListElem) (tex : GLObject)
    (hpre : ∀ x ∈ pre, x.pTransferFunction1D ≠ f) (j : Nat) :
    ∀ (t : GPUMemMan) (m : Nat), j ≤ m →
      t.m_vpTrans1DList = pre ++ ⟨f, tex, List.replicate (m + 1) r⟩ :: post →
      Nat.iterate (fun u => u.Free1DTrans f r) j t =
        { t with m_vpTrans1DList := pre ++ ⟨f, tex, List.replicate (m + 1 - j) r⟩ :: post } := by
  induction j with
  | zero =>
    intro t m _ hl
    simp [← hl]
  | succ j ih =>
    intro t m hj hl
    obtain ⟨m', rfl⟩ : ∃ m', m = m' + 1 := ⟨m - 1, by omega⟩
    rw [Function.iterate_succ_apply]
    have h1 := Free1DTrans_one t f r pre post tex (m' + 1) hl hpre
    rw [if_neg (by omega)] at h1
    simp only [h1]
    rw [ih _ m' (by omega) rfl]
    have : m' + 1 + 1 - (j + 1) = m' + 1 - j := by omega
    simp [this]

theorem Access2DTrans_hit (t : GPUMemMan) (f r : Nat) (pre post : List Trans2DListElem)
    (tex : GLObject) (users : List Nat)
    (hl : t.m_vpTrans2DList = pre ++ ⟨f, tex, users⟩ :: post)
    (hpre : ∀ x ∈ pre, x.pTransferFunction2D ≠ f) :
    t.Access2DTrans f r =
      ({ t with m_vpTrans2DList := pre ++ ⟨f, tex, users ++ [r]⟩ :: post }, some tex.addr) := by
  have h := splitFirst_append (fun i : Trans2DListElem => i.pTransferFunction2D == f) pre post
    ⟨f, tex, users⟩ (fun i hi => by simpa using hpre i hi) (by simp)
  simp only [Access2DTrans, hl, h]

theorem Free2DTrans_hit (t : GPUMemMan) (f r : Nat) (pre post : List Trans2DListElem)
    (tex : GLObject) (users : List Nat)
    (hl : t.m_vpTrans2DList = pre ++ ⟨f, tex, users⟩ :: post)
    (hpre : ∀ x ∈ pre, x.pTransferFunction2D ≠ f) (hr : r ∈ users) :
    t.Free2DTrans f r =
      if users.erase r = [] then { subSizes t tex with m_vpTrans2DList := pre ++ post }
      else { t with m_vpTrans2DList := pre ++ ⟨f, tex, users.erase r⟩ :: post } := by
  have h := splitFirst_append
    (fun i : Trans2DListElem => i.pTransferFunction2D == f && i.qpUser.contains r) pre post
    ⟨f, tex, users⟩ (fun i hi => by simp [hpre i hi]) (by simp [hr])
  simp only [Free2DTrans, hl, h]
  by_cases he : users.erase r = [] <;> simp [he]

theorem Access2DTrans_iterate (f r : Nat) (pre post : List Trans2DListElem) (tex : GLObject)
    (hpre : ∀ x ∈ pre, x.pTransferFunction2D ≠ f) (n : Nat) :
    ∀ (t : GPUMemMan) (m : Nat),
      t.m_vpTrans2DList = pre ++ ⟨f, tex, List.replicate m r⟩ :: post →
      Nat.iterate (fun u => (u.Access2DTrans f r).1) n t =
        { t with m_vpTrans2DList := pre ++ ⟨f, tex, List.replicate (m + n) r⟩ :: post } := by
  induction n with
  | zero =>
    intro t m hl
    simp [← hl]
  | succ n ih =>
    intro t m hl
    rw [Function.iterate_succ_apply]
    have h1 := Access2DTrans_hit t f r pre post tex (List.replicate m r) hl hpre
    rw [← List.replicate_succ'] at h1
    simp only [h1]
    rw [ih _ (m + 1) rfl]
    have : m + 1 + n = m + (n + 1) := by omega
    simp [this]

theorem Free2DTrans_one (t : GPUMemMan) (f r : Nat) (pre post : List Trans2DListElem)
    (tex : GLObject) (m : Nat)
    (hl : t.m_vpTrans2DList = pre ++ ⟨f, tex, List.replicate (m + 1) r⟩ :: post)
    (hpre : ∀ x ∈ pre, x.pTransferFunction2D ≠ f) :
    t.Free2DTrans f r =
      if m = 0 then { subSizes t tex with m_vpTrans2DList := pre ++ post }
      else { t with m_vpTrans2DList := pre ++ ⟨f, tex, List.replicate m r⟩ :: post } := by
  have h := Free2DTrans_hit t f r pre post tex (List.replicate (m + 1) r) hl hpre
    (by simp)
  have he : (List.replicate (m + 1) r).erase r = List.replicate m r := by
    simp [List.replicate_succ]
  rw [h, he]
  cases m with
  | zero => simp
  | succ m => simp [List.replicate_succ]

theorem Free2DTrans_iterate_keep (f r : Nat) (pre post : List Trans2DListElem) (tex : GLObject)
    (hpre : ∀ x ∈ pre, x.pTransferFunction2D ≠ f) (j : Nat) :
    ∀ (t : GPUMemMan) (m : Nat), j ≤ m →
      t.m_vpTrans2DList = pre ++ ⟨f, tex, List.replicate (m + 1) r⟩ :: post →
      Nat.iterate (fun u => u.Free2DTrans f r) j t =
        { t with m_vpTrans2DList := pre ++ ⟨f, tex, List.replicate (m + 1 - j) r⟩ :: post } := by
  induction j with
  | zero =>
    intro t m _ hl
    simp [← hl]
  | succ j ih =>
    intro t m hj hl
    obtain ⟨m', rfl⟩ : ∃ m', m = m' + 1 := ⟨m - 1, by omega⟩
    rw [Function.iterate_succ_apply]
    have h1 := Free2DTrans_one t f r pre post tex (m' + 1) hl hpre
    rw [if_neg (by omega)] at h1
    simp only [h1]
    rw [ih _ m' (by omega) rfl]
    have : m' + 1 + 1 - (j + 1) = m' + 1 - j := by omega
    simp [this]
/-! ## One requester holding a resource several times -/

theorem LoadDataset_iterate (p : String) (r : Nat) (dataset d0 : VolumeDataset)
    (pre : List VolDataListElem) (hpre : ∀ e ∈ pre, e.pVolumeDataset.filename ≠ p)
    (hd0 : d0.filename = p) (n : Nat) :
    ∀ (t : GPUMemMan) (m : Nat),
      t.m_vpVolumeDatasets = pre ++ [⟨d0, List.replicate m r⟩] →
      Nat.iterate (fun u => (u.LoadDataset p r dataset).1) n t =
        { t with m_vpVolumeDatasets := pre ++ [⟨d0, List.replicate (m + n) r⟩] } := by
  induction n with
  | zero =>
    intro t m hl
    simp [← hl]
  | succ n ih =>
    intro t m hl
    rw [Function.iterate_succ_apply]
    have h1 := LoadDataset_hit_last t p r dataset pre d0 (List.replicate m r) hl hpre hd0
    rw [← List.replicate_succ'] at h1
    simp only [h1]
    rw [ih _ (m + 1) rfl]
    have : m + 1 + n = m + (n + 1) := by omega
    simp [this]

theorem FreeDataset_calls_keep (r : Nat) (d0 : VolumeDataset) (pre : List VolDataListElem)
    (hpre : ∀ e ∈ pre, e.pVolumeDataset.addr ≠ d0.addr) (fns : List (Option String)) :
    ∀ (t : GPUMemMan) (m : Nat), fns.length ≤ m →
      t.m_vpVolumeDatasets = pre ++ [⟨d0, List.replicate (m + 1) r⟩] →
      ∃ u, FreeDataset.calls d0.addr r t fns = some u ∧
        u.m_vpVolumeDatasets = pre ++ [⟨d0, List.replicate (m + 1 - fns.length) r⟩] := by
  induction fns with
  | nil =>
    intro t m _ hl
    exact ⟨t, rfl, by simpa using hl⟩
  | cons fn fns ih =>
    intro t m hj hl
    simp only [List.length_cons] at hj
    obtain ⟨m', rfl⟩ : ∃ m', m = m' + 1 := ⟨m - 1, by omega⟩
    obtain ⟨u1, hu1, hd1⟩ :=
      FreeDataset_hit_last t r fn pre d0 (List.replicate (m' + 1 + 1) r) hl hpre (by simp)
    have he : (List.replicate (m' + 1 + 1) r).erase r = List.replicate (m' + 1) r := by
      simp [List.replicate_succ]
    rw [he, if_neg (by simp [List.replicate_succ])] at hd1
    obtain ⟨u, hu, hd⟩ := ih u1 m' (by omega) hd1
    refine ⟨u, ?_, ?_⟩
    · simp only [FreeDataset.calls, hu1]
      exact hu
    · rw [hd]
      have : m' + 1 + 1 - (fns.length + 1) = m' + 1 - fns.length := by omega
      simp only [List.length_cons, this]

theorem FreeDataset_calls_all (r : Nat) (d0 : VolumeDataset) (pre : List VolDataListElem)
    (hpre : ∀ e ∈ pre, e.pVolumeDataset.addr ≠ d0.addr) (fns : List (Option String)) :
    ∀ (t : GPUMemMan) (m : Nat), fns.length = m + 1 →
      t.m_vpVolumeDatasets = pre ++ [⟨d0, List.replicate (m + 1) r⟩] →
      ∃ u, FreeDataset.calls d0.addr r t fns = some u ∧ u.m_vpVolumeDatasets = pre := by
  induction fns with
  | nil =>
    intro t m hj _
    simp at hj
  | cons fn fns ih =>
    intro t m hj hl
    simp only [List.length_cons, Nat.add_right_cancel_iff] at hj
    obtain ⟨u1, hu1, hd1⟩ :=
      FreeDataset_hit_last t r fn pre d0 (List.replicate (m + 1) r) hl hpre (by simp)
    cases m with
    | zero =>
      have hnil : fns = [] := List.length_eq_zero.mp hj
      subst hnil
      refine ⟨u1, by simp only [FreeDataset.calls, hu1], ?_⟩
      rw [hd1]
      simp
    | succ m' =>
      have he : (List.replicate (m' + 1 + 1) r).erase r = List.replicate (m' + 1) r := by
        simp [List.replicate_succ]
      rw [he, if_neg (by simp [List.replicate_succ])] at hd1
      obtain ⟨u, hu, hd⟩ := ih u1 m' hj hd1
      refine ⟨u, ?_, hd⟩
      simp only [FreeDataset.calls, hu1]
      exact hu

/-- C24: owner lists count holds. (Datasets) On a state with no entry for `p`,
`n + 1` successful `LoadDataset(p, r)` calls by one requester, the dataset being
opened at an address no registered dataset has, each return the same handle and
leave one entry whose owner list holds `r` exactly `n + 1` times; `j ≤ n`
calls of `FreeDataset(handle, r)` all return and the entry is still there, holding
`r` exactly `n + 1 - j` times, and `n + 1` calls all return and the entry is gone.
(1-D transfer functions, whatever the other registries hold) On an entry for `f`
created with the single owner `r`, `n` calls of `Access1DTrans(f, r)` leave `r`
exactly `n + 1` times in its owner list; after `j ≤ n` calls of `Free1DTrans(f, r)`
the entry is still there with `r` exactly `n + 1 - j` times and nothing else
changed, and the call number `n + 1` erases it and subtracts its texture's sizes.
(2-D transfer functions) `Access2DTrans` / `Free2DTrans` do the same. -/
theorem C24_owner_lists_count_holds (s : GPUMemMan) (r : Nat) (n : Nat) :
    (∀ (p : String) (dataset : VolumeDataset),
      (∀ i ∈ s.m_vpVolumeDatasets, i.pVolumeDataset.filename ≠ p) →
      dataset.isOpen = true → dataset.filename = p →
      (∀ i ∈ s.m_vpVolumeDatasets, i.pVolumeDataset.addr ≠ dataset.addr) →
      (Nat.iterate (fun u => (u.LoadDataset p r dataset).1) (n + 1) s).m_vpVolumeDatasets =
        s.m_vpVolumeDatasets ++ [⟨dataset, List.replicate (n + 1) r⟩] ∧
      (∀ i, i ≤ n →
        ((Nat.iterate (fun u => (u.LoadDataset p r dataset).1) i s).LoadDataset p r dataset).2
          = some dataset.addr) ∧
      (∀ pointees : List (Option String), pointees.length ≤ n →
        ∃ u, FreeDataset.calls dataset.addr r
            (Nat.iterate (fun u => (u.LoadDataset p r dataset).1) (n + 1) s) pointees
            = some u ∧
          u.m_vpVolumeDatasets =
            s.m_vpVolumeDatasets ++ [⟨dataset, List.replicate (n + 1 - pointees.length) r⟩]) ∧
      (∀ pointees : List (Option String), pointees.length = n + 1 →
        ∃ u, FreeDataset.calls dataset.addr r
            (Nat.iterate (fun u => (u.LoadDataset p r dataset).1) (n + 1) s) pointees
            = some u ∧
          u.m_vpVolumeDatasets = s.m_vpVolumeDatasets)) ∧
    (∀ (f1 : Nat) (pre1 post1 : List Trans1DListElem) (tex1 : GLObject),
      s.m_vpTrans1DList = pre1 ++ ⟨f1, tex1, [r]⟩ :: post1 →
      (∀ x ∈ pre1, x.pTransferFunction1D ≠ f1) →
      Nat.iterate (fun u => (u.Access1DTrans f1 r).1) n s =
        { s with m_vpTrans1DList := pre1 ++ ⟨f1, tex1, List.replicate (n + 1) r⟩ :: post1 } ∧
      (∀ j, j ≤ n →
        Nat.iterate (fun u => u.Free1DTrans f1 r) j
          (Nat.iterate (fun u => (u.Access1DTrans f1 r).1) n s) =
          { s with
            m_vpTrans1DList := pre1 ++ ⟨f1, tex1, List.replicate (n + 1 - j) r⟩ :: post1 }) ∧
      Nat.iterate (fun u => u.Free1DTrans f1 r) (n + 1)
        (Nat.iterate (fun u => (u.Access1DTrans f1 r).1) n s) =
        { subSizes s tex1 with m_vpTrans1DList := pre1 ++ post1 }) ∧
    (∀ (f2 : Nat) (pre2 post2 : List Trans2DListElem) (tex2 : GLObject),
      s.m_vpTrans2DList = pre2 ++ ⟨f2, tex2, [r]⟩ :: post2 →
      (∀ x ∈ pre2, x.pTransferFunction2D ≠ f2) →
      Nat.iterate (fun u => (u.Access2DTrans f2 r).1) n s =
        { s with m_vpTrans2DList := pre2 ++ ⟨f2, tex2, List.replicate (n + 1) r⟩ :: post2 } ∧
      (∀ j, j ≤ n →
        Nat.iterate (fun u => u.Free2DTrans f2 r) j
          (Nat.iterate (fun u => (u.Access2DTrans f2 r).1) n s) =
          { s with
            m_vpTrans2DList := pre2 ++ ⟨f2, tex2, List.replicate (n + 1 - j) r⟩ :: post2 }) ∧
      Nat.iterate (fun u => u.Free2DTrans f2 r) (n + 1)
        (Nat.iterate (fun u => (u.Access2DTrans f2 r).1) n s) =
        { subSizes s tex2 with m_vpTrans2DList := pre2 ++ post2 }) := by
  refine ⟨?_, ?_, ?_⟩
  · -- datasets
    intro p dataset hp hopen hname hfresh
    have hfirst := LoadDataset_miss s p r dataset hp hopen
    have hL : ∀ i, Nat.iterate (fun u => (u.LoadDataset p r dataset).1) (i + 1) s =
        { s with m_vpVolumeDatasets :=
            s.m_vpVolumeDatasets ++ [⟨dataset, List.replicate (i + 1) r⟩] } := by
      intro i
      rw [Function.iterate_succ_apply]
      simp only [hfirst]
      rw [LoadDataset_iterate p r dataset dataset s.m_vpVolumeDatasets hp hname i _ 1 rfl]
      have : 1 + i = i + 1 := by omega
      simp [this]
    refine ⟨by rw [hL n], ?_, ?_, ?_⟩
    · intro i _
      cases i with
      | zero => simp [hfirst]
      | succ i =>
        rw [hL i]
        rw [LoadDataset_hit_last _ p r dataset s.m_vpVolumeDatasets dataset
          (List.replicate (i + 1) r) rfl hp hname]
    · intro pointees hj
      rw [hL n]
      exact FreeDataset_calls_keep r dataset s.m_vpVolumeDatasets hfresh pointees _ n hj rfl
    · intro pointees hj
      rw [hL n]
      exact FreeDataset_calls_all r dataset s.m_vpVolumeDatasets hfresh pointees _ n hj rfl
  · intro f1 pre1 post1 tex1 hl1 hpre1
    have hA := Access1DTrans_iterate f1 r pre1 post1 tex1 hpre1 n s 1 (by simpa using hl1)
    have h1n : 1 + n = n + 1 := by omega
    rw [h1n] at hA
    have hK : ∀ j, j ≤ n →
        Nat.iterate (fun u : GPUMemMan => u.Free1DTrans f1 r) j
          ({ s with
            m_vpTrans1DList := pre1 ++ ⟨f1, tex1, List.replicate (n + 1) r⟩ :: post1 } :
            GPUMemMan) =
          ({ s with
            m_vpTrans1DList := pre1 ++ ⟨f1, tex1, List.replicate (n + 1 - j) r⟩ :: post1 } :
            GPUMemMan) :=
      fun j hj => Free1DTrans_iterate_keep f1 r pre1 post1 tex1 hpre1 j
        { s with
          m_vpTrans1DList := pre1 ++ ⟨f1, tex1, List.replicate (n + 1) r⟩ :: post1 } n hj rfl
    refine ⟨hA, ?_, ?_⟩
    · intro j hj
      rw [hA]
      exact hK j hj
    · rw [hA, Function.iterate_succ_apply', hK n (Nat.le_refl _)]
      have h1 := Free1DTrans_one
        { s with m_vpTrans1DList := pre1 ++ ⟨f1, tex1, List.replicate (n + 1 - n) r⟩ :: post1 }
        f1 r pre1 post1 tex1 0 (by simp) hpre1
      rw [h1]
      rfl
  · intro f2 pre2 post2 tex2 hl2 hpre2
    have hA := Access2DTrans_iterate f2 r pre2 post2 tex2 hpre2 n s 1 (by simpa using hl2)
    have h1n : 1 + n = n + 1 := by omega
    rw [h1n] at hA
    have hK : ∀ j, j ≤ n →
        Nat.iterate (fun u : GPUMemMan => u.Free2DTrans f2 r) j
          ({ s with
            m_vpTrans2DList := pre2 ++ ⟨f2, tex2, List.replicate (n + 1) r⟩ :: post2 } :
            GPUMemMan) =
          ({ s with
            m_vpTrans2DList := pre2 ++ ⟨f2, tex2, List.replicate (n + 1 - j) r⟩ :: post2 } :
            GPUMemMan) :=
      fun j hj => Free2DTrans_iterate_keep f2 r pre2 post2 tex2 hpre2 j
        { s with
          m_vpTrans2DList := pre2 ++ ⟨f2, tex2, List.replicate (n + 1) r⟩ :: post2 } n hj rfl
    refine ⟨hA, ?_, ?_⟩
    · intro j hj
      rw [hA]
      exact hK j hj
    · rw [hA, Function.iterate_succ_apply', hK n (Nat.le_refl _)]
      have h1 := Free2DTrans_one
        { s with m_vpTrans2DList := pre2 ++ ⟨f2, tex2, List.replicate (n + 1 - n) r⟩ :: post2 }
        f2 r pre2 post2 tex2 0 (by simp) hpre2
      rw [h1]
      rfl

/-- Witness of C24 with three holds of each resource (`n = 2`). On the freshly
constructed manager, which has no transfer function, renderer 1 loads "foot.uvf"
three times and the third `FreeDataset` empties the dataset registry again. On
`exampleManager` renderer 1, the only owner of the transfer functions 300 and
400, accesses each twice more and the third release erases the entry. -/
theorem C24_owner_lists_count_holds_witness :
    GPUMemMan.init.m_vpTrans1DList = [] ∧ GPUMemMan.init.m_vpTrans2DList = [] ∧
    (Nat.iterate (fun u => (u.LoadDataset "foot.uvf" 1 ⟨110, "foot.uvf", true⟩).1) 3
        GPUMemMan.init).m_vpVolumeDatasets =
      GPUMemMan.init.m_vpVolumeDatasets ++ [⟨⟨110, "foot.uvf", true⟩, [1, 1, 1]⟩] ∧
    (∃ u, FreeDataset.calls 110 1
        (Nat.iterate (fun u => (u.LoadDataset "foot.uvf" 1 ⟨110, "foot.uvf", true⟩).1) 3
          GPUMemMan.init) [none, none, none] = some u ∧
      u.m_vpVolumeDatasets = GPUMemMan.init.m_vpVolumeDatasets) ∧
    exampleManager.m_vpTrans1DList = [] ++ ⟨300, ⟨301, 8, 16⟩, [1]⟩ :: [] ∧
    Nat.iterate (fun u => u.Free1DTrans 300 1) 3
        (Nat.iterate (fun u => (u.Access1DTrans 300 1).1) 2 exampleManager) =
      { subSizes exampleManager ⟨301, 8, 16⟩ with m_vpTrans1DList := [] ++ [] } ∧
    exampleManager.m_vpTrans2DList = [] ++ ⟨400, ⟨401, 8, 16⟩, [1]⟩ :: [] ∧
    Nat.iterate (fun u => u.Free2DTrans 400 1) 3
        (Nat.iterate (fun u => (u.Access2DTrans 400 1).1) 2 exampleManager) =
      { subSizes exampleManager ⟨401, 8, 16⟩ with m_vpTrans2DList := [] ++ [] } := by
  have hd := (C24_owner_lists_count_holds GPUMemMan.init 1 2).1 "foot.uvf"
    ⟨110, "foot.uvf", true⟩ (by decide) rfl rfl (by decide)
  have h1 := (C24_owner_lists_count_holds exampleManager 1 2).2.1 300 [] [] ⟨301, 8, 16⟩
    (by decide) (by simp)
  have h2 := (C24_owner_lists_count_holds exampleManager 1 2).2.2 400 [] [] ⟨401, 8, 16⟩
    (by decide) (by simp)
  exact ⟨by decide, by decide, hd.1, hd.2.2.2 [none, none, none] rfl, by decide, h1.2.2,
    by decide, h2.2.2⟩

/-! ## Totals and sums without wrap-around -/

theorem sizeSums_FreeAssociatedTextures_loop_le (d : Nat) (fuel : Nat) :
    ∀ (i : Nat) (s s1 : GPUMemMan), FreeAssociatedTextures.loop d fuel i s = some s1 →
      s1.cpuSizeSum ≤ s.cpuSizeSum ∧ s1.gpuSizeSum ≤ s.gpuSizeSum := by
  induction fuel with
  | zero => intro i s s1 h; simp [FreeAssociatedTextures.loop] at h
  | succ fuel ih =>
    intro i s s1 h
    unfold FreeAssociatedTextures.loop at h
    cases hget : s.m_vpTex3DList[i]? with
    | none =>
      simp only [hget] at h
      cases h
      exact ⟨Nat.le_refl _, Nat.le_refl _⟩
    | some e =>
      simp only [hget] at h
      by_cases hd : (e.pDataset == d) = true
      · rw [if_pos hd] at h
        have h1 := ih _ _ _ h
        have hc := sum_map_eraseIdx (fun t : Texture3DListElem => t.pTexture.cpuSize) _ i e hget
        have hg := sum_map_eraseIdx (fun t : Texture3DListElem => t.pTexture.gpuSize) _ i e hget
        unfold cpuSizeSum gpuSizeSum subSizes at *
        simp only at hc hg h1 ⊢
        omega
      · rw [if_neg hd] at h
        exact ih _ _ _ h

theorem sizeSums_FreeAssociatedTextures_le (s : GPUMemMan) (d : Nat) :
    (s.FreeAssociatedTextures d).cpuSizeSum ≤ s.cpuSizeSum ∧
      (s.FreeAssociatedTextures d).gpuSizeSum ≤ s.gpuSizeSum := by
  unfold FreeAssociatedTextures
  cases hl : FreeAssociatedTextures.loop d (s.m_vpTex3DList.length + 1) 0 s with
  | none => exact ⟨Nat.le_refl _, Nat.le_refl _⟩
  | some s1 => simpa using sizeSums_FreeAssociatedTextures_loop_le d _ _ _ _ hl

theorem sizeSums_FreeDataset_le (s : GPUMemMan) (p r : Nat) (fn : Option String) :
    ((s.FreeDataset p r fn).getD s).cpuSizeSum ≤ s.cpuSizeSum ∧
      ((s.FreeDataset p r fn).getD s).gpuSizeSum ≤ s.gpuSizeSum := by
  unfold FreeDataset
  cases hs : splitFirst
      (fun i : VolDataListElem => i.pVolumeDataset.addr == p && i.qpUser.contains r)
      s.m_vpVolumeDatasets with
  | none => cases fn <;> exact ⟨Nat.le_refl _, Nat.le_refl _⟩
  | some x =>
    obtain ⟨pre, i, post⟩ := x
    simp only
    split
    · exact sizeSums_FreeAssociatedTextures_le s p
    · exact ⟨Nat.le_refl _, Nat.le_refl _⟩

theorem sizeSums_FreeTexture_le (s : GPUMemMan) (p : Nat) :
    (s.FreeTexture p).cpuSizeSum ≤ s.cpuSizeSum ∧ (s.FreeTexture p).gpuSizeSum ≤ s.gpuSizeSum := by
  unfold FreeTexture
  cases hs : splitFirst (fun i : SimpleTextureListElem => i.pTexture.addr == p) s.m_vpSimpleTextures with
  | none => exact ⟨Nat.le_refl _, Nat.le_refl _⟩
  | some x =>
    obtain ⟨pre, i, post⟩ := x
    obtain ⟨hl, -, -⟩ := splitFirst_eq_some _ _ _ _ _ hs
    simp only
    split
    · unfold cpuSizeSum gpuSizeSum subSizes
      simp only [hl, List.map_append, List.sum_append, List.map_cons, List.sum_cons]
      omega
    · unfold cpuSizeSum gpuSizeSum
      simp only [hl, List.map_append, List.sum_append, List.map_cons, List.sum_cons]
      omega

theorem sizeSums_Free1DTrans_le (s : GPUMemMan) (p r : Nat) :
    (s.Free1DTrans p r).cpuSizeSum ≤ s.cpuSizeSum ∧ (s.Free1DTrans p r).gpuSizeSum ≤ s.gpuSizeSum := by
  unfold Free1DTrans
  cases hs : splitFirst (fun i : Trans1DListElem => i.pTransferFunction1D == p && i.qpUser.contains r) s.m_vpTrans1DList with
  | none => exact ⟨Nat.le_refl _, Nat.le_refl _⟩
  | some x =>
    obtain ⟨pre, i, post⟩ := x
    obtain ⟨hl, -, -⟩ := splitFirst_eq_some _ _ _ _ _ hs
    simp only
    split
    · unfold cpuSizeSum gpuSizeSum subSizes
      simp only [hl, List.map_append, List.sum_append, List.map_cons, List.sum_cons]
      omega
    · unfold cpuSizeSum gpuSizeSum
      simp only [hl, List.map_append, List.sum_append, List.map_cons, List.sum_cons]
      omega

theorem sizeSums_Free2DTrans_le (s : GPUMemMan) (p r : Nat) :
    (s.Free2DTrans p r).cpuSizeSum ≤ s.cpuSizeSum ∧ (s.Free2DTrans p r).gpuSizeSum ≤ s.gpuSizeSum := by
  unfold Free2DTrans
  cases hs : splitFirst (fun i : Trans2DListElem => i.pTransferFunction2D == p && i.qpUser.contains r) s.m_vpTrans2DList with
  | none => exact ⟨Nat.le_refl _, Nat.le_refl _⟩
  | some x =>
    obtain ⟨pre, i, post⟩ := x
    obtain ⟨hl, -, -⟩ := splitFirst_eq_some _ _ _ _ _ hs
    simp only
    split
    · unfold cpuSizeSum gpuSizeSum subSizes
      simp only [hl, List.map_append, List.sum_append, List.map_cons, List.sum_cons]
      omega
    · unfold cpuSizeSum gpuSizeSum
      simp only [hl, List.map_append, List.sum_append, List.map_cons, List.sum_cons]
      omega

theorem sizeSums_FreeFBO_le (s : GPUMemMan) (p : Nat) :
    (s.FreeFBO p).cpuSizeSum ≤ s.cpuSizeSum ∧ (s.FreeFBO p).gpuSizeSum ≤ s.gpuSizeSum := by
  unfold FreeFBO
  cases hs : splitFirst (fun i : FBOListElem => i.pFBOTex.addr == p) s.m_vpFBOList with
  | none => exact ⟨Nat.le_refl _, Nat.le_refl _⟩
  | some x =>
    obtain ⟨pre, i, post⟩ := x
    obtain ⟨hl, -, -⟩ := splitFirst_eq_some _ _ _ _ _ hs
    unfold cpuSizeSum gpuSizeSum subSizes
    simp only [hl, List.map_append, List.sum_append, List.map_cons, List.sum_cons]
    omega

theorem sizeSums_FreeGLSLProgram_le (s : GPUMemMan) (p : Nat) :
    (s.FreeGLSLProgram p).cpuSizeSum ≤ s.cpuSizeSum ∧ (s.FreeGLSLProgram p).gpuSizeSum ≤ s.gpuSizeSum := by
  unfold FreeGLSLProgram
  cases hs : splitFirst (fun i : GLSLListElem => i.pGLSLProgram.addr == p) s.m_vpGLSLList with
  | none => exact ⟨Nat.le_refl _, Nat.le_refl _⟩
  | some x =>
    obtain ⟨pre, i, post⟩ := x
    obtain ⟨hl, -, -⟩ := splitFirst_eq_some _ _ _ _ _ hs
    simp only
    split
    · unfold cpuSizeSum gpuSizeSum subSizes
      simp only [hl, List.map_append, List.sum_append, List.map_cons, List.sum_cons]
      omega
    · unfold cpuSizeSum gpuSizeSum
      simp only [hl, List.map_append, List.sum_append, List.map_cons, List.sum_cons]
      omega

/-- A release never raises the sums of the registered sizes. -/
theorem sizeSums_release_le (s : GPUMemMan) (op : Op) (hop : op.isRelease = true) :
    (step s op).cpuSizeSum ≤ s.cpuSizeSum ∧ (step s op).gpuSizeSum ≤ s.gpuSizeSum := by
  cases op with
  | FreeDataset p r fn => exact sizeSums_FreeDataset_le s p r fn
  | FreeTexture p => exact sizeSums_FreeTexture_le s p
  | Free1DTrans p r => exact sizeSums_Free1DTrans_le s p r
  | Free2DTrans p r => exact sizeSums_Free2DTrans_le s p r
  | FreeFBO p => exact sizeSums_FreeFBO_le s p
  | FreeGLSLProgram p => exact sizeSums_FreeGLSLProgram_le s p
  | _ => simp [Op.isRelease] at hop

/-- C25 as stated fails on a reachable state: after two `GetFBO` calls whose
targets each report `GetCPUSize() = 2^63`, the second addition has wrapped, so
`m_iAllocatedGPUMemory` is 0 while the registered `GetCPUSize()` values sum to
`2^64`; the `FreeFBO` of target 600 then subtracts `2^63` from the total 0 and
wraps to `2^63`. -/
theorem C25_counterexample :
    (¬ ∀ s : GPUMemMan, Reachable s →
        s.m_iAllocatedGPUMemory = s.cpuSizeSum ∧ s.m_iAllocatedCPUMemory = s.gpuSizeSum) ∧
    Reachable overflowManager ∧
    overflowManager.m_iAllocatedGPUMemory = 0 ∧
    overflowManager.cpuSizeSum = 18446744073709551616 ∧
    overflowManager.m_vpFBOList = [⟨⟨600, 9223372036854775808, 0⟩⟩,
      ⟨⟨610, 9223372036854775808, 0⟩⟩] ∧
    (overflowManager.FreeFBO 600).m_iAllocatedGPUMemory = 9223372036854775808 := by
  refine ⟨?_, ⟨_, rfl⟩, by decide, by decide, by decide, by decide⟩
  intro h
  have h2 := (h overflowManager ⟨_, rfl⟩).1
  revert h2
  decide

/-- C25 (amended): in every reachable state `m_iAllocatedGPUMemory` is the sum of
`GetCPUSize()` and `m_iAllocatedCPUMemory` the sum of `GetGPUSize()` over the
entries of the image, 1-D and 2-D transfer-function, 3-D texture, offscreen-target
and shader registries, both modulo `2^64`; dataset entries contribute nothing.
Where the two sums are below `2^64`, the totals equal the sums exactly, every
release leaves totals that again equal the (not larger) sums, so that all it
subtracts is no more than the total it starts from, and teardown subtracts
exactly the totals, ending at 0: no subtraction wraps. -/
theorem C25_totals_are_crossed_sums (s : GPUMemMan) (h : Reachable s) :
    (s.m_iAllocatedGPUMemory = s.cpuSizeSum % WORD ∧
      s.m_iAllocatedCPUMemory = s.gpuSizeSum % WORD) ∧
    (∀ (f : String) (r : Nat) (d : VolumeDataset),
      (s.LoadDataset f r d).1.m_iAllocatedGPUMemory = s.m_iAllocatedGPUMemory ∧
      (s.LoadDataset f r d).1.m_iAllocatedCPUMemory = s.m_iAllocatedCPUMemory ∧
      (s.LoadDataset f r d).1.cpuSizeSum = s.cpuSizeSum ∧
      (s.LoadDataset f r d).1.gpuSizeSum = s.gpuSizeSum) ∧
    (s.cpuSizeSum < WORD → s.gpuSizeSum < WORD →
      (s.m_iAllocatedGPUMemory = s.cpuSizeSum ∧ s.m_iAllocatedCPUMemory = s.gpuSizeSum) ∧
      (∀ op : Op, op.isRelease = true →
        (step s op).cpuSizeSum ≤ s.cpuSizeSum ∧ (step s op).gpuSizeSum ≤ s.gpuSizeSum ∧
        (step s op).m_iAllocatedGPUMemory = (step s op).cpuSizeSum ∧
        (step s op).m_iAllocatedCPUMemory = (step s op).gpuSizeSum ∧
        (step s op).m_iAllocatedGPUMemory =
          s.m_iAllocatedGPUMemory - (s.cpuSizeSum - (step s op).cpuSizeSum) ∧
        (step s op).m_iAllocatedCPUMemory =
          s.m_iAllocatedCPUMemory - (s.gpuSizeSum - (step s op).gpuSizeSum)) ∧
      (s.cpuSizeSum ≤ s.m_iAllocatedGPUMemory ∧ s.gpuSizeSum ≤ s.m_iAllocatedCPUMemory ∧
        (destructor s).m_iAllocatedGPUMemory = s.m_iAllocatedGPUMemory - s.cpuSizeSum ∧
        (destructor s).m_iAllocatedCPUMemory = s.m_iAllocatedCPUMemory - s.gpuSizeSum ∧
        (destructor s).m_iAllocatedGPUMemory = 0 ∧
        (destructor s).m_iAllocatedCPUMemory = 0)) := by
  have hinv := TotalsInv_of_Reachable s h
  refine ⟨hinv, ?_, ?_⟩
  · intro f r d
    unfold LoadDataset
    cases hs : splitFirst (fun i : VolDataListElem => i.pVolumeDataset.filename == f)
        s.m_vpVolumeDatasets with
    | none =>
      simp only
      split <;> exact ⟨rfl, rfl, rfl, rfl⟩
    | some x =>
      obtain ⟨pre, i, post⟩ := x
      exact ⟨rfl, rfl, rfl, rfl⟩
  · intro hc hg
    have e1 : s.m_iAllocatedGPUMemory = s.cpuSizeSum := by
      rw [hinv.1]; exact Nat.mod_eq_of_lt hc
    have e2 : s.m_iAllocatedCPUMemory = s.gpuSizeSum := by
      rw [hinv.2]; exact Nat.mod_eq_of_lt hg
    refine ⟨⟨e1, e2⟩, ?_, ?_⟩
    · intro op hop
      obtain ⟨l1, l2⟩ := sizeSums_release_le s op hop
      have hinv2 := TotalsInv_step s op hinv
      have f1 : (step s op).m_iAllocatedGPUMemory = (step s op).cpuSizeSum := by
        rw [hinv2.1]; exact Nat.mod_eq_of_lt (Nat.lt_of_le_of_lt l1 hc)
      have f2 : (step s op).m_iAllocatedCPUMemory = (step s op).gpuSizeSum := by
        rw [hinv2.2]; exact Nat.mod_eq_of_lt (Nat.lt_of_le_of_lt l2 hg)
      refine ⟨l1, l2, f1, f2, ?_, ?_⟩
      · rw [f1, e1]; omega
      · rw [f2, e2]; omega
    · have hg' : s.m_iAllocatedGPUMemory < WORD := by rw [e1]; exact hc
      have hc' : s.m_iAllocatedCPUMemory < WORD := by rw [e2]; exact hg
      have hd := destructor_eq s hg' hc'
      have z1 : (destructor s).m_iAllocatedGPUMemory = 0 := by
        rw [hd]
        simp only
        rw [e1]
        unfold wsub WORD
        omega
      have z2 : (destructor s).m_iAllocatedCPUMemory = 0 := by
        rw [hd]
        simp only
        rw [e2]
        unfold wsub WORD
        omega
      refine ⟨by rw [e1], by rw [e2], ?_, ?_, z1, z2⟩
      · rw [z1, e1]; omega
      · rw [z2, e2]; omega

/-- Witness of C25 (amended) on `exampleManager`, whose sums 118 and 4304 are far
below `2^64`. -/
theorem C25_totals_are_crossed_sums_witness :
    Reachable exampleManager ∧
    exampleManager.cpuSizeSum < WORD ∧ exampleManager.gpuSizeSum < WORD ∧
    (exampleManager.m_iAllocatedGPUMemory = exampleManager.cpuSizeSum ∧
      exampleManager.m_iAllocatedCPUMemory = exampleManager.gpuSizeSum) ∧
    (step exampleManager (.FreeFBO 600)).m_iAllocatedCPUMemory =
      exampleManager.m_iAllocatedCPUMemory -
        (exampleManager.gpuSizeSum - (step exampleManager (.FreeFBO 600)).gpuSizeSum) :=
  ⟨⟨_, rfl⟩, by decide, by decide,
    ((C25_totals_are_crossed_sums exampleManager ⟨_, rfl⟩).2.2 (by decide) (by decide)).1,
    (((C25_totals_are_crossed_sums exampleManager ⟨_, rfl⟩).2.2 (by decide) (by decide)).2.1
      (.FreeFBO 600) rfl).2.2.2.2.2⟩


end ImageVis3D
